import Mathlib

/-! Http2DataCutter: scanner, chunk wrapper and reassembler.

A shallow embedding of `src/service_inspectors/http2_inspect/http2_data_cutter.cc`.

* `uint32_t` / `unsigned` values are natural numbers below `2 ^ 32`; every addition and
  subtraction of the source is written with `add32` / `sub32`, which wrap modulo `2 ^ 32`.
* A `const uint8_t*` buffer is a `List Nat`; the `length` argument that travels with it is a
  separate argument, as in the source.
* The two `while` loops are modelled with an explicit iteration budget (`fuel`); a loop that
  exhausts it yields `none`.
* `assert` does not stop the model: a violated assertion clears the flag `asserts_hold`
  of the flow data and execution continues as in a release build.
* Only the `[source_id]` slot of each per-direction array of the flow data is modelled, since the
  cutter never touches the other direction.
-/

namespace Http2DataCutter

/-! ## Machine arithmetic -/

/-- Wrapping 32-bit addition. -/
def add32 (a b : Nat) : Nat := (a + b) % 4294967296

/-- Wrapping 32-bit subtraction. -/
def sub32 (a b : Nat) : Nat := (a + (4294967296 - b % 4294967296)) % 4294967296

/-! ## Enumerations and constants declared outside the translated file -/

/-- Modelled from the spec: `FRAME_HEADER_LENGTH`, the fixed size of an HTTP/2 frame header
(declared in a header that is not part of the sources); the spec fixes it at 9 bytes. -/
def FRAME_HEADER_LENGTH : Nat := 9

/-- Modelled from the spec: the `DataState` enumeration of the class declaration (tag
`scan_state` of the Frame Context). -/
inductive DataState where
  | PADDING_LENGTH | DATA | PADDING | FULL_FRAME
  deriving DecidableEq, Repr

/-- Modelled from the spec: the `HttpScanState` enumeration of the class declaration (tag
`wrap_state` of the Frame Context). -/
inductive HttpScanState where
  | NONE_SENT | HEADER_SENT
  deriving DecidableEq, Repr

/-- Modelled from the spec: the `ReassembleState` enumeration of the class declaration. -/
inductive ReassembleState where
  | SKIP_FRAME_HDR | SKIP_PADDING_LEN | SEND_CHUNK_HDR | SEND_DATA | SKIP_PADDING | SEND_CRLF
  deriving DecidableEq, Repr

/-- Modelled from the spec: the status vocabulary of `StreamSplitter::Status`
(`SEARCH` is "need more input"). -/
inductive Status where
  | ABORT | SEARCH | FLUSH
  deriving DecidableEq, Repr

/-- Modelled from the spec: infraction codes of the diagnostic sink. -/
inductive Infraction where
  | INF_PADDING_LEN
  deriving DecidableEq, Repr

/-- Modelled from the spec: event identifiers of the diagnostic sink. -/
inductive EventSid where
  | EVENT_PADDING_LEN
  deriving DecidableEq, Repr

/-- Modelled from the spec: the end-of-message flag handed to the downstream reassemble
operation with the terminal marker. Its numeric value is irrelevant to the cutter. -/
def PKT_PDU_TAIL : Nat := 512

/-! ## The downstream inspector and the flow data -/

/-- Which of the three forwarding sites of `http_scan` / `reassemble` a downstream call
comes from. -/
inductive FwdKind where
  | CHUNK_HDR | PAYLOAD | TERMINAL
  deriving DecidableEq, Repr

/-- One call of the downstream `scan` operation: the byte range handed over. -/
structure ScanCall where
  kind : FwdKind
  bytes : List Nat
  deriving DecidableEq, Repr

/-- One call of the downstream `reassemble` operation with its `total`, `offset`, byte range
and `flags` arguments. -/
structure ReassembleCall where
  kind : FwdKind
  total : Nat
  offset : Nat
  bytes : List Nat
  flags : Nat
  deriving DecidableEq, Repr

/-- The `StreamBuffer` returned by reassemble: `data = none` stands for `nullptr`. -/
structure StreamBuffer where
  data : Option (List Nat)
  length : Nat
  deriving DecidableEq, Repr

/-- The downstream HTTP/1 stream splitter `hi_ss[source_id]`, an opaque collaborator: its
answer to a call is an arbitrary function of all calls made to it so far (the last element of
the history is the current call). -/
structure HttpStreamSplitter where
  scan : List ScanCall → Status
  reassemble : List ReassembleCall → StreamBuffer × Nat

/-- The `[source_id]` slots of `Http2FlowData` that the cutter reads or writes, the log of the
calls made to the downstream inspector, and the assertion flag. -/
structure Http2FlowData where
  infractions : List Infraction := []
  events : List EventSid := []
  scan_remaining_frame_octets : Nat := 0
  scan_octets_seen : Nat := 0
  frame_header : List Nat := []
  frame_header_size : Nat := 0
  frame_data : Option (List Nat) := none
  frame_data_size : Nat := 0
  hi_scan_calls : List ScanCall := []
  hi_reassemble_calls : List ReassembleCall := []
  asserts_hold : Bool := true
  deriving DecidableEq, Repr

/-- The Frame Context: the data members of class `Http2DataCutter`. -/
structure Cutter where
  session_data : Http2FlowData
  frame_length : Nat
  data_len : Nat
  padding_len : Nat := 0
  frame_bytes_seen : Nat := 0
  bytes_sent_http : Nat := 0
  data_bytes_read : Nat := 0
  padding_read : Nat := 0
  hdr_bytes_read : Nat := 0
  cur_data : Nat := 0
  cur_padding : Nat := 0
  cur_data_offset : Nat := 0
  data_state : DataState
  http_state : HttpScanState := HttpScanState.NONE_SENT
  reassemble_state : ReassembleState := ReassembleState.SKIP_FRAME_HDR
  deriving DecidableEq, Repr

/-! ## `create_chunk_hdr` -/

/-- The character `std::hex` prints for one hexadecimal digit (lowercase). -/
def hexDigitChar (d : Nat) : Char :=
  if d < 10 then Char.ofNat (48 + d) else Char.ofNat (87 + d)

/-- The digits of `n` in base 16, most significant first; `budget` bounds the number of
divisions by 16 and any `budget >= n` is enough. -/
def hexDigits : Nat → Nat → List Char
  | 0, n => [hexDigitChar n]
  | budget + 1, n =>
    if n < 16 then [hexDigitChar n] else hexDigits budget (n / 16) ++ [hexDigitChar (n % 16)]

/-- What `stream << std::hex << len` prints: the hexadecimal digits of `len`, most significant
first, without prefix or padding. -/
def hexString (n : Nat) : List Char := hexDigits n n

/-- The string `"\r\n"`. -/
def CRLF : List Char := [Char.ofNat 13, Char.ofNat 10]

/-- `create_chunk_hdr`: hexadecimal text of `len` followed by `"\r\n"`. -/
def create_chunk_hdr (len : Nat) : List Char :=
  hexString len ++ CRLF

/-- The bytes of a `std::string` as passed through `c_str()`. -/
def c_str (s : List Char) : List Nat := s.map Char.toNat

/-- The string literal `"\r\n0\r\n"`, 5 bytes. -/
def END_OF_CHUNK : List Char := CRLF ++ [Char.ofNat 48] ++ CRLF

/-! ## Constructor -/

/-- `Http2DataCutter::Http2DataCutter`: `frame_length(len), data_len(len)` and
`data_state = is_padded ? PADDING_LENGTH : DATA`; every other member has its in-class
initial value. -/
def Cutter.new (session_data : Http2FlowData) (len : Nat) (is_padded : Bool) : Cutter :=
  { session_data := session_data
    frame_length := len
    data_len := len
    data_state := if is_padded then DataState.PADDING_LENGTH else DataState.DATA }

/-! ## `http2_scan` -/

/-- Outcome of one pass through the body of the `while` loop of `http2_scan`. -/
inductive ScanStep where
  | next (c : Cutter) (cur_pos : Nat)
  | ret_false (c : Cutter)

/-- The block `case DATA:` of `http2_scan`: the cutter and `cur_pos` after it. -/
def http2_scan_DATA (length : Nat) (c : Cutter) (cur_pos : Nat) : Cutter × Nat :=
  let missing := sub32 c.data_len c.data_bytes_read
  let cur_data := if sub32 length cur_pos ≥ missing then missing else sub32 length cur_pos
  let data_bytes_read := add32 c.data_bytes_read cur_data
  ({ c with
      cur_data := cur_data
      data_bytes_read := data_bytes_read
      data_state :=
        if data_bytes_read = c.data_len then
          (if c.padding_len ≠ 0 then DataState.PADDING else DataState.FULL_FRAME)
        else c.data_state },
    add32 cur_pos cur_data)

/-- The block `case PADDING:` of `http2_scan`: the cutter and `cur_pos` after it. -/
def http2_scan_PADDING (length : Nat) (c : Cutter) (cur_pos : Nat) : Cutter × Nat :=
  let missing := sub32 c.padding_len c.padding_read
  let cur_padding := if sub32 length cur_pos ≥ missing then missing else sub32 length cur_pos
  let padding_read := add32 c.padding_read cur_padding
  ({ c with
      cur_padding := cur_padding
      padding_read := padding_read
      data_state := if padding_read = c.padding_len then DataState.FULL_FRAME else c.data_state },
    add32 cur_pos cur_padding)

/-- The `switch (data_state)` inside the loop of `http2_scan`. -/
def http2_scan_body (data : List Nat) (length : Nat) (c : Cutter) (cur_pos : Nat) : ScanStep :=
  match c.data_state with
  | DataState.PADDING_LENGTH =>
    let padding_len := data.getD c.cur_data_offset 0 % 256
    if c.data_len ≤ padding_len then
      ScanStep.ret_false
        { c with
          padding_len := padding_len
          session_data :=
            { c.session_data with
              infractions := c.session_data.infractions ++ [Infraction.INF_PADDING_LEN]
              events := c.session_data.events ++ [EventSid.EVENT_PADDING_LEN] } }
    else if c.data_len = add32 padding_len 1 then
      ScanStep.ret_false { c with padding_len := padding_len }
    else
      ScanStep.next
        { c with
          padding_len := padding_len
          data_len := sub32 c.data_len (add32 padding_len 1)
          data_state := DataState.DATA
          cur_data_offset := add32 c.cur_data_offset 1 }
        (add32 cur_pos 1)
  | DataState.DATA =>
    ScanStep.next (http2_scan_DATA length c cur_pos).1 (http2_scan_DATA length c cur_pos).2
  | DataState.PADDING =>
    ScanStep.next (http2_scan_PADDING length c cur_pos).1 (http2_scan_PADDING length c cur_pos).2
  | DataState.FULL_FRAME => ScanStep.next c cur_pos

/-- The loop `while ((cur_pos < length) && (data_state != FULL_FRAME))` of `http2_scan`.
`some (ScanStep.next c cur_pos)` is a normal exit of the loop, `some (ScanStep.ret_false c)` the
`return false` from inside it, `none` an exhausted iteration budget. -/
def http2_scan_loop (data : List Nat) (length : Nat) :
    Nat → Cutter → Nat → Option ScanStep
  | 0, _, _ => none
  | fuel + 1, c, cur_pos =>
    if cur_pos < length ∧ c.data_state ≠ DataState.FULL_FRAME then
      match http2_scan_body data length c cur_pos with
      | ScanStep.ret_false c1 => some (ScanStep.ret_false c1)
      | ScanStep.next c1 cur_pos1 => http2_scan_loop data length fuel c1 cur_pos1
    else
      some (ScanStep.next c cur_pos)

/-- What `http2_scan` leaves behind: its boolean result, the cutter, and `*flush_offset`. -/
structure ScanResult where
  ok : Bool
  c : Cutter
  flush_offset : Nat

/-- The cutter when the loop of `http2_scan` is entered:
`*flush_offset = cur_data_offset = cur_data = cur_padding = 0;` and, on the first call for a
frame, `frame_bytes_seen = cur_data_offset = FRAME_HEADER_LENGTH`. -/
def http2_scan_entry (c : Cutter) : Cutter :=
  if c.frame_bytes_seen = 0 then
    { c with
      cur_data := 0
      cur_padding := 0
      frame_bytes_seen := FRAME_HEADER_LENGTH
      cur_data_offset := FRAME_HEADER_LENGTH }
  else
    { c with cur_data := 0, cur_padding := 0, cur_data_offset := 0 }

/-- The value of `length` when the loop of `http2_scan` is entered: the first call for a
frame executes `length -= FRAME_HEADER_LENGTH`. -/
def scan_length (c : Cutter) (length : Nat) : Nat :=
  if c.frame_bytes_seen = 0 then sub32 length FRAME_HEADER_LENGTH else length

/-- The value of `*flush_offset` when the loop of `http2_scan` is entered. -/
def scan_flush_offset (c : Cutter) : Nat :=
  if c.frame_bytes_seen = 0 then FRAME_HEADER_LENGTH else 0

/-- The statements of `http2_scan` after its loop:
`frame_bytes_seen += cur_pos; scan_remaining_frame_octets = frame_length - frame_bytes_seen`. -/
def http2_scan_exit (c : Cutter) (cur_pos : Nat) : Cutter :=
  { c with
    frame_bytes_seen := add32 c.frame_bytes_seen cur_pos
    session_data :=
      { c.session_data with
        scan_remaining_frame_octets :=
          sub32 c.frame_length (add32 c.frame_bytes_seen cur_pos) } }

/-- `Http2DataCutter::http2_scan`. -/
def http2_scan (fuel : Nat) (c : Cutter) (data : List Nat) (length : Nat) : Option ScanResult :=
  match http2_scan_loop data (scan_length c length) fuel (http2_scan_entry c) 0 with
  | none => none
  | some (ScanStep.ret_false c1) =>
    some { ok := false, c := c1, flush_offset := scan_flush_offset c }
  | some (ScanStep.next c1 cur_pos) =>
    some { ok := true
           c := http2_scan_exit c1 cur_pos
           flush_offset := add32 (scan_flush_offset c) cur_pos }

/-! ## `http_scan` and `scan` -/

/-- A call `session_data->hi_ss[source_id]->scan(...)`: the byte range is appended to the log
of downstream scan calls and the downstream inspector answers. -/
def hi_scan (hi : HttpStreamSplitter) (c : Cutter) (kind : FwdKind) (bytes : List Nat) :
    Status × Cutter :=
  let log := c.session_data.hi_scan_calls ++ [{ kind := kind, bytes := bytes }]
  (hi.scan log, { c with session_data := { c.session_data with hi_scan_calls := log } })

/-- An `assert(cond)`: a violated assertion is recorded in the flow data. -/
def c_assert (cond : Bool) (c : Cutter) : Cutter :=
  { c with session_data :=
      { c.session_data with asserts_hold := c.session_data.asserts_hold && cond } }

/-- What `scan` / `http_scan` leave behind: the status, the cutter, and `*flush_offset`. -/
structure StatusResult where
  status : Status
  c : Cutter
  flush_offset : Nat

/-- The chunk-header forward of `case NONE_SENT:`: the downstream scan call on
`create_chunk_hdr(data_len)`, then `bytes_sent_http += chunk_hdr.length()` and
`http_state = HEADER_SENT`. Returns the downstream answer and the cutter. -/
def http_scan_send_header (hi : HttpStreamSplitter) (c : Cutter) : Status × Cutter :=
  let chunk_hdr := create_chunk_hdr c.data_len
  let r := hi_scan hi c FwdKind.CHUNK_HDR (c_str chunk_hdr)
  (r.1, { r.2 with
    bytes_sent_http := add32 r.2.bytes_sent_http chunk_hdr.length
    http_state := HttpScanState.HEADER_SENT })

/-- The payload forward of `case HEADER_SENT:`: the downstream scan call on
`data + cur_data_offset, cur_data`, then `bytes_sent_http += cur_data`. -/
def http_scan_send_payload (hi : HttpStreamSplitter) (c : Cutter) (data : List Nat) :
    Status × Cutter :=
  let r := hi_scan hi c FwdKind.PAYLOAD ((data.drop c.cur_data_offset).take c.cur_data)
  (r.1, { r.2 with bytes_sent_http := add32 r.2.bytes_sent_http r.2.cur_data })

/-- The terminal-marker forward of `case HEADER_SENT:`: the downstream scan call on
`"\r\n0\r\n"`, then `bytes_sent_http += 5`, the assertion that the answer is `FLUSH`, and
the reset of the two octet counters of the flow data. -/
def http_scan_send_terminal (hi : HttpStreamSplitter) (c : Cutter) : Status × Cutter :=
  let r := hi_scan hi c FwdKind.TERMINAL (c_str END_OF_CHUNK)
  let c1 := { r.2 with bytes_sent_http := add32 r.2.bytes_sent_http 5 }
  let c2 := c_assert (r.1 = Status.FLUSH) c1
  (r.1, { c2 with session_data :=
            { c2.session_data with
              scan_octets_seen := 0
              scan_remaining_frame_octets := 0 } })

/-- The end of `http_scan`, from `if (data_state == FULL_FRAME)` on: the terminal marker is
forwarded if the frame is complete, then `if (scan_result != FLUSH) *flush_offset = 0;
return scan_result;`. -/
def http_scan_finish (hi : HttpStreamSplitter) (c : Cutter) (flush_offset : Nat)
    (scan_result : Status) : StatusResult :=
  if c.data_state = DataState.FULL_FRAME then
    { status := (http_scan_send_terminal hi c).1
      c := (http_scan_send_terminal hi c).2
      flush_offset :=
        if (http_scan_send_terminal hi c).1 ≠ Status.FLUSH then 0 else flush_offset }
  else
    { status := scan_result
      c := c
      flush_offset := if scan_result ≠ Status.FLUSH then 0 else flush_offset }

/-- The block `case HEADER_SENT:` of `http_scan` together with the code after the `switch`;
`scan_result` is the value the local variable has on entry (the block is also reached by
fallthrough from `case NONE_SENT:`). -/
def http_scan_header_sent (hi : HttpStreamSplitter) (c : Cutter) (data : List Nat)
    (flush_offset : Nat) (scan_result : Status) : StatusResult :=
  if c.cur_data ≠ 0 then
    if (http_scan_send_payload hi c data).1 ≠ Status.SEARCH then
      { status := Status.ABORT
        c := (http_scan_send_payload hi c data).2
        flush_offset := flush_offset }
    else
      http_scan_finish hi (http_scan_send_payload hi c data).2 flush_offset
        (http_scan_send_payload hi c data).1
  else
    http_scan_finish hi c flush_offset scan_result

/-- `Http2DataCutter::http_scan`. -/
def http_scan (hi : HttpStreamSplitter) (c : Cutter) (data : List Nat) (flush_offset : Nat) :
    StatusResult :=
  match c.http_state with
  | HttpScanState.NONE_SENT =>
    if c.cur_data ≠ 0 then
      if (http_scan_send_header hi c).1 ≠ Status.SEARCH then
        { status := Status.ABORT
          c := (http_scan_send_header hi c).2
          flush_offset := flush_offset }
      else
        http_scan_header_sent hi (http_scan_send_header hi c).2 data flush_offset
          (http_scan_send_header hi c).1
    else
      http_scan_header_sent hi c data flush_offset Status.SEARCH
  | HttpScanState.HEADER_SENT =>
    http_scan_header_sent hi c data flush_offset Status.SEARCH

/-- `Http2DataCutter::scan`. -/
def scan (fuel : Nat) (hi : HttpStreamSplitter) (c : Cutter) (data : List Nat) (length : Nat) :
    Option StatusResult :=
  match http2_scan fuel c data length with
  | none => none
  | some r =>
    if r.ok = false then
      some { status := Status.ABORT, c := r.c, flush_offset := r.flush_offset }
    else
      some (http_scan hi r.c data r.flush_offset)

/-! ## `reassemble` -/

/-- A call `session_data->hi_ss[source_id]->reassemble(flow, total, offset, data, len, flags,
copied)`: logged, answered by the downstream inspector with the returned buffer and the value
written to `copied`. -/
def hi_reassemble (hi : HttpStreamSplitter) (c : Cutter) (kind : FwdKind) (total offset : Nat)
    (bytes : List Nat) (flags : Nat) : (StreamBuffer × Nat) × Cutter :=
  let log := c.session_data.hi_reassemble_calls ++
    [{ kind := kind, total := total, offset := offset, bytes := bytes, flags := flags }]
  (hi.reassemble log,
    { c with session_data := { c.session_data with hi_reassemble_calls := log } })

/-- The effect of `memcpy(dst + off, src, n)` on the array `dst`, `src` being the `n` bytes
copied. -/
def memcpy (dst : List Nat) (off : Nat) (src : List Nat) : List Nat :=
  dst.take off ++ src ++ dst.drop (off + src.length)

/-- The local variables of `reassemble` that live across loop iterations. -/
structure ReassembleLoop where
  c : Cutter
  cur_pos : Nat
  frame_buf : StreamBuffer

/-- The block `case SEND_DATA:` of `reassemble`. -/
def reassemble_send_data (hi : HttpStreamSplitter) (data : List Nat) (len : Nat)
    (l : ReassembleLoop) : ReassembleLoop :=
  let c := l.c
  let missing := sub32 c.data_len c.data_bytes_read
  let cur_data := if sub32 len l.cur_pos ≥ missing then missing else sub32 len l.cur_pos
  let c := { c with cur_data := cur_data, data_bytes_read := add32 c.data_bytes_read cur_data }
  let cur_pos := add32 l.cur_pos cur_data
  let r := hi_reassemble hi c FwdKind.PAYLOAD c.bytes_sent_http 0
    ((data.drop c.cur_data_offset).take c.cur_data) 0
  let c := c_assert (r.1.2 = r.2.cur_data) r.2
  let c :=
    if c.data_bytes_read = c.data_len then
      { c with reassemble_state :=
          if c.padding_len ≠ 0 then ReassembleState.SKIP_PADDING else ReassembleState.SEND_CRLF }
    else c
  { c := c, cur_pos := cur_pos, frame_buf := r.1.1 }

/-- The `switch (reassemble_state)` inside the loop of `reassemble`. -/
def reassemble_body (hi : HttpStreamSplitter) (data : List Nat) (len : Nat)
    (l : ReassembleLoop) : ReassembleLoop :=
  let c := l.c
  match c.reassemble_state with
  | ReassembleState.SKIP_FRAME_HDR =>
    let c :=
      if c.hdr_bytes_read = 0 then
        { c with session_data :=
            { c.session_data with
              frame_header := List.replicate FRAME_HEADER_LENGTH 0
              frame_header_size := FRAME_HEADER_LENGTH } }
      else c
    let missing := sub32 FRAME_HEADER_LENGTH c.hdr_bytes_read
    let cur_frame := if sub32 len l.cur_pos < missing then sub32 len l.cur_pos else missing
    let c := { c with session_data :=
      { c.session_data with
        frame_header := memcpy c.session_data.frame_header c.hdr_bytes_read
          ((data.drop l.cur_pos).take cur_frame) } }
    let c := { c with hdr_bytes_read := add32 c.hdr_bytes_read cur_frame }
    let cur_pos := add32 l.cur_pos cur_frame
    let c :=
      if c.hdr_bytes_read = FRAME_HEADER_LENGTH then
        { c with
          cur_data_offset := cur_pos
          reassemble_state :=
            if c.padding_len ≠ 0 then ReassembleState.SKIP_PADDING_LEN
            else ReassembleState.SEND_CHUNK_HDR }
      else c
    { l with c := c, cur_pos := cur_pos }
  | ReassembleState.SKIP_PADDING_LEN =>
    { l with
      c := { c with
        cur_data_offset := add32 c.cur_data_offset 1
        reassemble_state := ReassembleState.SEND_CHUNK_HDR }
      cur_pos := add32 l.cur_pos 1 }
  | ReassembleState.SEND_CHUNK_HDR =>
    let chunk_hdr := create_chunk_hdr c.data_len
    let r := hi_reassemble hi c FwdKind.CHUNK_HDR c.bytes_sent_http 0 (c_str chunk_hdr) 0
    let c := c_assert (r.1.2 = chunk_hdr.length % 4294967296) r.2
    let c := { c with reassemble_state := ReassembleState.SEND_DATA }
    reassemble_send_data hi data len { l with c := c }
  | ReassembleState.SEND_DATA =>
    reassemble_send_data hi data len l
  | ReassembleState.SKIP_PADDING =>
    let missing := sub32 c.padding_len c.padding_read
    let cur_padding := if sub32 len l.cur_pos ≥ missing then missing else sub32 len l.cur_pos
    let cur_pos := add32 l.cur_pos cur_padding
    let c := { c with cur_padding := cur_padding, padding_read := add32 c.padding_read cur_padding }
    let c :=
      if c.padding_read = c.padding_len then
        { c with reassemble_state := ReassembleState.SEND_CRLF }
      else c
    { l with c := c, cur_pos := cur_pos }
  | ReassembleState.SEND_CRLF => l

/-- The loop `while (cur_pos < len)` of `reassemble`; `none` is an exhausted iteration
budget. -/
def reassemble_loop (hi : HttpStreamSplitter) (data : List Nat) (len : Nat) :
    Nat → ReassembleLoop → Option ReassembleLoop
  | 0, _ => none
  | fuel + 1, l =>
    if l.cur_pos < len then reassemble_loop hi data len fuel (reassemble_body hi data len l)
    else some l

/-- `Http2DataCutter::reassemble`: the returned `StreamBuffer` and the cutter afterwards. -/
def reassemble (fuel : Nat) (hi : HttpStreamSplitter) (c : Cutter) (total offset : Nat)
    (data : List Nat) (len : Nat) : Option (StreamBuffer × Cutter) :=
  let c :=
    if offset = 0 then { c with padding_read := 0, data_bytes_read := 0, hdr_bytes_read := 0 }
    else c
  let c := { c with cur_data := 0, cur_padding := 0, cur_data_offset := 0 }
  match reassemble_loop hi data len fuel
      { c := c, cur_pos := 0, frame_buf := { data := none, length := 0 } } with
  | none => none
  | some l =>
    let c :=
      if add32 len offset = total then
        c_assert (l.c.reassemble_state = ReassembleState.SEND_CRLF) l.c
      else l.c
    if c.reassemble_state = ReassembleState.SEND_CRLF then
      let r := hi_reassemble hi c FwdKind.TERMINAL c.bytes_sent_http 0 (c_str END_OF_CHUNK)
        PKT_PDU_TAIL
      let c := c_assert (r.1.2 = 5) r.2
      let c := c_assert (r.1.1.data ≠ none) c
      let c := { c with session_data :=
        { c.session_data with
          frame_data := r.1.1.data
          frame_data_size := r.1.1.length } }
      some (r.1.1, c)
    else
      some (l.frame_buf, c)

/-! ## Reading a chunk header back -/

/-- Value of one hexadecimal digit character, as a reader of the chunk header parses it. -/
def hexDigitValue (ch : Char) : Nat :=
  if 48 ≤ ch.toNat ∧ ch.toNat ≤ 57 then ch.toNat - 48
  else if 97 ≤ ch.toNat ∧ ch.toNat ≤ 102 then ch.toNat - 87
  else 0

/-- Parsing a string of hexadecimal digits, most significant first. -/
def parseHex (cs : List Char) : Nat :=
  cs.foldl (fun acc ch => 16 * acc + hexDigitValue ch) 0

/-- The sixteen lowercase hexadecimal digit characters. -/
def lowerHexDigits : List Char :=
  "0123456789abcdef".toList

/-! ## Well-formed contexts and sequences of scanner calls -/

/-- The `uint32_t` members of the cutter hold 32-bit values. -/
structure Cutter.WF (c : Cutter) : Prop where
  frame_length : c.frame_length < 4294967296
  data_len : c.data_len < 4294967296
  padding_len : c.padding_len < 4294967296
  frame_bytes_seen : c.frame_bytes_seen < 4294967296
  data_bytes_read : c.data_bytes_read < 4294967296
  padding_read : c.padding_read < 4294967296

/-- The index at which a call of `http2_scan` that starts in `PADDING_LENGTH` reads the
padding-length byte: `cur_data_offset` is 9 on the first call for a frame and 0 afterwards. -/
def padding_length_index (c : Cutter) : Nat :=
  if c.frame_bytes_seen = 0 then FRAME_HEADER_LENGTH else 0

/-- The padding-length byte a call of `http2_scan` on `data` reads. -/
def padding_length_byte (c : Cutter) (data : List Nat) : Nat :=
  data.getD (padding_length_index c) 0 % 256

/-- Position of a scanner state in the order `PADDING_LENGTH, DATA, PADDING, FULL_FRAME`,
counted from the end. -/
def DataState.rank : DataState → Nat
  | DataState.PADDING_LENGTH => 3
  | DataState.DATA => 2
  | DataState.PADDING => 1
  | DataState.FULL_FRAME => 0

/-- The `DATA` pass of the loop of `http2_scan`, taken only in state `DATA` with input left. -/
def scan_phase_DATA (L : Nat) (x : Cutter × Nat) : Cutter × Nat :=
  if x.1.data_state = DataState.DATA ∧ x.2 < L then http2_scan_DATA L x.1 x.2 else x

/-- The `PADDING` pass of the loop of `http2_scan`, taken only in state `PADDING` with input
left. -/
def scan_phase_PADDING (L : Nat) (x : Cutter × Nat) : Cutter × Nat :=
  if x.1.data_state = DataState.PADDING ∧ x.2 < L then http2_scan_PADDING L x.1 x.2 else x

/-- The loop of `http2_scan` once the padding-length byte is behind: at most one `DATA` pass
followed by at most one `PADDING` pass. -/
def scan_phases (L : Nat) (c : Cutter) (pos : Nat) : Cutter × Nat :=
  scan_phase_PADDING L (scan_phase_DATA L (c, pos))

/-- The cutter after a successful `case PADDING_LENGTH:`. -/
def scan_after_PADDING_LENGTH (data : List Nat) (c : Cutter) : Cutter :=
  { c with
    padding_len := data.getD c.cur_data_offset 0 % 256
    data_len := c.data_len - (data.getD c.cur_data_offset 0 % 256 + 1)
    data_state := DataState.DATA
    cur_data_offset := add32 c.cur_data_offset 1 }

/-- Size of the padding-length field of a frame: one byte if the frame is padded. -/
def pad_field (padded : Bool) : Nat := if padded then 1 else 0

/-- Consistency of the scanner members of a Frame Context built for a frame with constructor
length `len` and padded flag `padded`, when `f` bytes of the frame have been consumed. -/
structure ScanInv (len : Nat) (padded : Bool) (c : Cutter) (f : Nat) : Prop where
  len_lt : len < 4294967296
  frame_length : c.frame_length = len
  dbr_le : c.data_bytes_read ≤ c.data_len
  pr_le : c.padding_read ≤ c.padding_len
  unpadded : padded = false → c.padding_len = 0
  st_pl : c.data_state = DataState.PADDING_LENGTH →
    padded = true ∧ c.data_len = len ∧ c.padding_len = 0 ∧ c.data_bytes_read = 0 ∧
      c.padding_read = 0 ∧ f = 9
  st_npl : c.data_state ≠ DataState.PADDING_LENGTH →
    f = 9 + pad_field padded + c.data_bytes_read + c.padding_read ∧
      c.data_len + c.padding_len + pad_field padded = len ∧ pad_field padded ≤ c.data_len
  st_data : c.data_state = DataState.DATA → c.padding_read = 0
  st_padding : c.data_state = DataState.PADDING →
    c.data_bytes_read = c.data_len ∧ c.padding_read < c.padding_len
  st_full : c.data_state = DataState.FULL_FRAME →
    c.data_bytes_read = c.data_len ∧ c.padding_read = c.padding_len

/-- Whether the padding-length byte has been consumed between the contexts `c0` and `c`. -/
def pl_consumed (c0 c : Cutter) : Nat :=
  if c0.data_state = DataState.PADDING_LENGTH ∧ c.data_state ≠ DataState.PADDING_LENGTH then 1
  else 0

/-- The members of the cutter that the loop of `http2_scan` never writes are equal in `c`
and `c1`. -/
structure SameFrame (c c1 : Cutter) : Prop where
  session_data : c1.session_data = c.session_data
  frame_length : c1.frame_length = c.frame_length
  frame_bytes_seen : c1.frame_bytes_seen = c.frame_bytes_seen
  bytes_sent_http : c1.bytes_sent_http = c.bytes_sent_http
  hdr_bytes_read : c1.hdr_bytes_read = c.hdr_bytes_read
  http_state : c1.http_state = c.http_state
  reassemble_state : c1.reassemble_state = c.reassemble_state

/-- Invariant of the loop of `http2_scan`, relating the cutter `c0` with which the loop is
entered to the cutter `c` and `cur_pos = pos` at the head of an iteration. -/
structure LoopInv (len : Nat) (padded : Bool) (data : List Nat) (L : Nat) (c0 c : Cutter)
    (pos : Nat) : Prop where
  inv : ScanInv len padded c (c0.frame_bytes_seen + pos)
  pos_le : pos ≤ L
  acct : pos = pl_consumed c0 c + c.cur_data + c.cur_padding
  dbr : c.data_bytes_read = c0.data_bytes_read + c.cur_data
  pr : c.padding_read = c0.padding_read + c.cur_padding
  todo_data : c.data_state = DataState.DATA → pos < L → c.cur_data = 0
  todo_padding : c.data_state ≠ DataState.FULL_FRAME → pos < L → c.cur_padding = 0
  still_pl : c.data_state = DataState.PADDING_LENGTH → c = c0 ∧ pos = 0
  past_pl : c.data_state ≠ DataState.PADDING_LENGTH →
    c0.data_state = DataState.PADDING_LENGTH →
      c.padding_len = data.getD c0.cur_data_offset 0 % 256 ∧ 0 < L
  offset : c.cur_data_offset = c0.cur_data_offset + pl_consumed c0 c
  offset_le : c0.cur_data_offset ≤ 9
  progress_data : c.data_state = DataState.DATA → 0 < pos → c.data_bytes_read < c.data_len
  entered : c.data_state ≠ c0.data_state → 0 < L
  same_len : c0.data_state ≠ DataState.PADDING_LENGTH →
    c.data_len = c0.data_len ∧ c.padding_len = c0.padding_len
  rank_le : c.data_state.rank ≤ c0.data_state.rank
  frame : SameFrame c0 c

/-- The members of the cutter that `http2_scan` maintains are equal in `c` and `c1`. -/
structure SameScan (c c1 : Cutter) : Prop where
  data_len : c1.data_len = c.data_len
  padding_len : c1.padding_len = c.padding_len
  data_state : c1.data_state = c.data_state
  data_bytes_read : c1.data_bytes_read = c.data_bytes_read
  padding_read : c1.padding_read = c.padding_read
  frame_bytes_seen : c1.frame_bytes_seen = c.frame_bytes_seen
  frame_length : c1.frame_length = c.frame_length
  cur_data : c1.cur_data = c.cur_data
  cur_padding : c1.cur_padding = c.cur_padding
  cur_data_offset : c1.cur_data_offset = c.cur_data_offset

/-- The Frame Contexts reachable from construction for a frame of constructor length `len`
and padded flag `padded` through calls of `scan` that do not return `ABORT`. -/
inductive Reachable (hi : HttpStreamSplitter) (s : Http2FlowData) (len : Nat) (padded : Bool) :
    Cutter → Prop where
  | init : Reachable hi s len padded (Cutter.new s len padded)
  | step {c : Cutter} (fuel : Nat) (data : List Nat) (length : Nat) (r : StatusResult) :
    Reachable hi s len padded c → length < 4294967296 →
    scan fuel hi c data length = some r → r.status ≠ Status.ABORT →
    Reachable hi s len padded r.c

/-- What holds of `data_len` and `padding_len` in a context for a frame of constructor length
`len`: before the padding-length byte is accepted `data_len` is still `len`; afterwards
`data_len + padding_len` plus the padding-length field is `len`, and a padded frame has at
least one payload byte. -/
structure LenInv (len : Nat) (padded : Bool) (c : Cutter) : Prop where
  st_pl : c.data_state = DataState.PADDING_LENGTH →
    padded = true ∧ c.data_len = len ∧ c.padding_len = 0
  st_npl : c.data_state ≠ DataState.PADDING_LENGTH →
    c.data_len + c.padding_len + pad_field padded = len ∧ pad_field padded ≤ c.data_len
  unpadded : padded = false → c.padding_len = 0

/-- Successive calls of `http2_scan`, one per segment, each with `length` the size of its
segment; the sequence stops after a call that returns `false`. The result lists what each
call made left behind. -/
def http2_scan_calls (fuel : Nat) : Cutter → List (List Nat) → Option (List ScanResult)
  | _, [] => some []
  | c, seg :: rest =>
    match http2_scan fuel c seg seg.length with
    | none => none
    | some r =>
      if r.ok = true then
        match http2_scan_calls fuel r.c rest with
        | none => none
        | some rs => some (r :: rs)
      else some [r]

/-- The cutter after a sequence of calls started from `c`. -/
def final_cutter (c : Cutter) (rs : List ScanResult) : Cutter :=
  match rs.getLast? with
  | some r => r.c
  | none => c

/-- The members of the Frame Context that a sequence of scanner calls is compared on:
`scan_state`, `data_len`, `padding_len`, `data_bytes_read`, `padding_read`,
`frame_bytes_seen`. -/
def scan_tuple (c : Cutter) : DataState × Nat × Nat × Nat × Nat × Nat :=
  (c.data_state, c.data_len, c.padding_len, c.data_bytes_read, c.padding_read,
    c.frame_bytes_seen)

/-- Whether every call of a sequence succeeded. -/
def calls_ok (rs : List ScanResult) : Bool := rs.all (fun r => r.ok)

/-- Consistency of a Frame Context with the bytes `b` of which the first `o` have been offered
to the scanner so far: nothing offered is left unconsumed unless the frame is complete. -/
structure OfferInv (len : Nat) (padded : Bool) (b : List Nat) (o : Nat) (c : Cutter) :
    Prop where
  inv : ScanInv len padded c c.frame_bytes_seen
  fbs_le : c.frame_bytes_seen ≤ o
  all_consumed : c.data_state ≠ DataState.FULL_FRAME → c.frame_bytes_seen = o
  full_pos : c.data_state = DataState.FULL_FRAME → 9 < o
  data_progress : c.data_state = DataState.DATA → c.data_bytes_read < c.data_len ∨ o = 9
  pad_byte : c.data_state ≠ DataState.PADDING_LENGTH → padded = true →
    c.padding_len = b.getD 9 0 % 256

/-- What a sequence of scanner calls on a fresh context must have produced once the first `o`
bytes of `b` have been offered: failure at the padding-length byte if it leaves no payload,
success with a consistent context otherwise; `total` is the sum of the flush offsets. -/
def Outcome (len : Nat) (padded : Bool) (b : List Nat) (o : Nat) (ok : Bool) (c : Cutter)
    (total : Nat) : Prop :=
  if padded = true ∧ 9 < o ∧ len ≤ b.getD 9 0 % 256 + 1 then
    ok = false ∧ scan_tuple c = (DataState.PADDING_LENGTH, len, b.getD 9 0 % 256, 0, 0, 9) ∧
      total = 9
  else
    ok = true ∧ OfferInv len padded b o c ∧ total = c.frame_bytes_seen

/-- Successive calls of the public `scan`, one per segment, each with `length` the size of
its segment; the caller stops after a call that returns `ABORT`. -/
def scan_calls (fuel : Nat) (hi : HttpStreamSplitter) :
    Cutter → List (List Nat) → Option (List StatusResult)
  | _, [] => some []
  | c, seg :: rest =>
    match scan fuel hi c seg seg.length with
    | none => none
    | some r =>
      if r.status = Status.ABORT then some [r]
      else
        match scan_calls fuel hi r.c rest with
        | none => none
        | some rs => some (r :: rs)

/-- The cutter after a sequence of `scan` calls started from `c`. -/
def final_scan_cutter (c : Cutter) (rs : List StatusResult) : Cutter :=
  match rs.getLast? with
  | some r => r.c
  | none => c

/-- Number of payload bytes of a frame given by its bytes (header included): the constructor
length minus, for a padded frame, the padding-length byte and the padding it declares. -/
def frame_data_len (len : Nat) (padded : Bool) (frame : List Nat) : Nat :=
  if padded then len - (frame.getD 9 0 % 256 + 1) else len

/-- The payload bytes of a frame: they follow the header and, for a padded frame, the
padding-length byte. -/
def frame_payload (len : Nat) (padded : Bool) (frame : List Nat) : List Nat :=
  (frame.drop (9 + pad_field padded)).take (frame_data_len len padded frame)

/-- The downstream scan calls that wrap a payload delivered in the given pieces: the chunk
header, one call per piece, and, once the frame is complete, the terminal marker. -/
def wrapped_calls (data_len : Nat) (pieces : List (List Nat)) (complete : Bool) :
    List ScanCall :=
  { kind := FwdKind.CHUNK_HDR, bytes := c_str (create_chunk_hdr data_len) } ::
    pieces.map (fun p => { kind := FwdKind.PAYLOAD, bytes := p }) ++
      (if complete then [{ kind := FwdKind.TERMINAL, bytes := c_str END_OF_CHUNK }] else [])

/-- What the log of downstream scan calls holds, relative to the log `log0` at construction,
when the wrapper has received `data_bytes_read` payload bytes of the frame. -/
structure WrapInv (len : Nat) (padded : Bool) (frame : List Nat) (log0 : List ScanCall)
    (c : Cutter) : Prop where
  none_sent : c.data_bytes_read = 0 →
    c.http_state = HttpScanState.NONE_SENT ∧ c.session_data.hi_scan_calls = log0
  header_sent : 0 < c.data_bytes_read →
    c.http_state = HttpScanState.HEADER_SENT ∧
    ∃ pieces : List (List Nat),
      c.session_data.hi_scan_calls =
        log0 ++ wrapped_calls c.data_len pieces
          (decide (c.data_state = DataState.FULL_FRAME)) ∧
      pieces.flatten = (frame_payload len padded frame).take c.data_bytes_read ∧
      ∀ p ∈ pieces, p ≠ []

/-! ## Concrete collaborators and inputs used in worked instances -/

/-- A downstream inspector that answers `SEARCH` to every forward except the terminal marker,
which it answers with `FLUSH`; its reassemble returns everything received so far and reports
every byte as copied. -/
def hi_chunked : HttpStreamSplitter where
  scan := fun calls =>
    match calls.getLast? with
    | some call => if call.kind = FwdKind.TERMINAL then Status.FLUSH else Status.SEARCH
    | none => Status.SEARCH
  reassemble := fun calls =>
    match calls.getLast? with
    | some call =>
      ({ data := some (calls.map (fun x => x.bytes)).flatten
         length := (calls.map (fun x => x.bytes)).flatten.length }, call.bytes.length)
    | none => ({ data := none, length := 0 }, 0)

/-- Nine arbitrary frame-header bytes. -/
def header9 : List Nat := [0, 0, 10, 0, 8, 0, 0, 0, 1]

/-- The cutter after one `scan` call on a whole frame, as `reassemble` finds it. -/
def cutter_after_scan (hi : HttpStreamSplitter) (len : Nat) (padded : Bool)
    (frame : List Nat) : Cutter :=
  match scan 4 hi (Cutter.new {} len padded) frame frame.length with
  | some r => r.c
  | none => Cutter.new {} len padded

/-- A padded frame of constructor length 3 whose padding-length byte is 0: header, the
padding-length byte, and the two payload bytes 65 and 66. -/
def frame_pad0 : List Nat := header9 ++ [0, 65, 66]

/-- A downstream inspector that sees only the bytes of a forward: it answers `FLUSH` when
the bytes are `"\r\n0\r\n"` and `SEARCH` otherwise; its reassemble is the one of
`hi_chunked`. -/
def hi_by_bytes : HttpStreamSplitter where
  scan := fun calls =>
    match calls.getLast? with
    | some call => if call.bytes = c_str END_OF_CHUNK then Status.FLUSH else Status.SEARCH
    | none => Status.SEARCH
  reassemble := hi_chunked.reassemble

/-- A downstream inspector that answers `SEARCH` to the chunk header and to payload, and
`ABORT` to the terminal marker. -/
def hi_abort_terminal : HttpStreamSplitter where
  scan := fun calls =>
    match calls.getLast? with
    | some call => if call.kind = FwdKind.TERMINAL then Status.ABORT else Status.SEARCH
    | none => Status.SEARCH
  reassemble := hi_chunked.reassemble

/-! ## The downstream answers seen by one call of `http_scan` -/

/-- Whether `http_scan`, entered with cutter `c`, forwards the chunk header. -/
def forwards_header (c : Cutter) : Prop :=
  c.http_state = HttpScanState.NONE_SENT ∧ c.cur_data ≠ 0

instance (c : Cutter) : Decidable (forwards_header c) := by
  unfold forwards_header; exact inferInstance

/-- The downstream answer to the chunk header, in a call that forwards it. -/
def answer_to_header (hi : HttpStreamSplitter) (c : Cutter) : Status :=
  (http_scan_send_header hi c).1

/-- The cutter when `case HEADER_SENT:` is reached without an abort. -/
def after_header (hi : HttpStreamSplitter) (c : Cutter) : Cutter :=
  if forwards_header c then (http_scan_send_header hi c).2 else c

/-- The downstream answer to the payload subrange, in a call that forwards one. -/
def answer_to_payload (hi : HttpStreamSplitter) (c : Cutter) (data : List Nat) : Status :=
  (http_scan_send_payload hi (after_header hi c) data).1

/-- The cutter when `if (data_state == FULL_FRAME)` is reached without an abort. -/
def after_payload (hi : HttpStreamSplitter) (c : Cutter) (data : List Nat) : Cutter :=
  if c.cur_data ≠ 0 then (http_scan_send_payload hi (after_header hi c) data).2
  else after_header hi c

/-- The downstream answer to the terminal marker, in a call that forwards it. -/
def answer_to_terminal (hi : HttpStreamSplitter) (c : Cutter) (data : List Nat) : Status :=
  (http_scan_send_terminal hi (after_payload hi c data)).1

/-- A forward of this call other than the terminal marker was answered with something
other than `SEARCH`. -/
def downstream_abort (hi : HttpStreamSplitter) (c : Cutter) (data : List Nat) : Prop :=
  (forwards_header c ∧ answer_to_header hi c ≠ Status.SEARCH) ∨
    (c.cur_data ≠ 0 ∧ answer_to_payload hi c data ≠ Status.SEARCH)

/-- Every non-terminal forward that `log` records after its first `n` entries was answered
`SEARCH`: the downstream answer to a forward is its `scan` applied to the log up to and
including that forward. -/
def answers_search (hi : HttpStreamSplitter) (n : Nat) (log : List ScanCall) : Prop :=
  ∀ (pre : List ScanCall) (call : ScanCall), call.kind ≠ FwdKind.TERMINAL → n ≤ pre.length →
    pre ++ [call] <+: log → hi.scan (pre ++ [call]) = Status.SEARCH

/-! ## Inputs for the worked instances of the remaining-octets counter and the reassembler -/

/-- An unpadded frame of constructor length 20: header and twenty payload bytes. -/
def frame_plain20 : List Nat := header9 ++ List.replicate 20 65

/-- Number of bytes of a frame of constructor length `len` that the scanner has not consumed
yet: the frame holds the 9 header bytes and `len` more. -/
def frame_octets_left (len : Nat) (c : Cutter) : Nat := 9 + len - c.frame_bytes_seen

/-- The local variables with which the loop of `reassemble` is entered: the per-frame read
counters are reset when `offset == 0`, then
`cur_data = cur_padding = cur_data_offset = 0` and `cur_pos = 0`. -/
def reassemble_start (c : Cutter) (offset : Nat) : ReassembleLoop :=
  { c := { (if offset = 0 then
              { c with padding_read := 0, data_bytes_read := 0, hdr_bytes_read := 0 }
            else c) with cur_data := 0, cur_padding := 0, cur_data_offset := 0 }
    cur_pos := 0
    frame_buf := { data := none, length := 0 } }

/-- The cutter after a call of `reassemble` that returns, as the next call finds it. -/
def cutter_after_reassemble (fuel : Nat) (hi : HttpStreamSplitter) (c : Cutter)
    (total offset : Nat) (data : List Nat) (len : Nat) : Cutter :=
  match reassemble fuel hi c total offset data len with
  | some r => r.2
  | none => c

/-- The byte ranges handed to the downstream reassemble so far. -/
def emitted (c : Cutter) : List (List Nat) :=
  c.session_data.hi_reassemble_calls.map (fun call => call.bytes)

/-- A padded frame of constructor length 4 whose padding-length byte is 0: header, the
padding-length byte, and the three payload bytes 70, 71, 72. -/
def frame_pad0_three : List Nat := header9 ++ [0, 70, 71, 72]

/-- A padded frame of constructor length 5 whose padding-length byte is 0: header, the
padding-length byte, and the four payload bytes 80, 81, 82, 83. -/
def frame_pad0_four : List Nat := header9 ++ [0, 80, 81, 82, 83]

/-- What `reassemble` does to `bytes_sent_http` and to the log of downstream reassemble calls
between the contexts `c0` and `c`: the counter is unchanged, and every call added to the log
was issued with `total = bytes_sent_http` and `offset = 0`. -/
def EmitsAtZero (c0 c : Cutter) : Prop :=
  c.bytes_sent_http = c0.bytes_sent_http ∧
  ∃ calls : List ReassembleCall,
    c.session_data.hi_reassemble_calls = c0.session_data.hi_reassemble_calls ++ calls ∧
    ∀ call ∈ calls, call.total = c0.bytes_sent_http ∧ call.offset = 0

/-- An unpadded frame of constructor length 2: header and the payload bytes 65 and 66. -/
def frame_plain2 : List Nat := header9 ++ [65, 66]

/-- Whether the scanner has consumed the padding-length byte of the frame: 1 once a padded
frame has left `PADDING_LENGTH`, 0 before and for an unpadded frame. -/
def padding_length_consumed (padded : Bool) (c : Cutter) : Nat :=
  if padded = true ∧ c.data_state ≠ DataState.PADDING_LENGTH then 1 else 0

/-- Bounds and accounting of the scanner counters of a Frame Context: the read counters do not
exceed their targets, so the two 32-bit subtractions of the scanner equal the exact
differences; `frame_bytes_seen` counts the header, the padding-length byte once consumed, and
the bytes read; `FULL_FRAME` and `PADDING` are entered only with the stated counters. -/
structure CounterInv (padded : Bool) (c : Cutter) : Prop where
  dbr_le : c.data_bytes_read ≤ c.data_len
  pr_le : c.padding_read ≤ c.padding_len
  data_sub : sub32 c.data_len c.data_bytes_read = c.data_len - c.data_bytes_read
  padding_sub : sub32 c.padding_len c.padding_read = c.padding_len - c.padding_read
  seen : c.frame_bytes_seen =
    9 + padding_length_consumed padded c + c.data_bytes_read + c.padding_read
  st_full : c.data_state = DataState.FULL_FRAME →
    c.data_bytes_read = c.data_len ∧ c.padding_read = c.padding_len
  st_padding : c.data_state = DataState.PADDING →
    c.data_bytes_read = c.data_len ∧ 0 < c.padding_len

/-! ## Chunk-header format -/

theorem hexDigitChar_mem (d : Nat) (h : d < 16) : hexDigitChar d ∈ lowerHexDigits := by
  interval_cases d <;> decide

theorem hexDigitValue_hexDigitChar (d : Nat) (h : d < 16) :
    hexDigitValue (hexDigitChar d) = d := by
  interval_cases d <;> decide

theorem hexDigitChar_eq_zero (d : Nat) (h : d < 16) (h0 : hexDigitChar d = '0') : d = 0 := by
  interval_cases d <;> first | rfl | (exfalso; revert h0; decide)

theorem hexDigits_budget (b1 : Nat) :
    ∀ (b2 n : Nat), n ≤ b1 → n ≤ b2 → hexDigits b1 n = hexDigits b2 n := by
  induction b1 with
  | zero =>
    intro b2 n h1 _
    have hn : n = 0 := by omega
    subst hn
    cases b2 <;> simp [hexDigits]
  | succ k ih =>
    intro b2 n h1 h2
    cases b2 with
    | zero =>
      have hn : n = 0 := by omega
      subst hn
      simp [hexDigits]
    | succ m =>
      simp only [hexDigits]
      split
      · rfl
      · rw [ih m (n / 16) (by omega) (by omega)]

theorem hexString_lt (n : Nat) (h : n < 16) : hexString n = [hexDigitChar n] := by
  unfold hexString
  cases n <;> simp [hexDigits, h]

theorem hexString_ge (n : Nat) (h : ¬ n < 16) :
    hexString n = hexString (n / 16) ++ [hexDigitChar (n % 16)] := by
  unfold hexString
  cases n with
  | zero => omega
  | succ k =>
    simp only [hexDigits, h, if_false]
    rw [hexDigits_budget k ((k + 1) / 16) ((k + 1) / 16) (by omega) (le_refl _)]

theorem hexString_mem (n : Nat) : ∀ ch ∈ hexString n, ch ∈ lowerHexDigits := by
  induction n using Nat.strong_induction_on with
  | _ n ih =>
    by_cases h : n < 16
    · rw [hexString_lt n h]
      intro ch hch
      simp only [List.mem_singleton] at hch
      subst hch
      exact hexDigitChar_mem n h
    · rw [hexString_ge n h]
      intro ch hch
      rcases List.mem_append.mp hch with h1 | h1
      · exact ih (n / 16) (by omega) ch h1
      · simp only [List.mem_singleton] at h1
        subst h1
        exact hexDigitChar_mem _ (by omega)

theorem parseHex_append (cs : List Char) (ch : Char) :
    parseHex (cs ++ [ch]) = 16 * parseHex cs + hexDigitValue ch := by
  simp [parseHex, List.foldl_append]

theorem parseHex_hexString (n : Nat) : parseHex (hexString n) = n := by
  induction n using Nat.strong_induction_on with
  | _ n ih =>
    by_cases h : n < 16
    · rw [hexString_lt n h]
      simp [parseHex, hexDigitValue_hexDigitChar n h]
    · rw [hexString_ge n h, parseHex_append, ih (n / 16) (by omega),
        hexDigitValue_hexDigitChar _ (by omega)]
      omega

theorem hexString_head (n : Nat) :
    ∃ d rest, hexString n = hexDigitChar d :: rest ∧ d < 16 ∧ (d = 0 → n = 0) := by
  induction n using Nat.strong_induction_on with
  | _ n ih =>
    by_cases h : n < 16
    · exact ⟨n, [], hexString_lt n h, h, fun h0 => h0⟩
    · obtain ⟨d, rest, he, hd, h0⟩ := ih (n / 16) (by omega)
      refine ⟨d, rest ++ [hexDigitChar (n % 16)], ?_, hd, ?_⟩
      · rw [hexString_ge n h, he]; rfl
      · intro hd0
        have := h0 hd0
        omega

/-- C6: for every `len`, `create_chunk_hdr len` is a non-empty string of lowercase
hexadecimal digits followed by exactly `"\r\n"`; the digits have no leading zero unless
`len = 0`, in which case they are `"0"`; parsing the digits gives back `len`; and
`create_chunk_hdr 255` is `"ff\r\n"`. -/
theorem create_chunk_hdr_format (len : Nat) :
    (∃ digits : List Char,
      create_chunk_hdr len = digits ++ [Char.ofNat 13, Char.ofNat 10] ∧
      digits ≠ [] ∧
      (∀ ch ∈ digits, ch ∈ lowerHexDigits) ∧
      (digits.head? = some '0' → len = 0) ∧
      (len = 0 → digits = ['0']) ∧
      parseHex digits = len) ∧
    create_chunk_hdr 255 = ['f', 'f', Char.ofNat 13, Char.ofNat 10] := by
  refine ⟨⟨hexString len, rfl, ?_, hexString_mem len, ?_, ?_, parseHex_hexString len⟩, ?_⟩
  · obtain ⟨d, rest, he, _, _⟩ := hexString_head len
    rw [he]; exact List.cons_ne_nil _ _
  · obtain ⟨d, rest, he, hd, h0⟩ := hexString_head len
    rw [he]
    intro hh
    simp only [List.head?_cons, Option.some.injEq] at hh
    exact h0 (hexDigitChar_eq_zero d hd hh)
  · intro h0
    subst h0
    rw [hexString_lt 0 (by omega)]
    rfl
  · decide

/-! ## The scanner loop -/

theorem http2_scan_loop_mono (data : List Nat) (L : Nat) (r : ScanStep) :
    ∀ (n : Nat) (c : Cutter) (pos : Nat), http2_scan_loop data L n c pos = some r →
      ∀ k, http2_scan_loop data L (n + k) c pos = some r := by
  intro n
  induction n with
  | zero => intro c pos h; simp [http2_scan_loop] at h
  | succ n ih =>
    intro c pos h k
    rw [show n + 1 + k = (n + k) + 1 by omega]
    rw [http2_scan_loop] at h ⊢
    split
    · rename_i hc
      rw [if_pos hc] at h
      cases hb : http2_scan_body data L c pos with
      | ret_false c1 => rw [hb] at h; simpa using h
      | next c1 p1 =>
        rw [hb] at h
        simp only at h ⊢
        exact ih c1 p1 h k
    · rename_i hc
      rw [if_neg hc] at h
      exact h

theorem http2_scan_loop_exit (data : List Nat) (L n : Nat) (c : Cutter) (pos : Nat)
    (h : ¬ (pos < L ∧ c.data_state ≠ DataState.FULL_FRAME)) :
    http2_scan_loop data L (n + 1) c pos = some (ScanStep.next c pos) := by
  rw [http2_scan_loop, if_neg h]

theorem http2_scan_loop_step (data : List Nat) (L n : Nat) (c : Cutter) (pos : Nat)
    (h : pos < L ∧ c.data_state ≠ DataState.FULL_FRAME) :
    http2_scan_loop data L (n + 1) c pos =
      match http2_scan_body data L c pos with
      | ScanStep.ret_false c1 => some (ScanStep.ret_false c1)
      | ScanStep.next c1 cur_pos1 => http2_scan_loop data L n c1 cur_pos1 := by
  rw [http2_scan_loop, if_pos h]

/-- Hoare rule for the loop of `http2_scan`. -/
theorem http2_scan_loop_inv (data : List Nat) (L : Nat) (P : Cutter → Nat → Prop)
    (Q : Cutter → Prop)
    (hstep : ∀ c pos, P c pos → pos < L → c.data_state ≠ DataState.FULL_FRAME →
      match http2_scan_body data L c pos with
      | ScanStep.next c1 p1 => P c1 p1
      | ScanStep.ret_false c1 => Q c1) :
    ∀ (n : Nat) (c : Cutter) (pos : Nat), P c pos →
      ∀ r, http2_scan_loop data L n c pos = some r →
        match r with
        | ScanStep.next c1 p1 =>
          P c1 p1 ∧ ¬ (p1 < L ∧ c1.data_state ≠ DataState.FULL_FRAME)
        | ScanStep.ret_false c1 => Q c1 := by
  intro n
  induction n with
  | zero => intro c pos _ r h; simp [http2_scan_loop] at h
  | succ n ih =>
    intro c pos hP r h
    by_cases hc : pos < L ∧ c.data_state ≠ DataState.FULL_FRAME
    · rw [http2_scan_loop_step data L n c pos hc] at h
      have hs := hstep c pos hP hc.1 hc.2
      cases hb : http2_scan_body data L c pos with
      | ret_false c1 =>
        rw [hb] at h hs
        simp only [Option.some.injEq] at h
        subst h
        exact hs
      | next c1 p1 =>
        rw [hb] at h hs
        exact ih c1 p1 hs r h
    · rw [http2_scan_loop_exit data L n c pos hc] at h
      simp only [Option.some.injEq] at h
      subst h
      exact ⟨hP, hc⟩

theorem sub32_eq (a b : Nat) (hb : b ≤ a) (ha : a < 4294967296) : sub32 a b = a - b := by
  unfold sub32; omega

theorem add32_eq (a b : Nat) (h : a + b < 4294967296) : add32 a b = a + b := by
  unfold add32; omega

theorem sub32_lt (a b : Nat) : sub32 a b < 4294967296 := by
  unfold sub32; omega

theorem add32_lt (a b : Nat) : add32 a b < 4294967296 := by
  unfold add32; omega

theorem add32_sub32_cancel (a b : Nat) (ha : a < 4294967296) : add32 b (sub32 a b) = a := by
  unfold add32 sub32; omega

/-- `case DATA:` when the bytes left in this call cover the payload still missing. -/
theorem http2_scan_DATA_enough (L : Nat) (c : Cutter) (pos : Nat) (hL : L < 4294967296)
    (hpos : pos ≤ L) (hd : c.data_len < 4294967296)
    (hm : sub32 c.data_len c.data_bytes_read ≤ L - pos) :
    http2_scan_DATA L c pos =
      ({ c with
          cur_data := sub32 c.data_len c.data_bytes_read
          data_bytes_read := c.data_len
          data_state :=
            if c.padding_len ≠ 0 then DataState.PADDING else DataState.FULL_FRAME },
        pos + sub32 c.data_len c.data_bytes_read) := by
  have e1 : sub32 L pos = L - pos := sub32_eq L pos hpos hL
  have e2 : add32 c.data_bytes_read (sub32 c.data_len c.data_bytes_read) = c.data_len :=
    add32_sub32_cancel _ _ hd
  have e3 : add32 pos (sub32 c.data_len c.data_bytes_read) =
      pos + sub32 c.data_len c.data_bytes_read := add32_eq _ _ (by omega)
  simp only [http2_scan_DATA, e1, ge_iff_le, hm, if_true, e2, e3]

/-- `case DATA:` when this call ends before the payload does. -/
theorem http2_scan_DATA_short (L : Nat) (c : Cutter) (pos : Nat) (hL : L < 4294967296)
    (hpos : pos ≤ L)
    (hm : ¬ sub32 c.data_len c.data_bytes_read ≤ L - pos) :
    http2_scan_DATA L c pos =
      ({ c with
          cur_data := L - pos
          data_bytes_read := add32 c.data_bytes_read (L - pos) },
        L) ∧ add32 c.data_bytes_read (L - pos) ≠ c.data_len := by
  have e1 : sub32 L pos = L - pos := sub32_eq L pos hpos hL
  have e2 : add32 c.data_bytes_read (L - pos) ≠ c.data_len := by
    unfold add32; unfold sub32 at hm; omega
  have e3 : add32 pos (L - pos) = L := by unfold add32; omega
  refine ⟨?_, e2⟩
  simp only [http2_scan_DATA, e1, ge_iff_le, hm, if_false, e2, e3]

/-- `case PADDING:` when the bytes left in this call cover the padding still missing. -/
theorem http2_scan_PADDING_enough (L : Nat) (c : Cutter) (pos : Nat) (hL : L < 4294967296)
    (hpos : pos ≤ L) (hp : c.padding_len < 4294967296)
    (hm : sub32 c.padding_len c.padding_read ≤ L - pos) :
    http2_scan_PADDING L c pos =
      ({ c with
          cur_padding := sub32 c.padding_len c.padding_read
          padding_read := c.padding_len
          data_state := DataState.FULL_FRAME },
        pos + sub32 c.padding_len c.padding_read) := by
  have e1 : sub32 L pos = L - pos := sub32_eq L pos hpos hL
  have e2 : add32 c.padding_read (sub32 c.padding_len c.padding_read) = c.padding_len :=
    add32_sub32_cancel _ _ hp
  have e3 : add32 pos (sub32 c.padding_len c.padding_read) =
      pos + sub32 c.padding_len c.padding_read := add32_eq _ _ (by omega)
  simp only [http2_scan_PADDING, e1, ge_iff_le, hm, if_true, e2, e3]

/-- `case PADDING:` when this call ends before the padding does. -/
theorem http2_scan_PADDING_short (L : Nat) (c : Cutter) (pos : Nat) (hL : L < 4294967296)
    (hpos : pos ≤ L)
    (hm : ¬ sub32 c.padding_len c.padding_read ≤ L - pos) :
    http2_scan_PADDING L c pos =
      ({ c with
          cur_padding := L - pos
          padding_read := add32 c.padding_read (L - pos) },
        L) ∧ add32 c.padding_read (L - pos) ≠ c.padding_len := by
  have e1 : sub32 L pos = L - pos := sub32_eq L pos hpos hL
  have e2 : add32 c.padding_read (L - pos) ≠ c.padding_len := by
    unfold add32; unfold sub32 at hm; omega
  have e3 : add32 pos (L - pos) = L := by unfold add32; omega
  refine ⟨?_, e2⟩
  simp only [http2_scan_PADDING, e1, ge_iff_le, hm, if_false, e2, e3]

/-- `case PADDING_LENGTH:` when the declared padding is at least the remaining length. -/
theorem http2_scan_body_PL_malformed (data : List Nat) (L : Nat) (c : Cutter) (pos : Nat)
    (hs : c.data_state = DataState.PADDING_LENGTH)
    (h : c.data_len ≤ data.getD c.cur_data_offset 0 % 256) :
    http2_scan_body data L c pos =
      ScanStep.ret_false
        { c with
          padding_len := data.getD c.cur_data_offset 0 % 256
          session_data :=
            { c.session_data with
              infractions := c.session_data.infractions ++ [Infraction.INF_PADDING_LEN]
              events := c.session_data.events ++ [EventSid.EVENT_PADDING_LEN] } } := by
  simp only [http2_scan_body, hs, h, if_true]

/-- `case PADDING_LENGTH:` when the frame holds padding only. -/
theorem http2_scan_body_PL_all_padding (data : List Nat) (L : Nat) (c : Cutter) (pos : Nat)
    (hs : c.data_state = DataState.PADDING_LENGTH)
    (h : c.data_len = data.getD c.cur_data_offset 0 % 256 + 1) :
    http2_scan_body data L c pos =
      ScanStep.ret_false { c with padding_len := data.getD c.cur_data_offset 0 % 256 } := by
  have h1 : ¬ c.data_len ≤ data.getD c.cur_data_offset 0 % 256 := by omega
  have h2 : c.data_len = add32 (data.getD c.cur_data_offset 0 % 256) 1 := by
    unfold add32; omega
  simp only [http2_scan_body, hs, h1, if_false]
  rw [if_pos h2]

/-- `case PADDING_LENGTH:` when at least one payload byte remains. -/
theorem http2_scan_body_PL_ok (data : List Nat) (L : Nat) (c : Cutter) (pos : Nat)
    (hs : c.data_state = DataState.PADDING_LENGTH) (hd : c.data_len < 4294967296)
    (hpos : pos + 1 < 4294967296)
    (h : data.getD c.cur_data_offset 0 % 256 + 1 < c.data_len) :
    http2_scan_body data L c pos =
      ScanStep.next
        { c with
          padding_len := data.getD c.cur_data_offset 0 % 256
          data_len := c.data_len - (data.getD c.cur_data_offset 0 % 256 + 1)
          data_state := DataState.DATA
          cur_data_offset := add32 c.cur_data_offset 1 }
        (pos + 1) := by
  have h1 : ¬ c.data_len ≤ data.getD c.cur_data_offset 0 % 256 := by omega
  have h2 : ¬ c.data_len = add32 (data.getD c.cur_data_offset 0 % 256) 1 := by
    unfold add32; omega
  have h3 : sub32 c.data_len (add32 (data.getD c.cur_data_offset 0 % 256) 1) =
      c.data_len - (data.getD c.cur_data_offset 0 % 256 + 1) := by
    unfold add32 sub32; omega
  have h4 : add32 pos 1 = pos + 1 := add32_eq _ _ hpos
  simp only [http2_scan_body, hs, h1, if_false]
  rw [if_neg h2, h3, h4]

/-- One pass through the loop body either ends the loop or moves the scanner to a later
state, keeps `cur_pos` within the call and keeps the lengths in 32-bit range. -/
theorem http2_scan_body_progress (data : List Nat) (L : Nat) (c : Cutter) (pos : Nat)
    (hL : L < 4294967296) (hpos : pos < L) (hd : c.data_len < 4294967296)
    (hp : c.padding_len < 4294967296) :
    match http2_scan_body data L c pos with
    | ScanStep.ret_false _ => True
    | ScanStep.next c1 p1 =>
      c1.data_len < 4294967296 ∧ c1.padding_len < 4294967296 ∧ p1 ≤ L ∧
        (p1 = L ∨ c1.data_state.rank < c.data_state.rank ∨
          c1.data_state = DataState.FULL_FRAME) := by
  cases hs : c.data_state with
  | PADDING_LENGTH =>
    by_cases h1 : c.data_len ≤ data.getD c.cur_data_offset 0 % 256
    · rw [http2_scan_body_PL_malformed data L c pos hs h1]; trivial
    · by_cases h2 : c.data_len = data.getD c.cur_data_offset 0 % 256 + 1
      · rw [http2_scan_body_PL_all_padding data L c pos hs h2]; trivial
      · rw [http2_scan_body_PL_ok data L c pos hs hd (by omega) (by omega)]
        refine ⟨by simp only; omega, by simp only; omega, by omega, ?_⟩
        right; left; simp [DataState.rank]
  | DATA =>
    simp only [http2_scan_body, hs]
    by_cases hm : sub32 c.data_len c.data_bytes_read ≤ L - pos
    · rw [http2_scan_DATA_enough L c pos hL (by omega) hd hm]
      refine ⟨hd, hp, by omega, ?_⟩
      right; left
      simp only
      split <;> simp [DataState.rank]
    · rw [(http2_scan_DATA_short L c pos hL (by omega) hm).1]
      exact ⟨hd, hp, le_refl _, Or.inl rfl⟩
  | PADDING =>
    simp only [http2_scan_body, hs]
    by_cases hm : sub32 c.padding_len c.padding_read ≤ L - pos
    · rw [http2_scan_PADDING_enough L c pos hL (by omega) hp hm]
      exact ⟨hd, hp, by omega, Or.inr (Or.inr rfl)⟩
    · rw [(http2_scan_PADDING_short L c pos hL (by omega) hm).1]
      exact ⟨hd, hp, le_refl _, Or.inl rfl⟩
  | FULL_FRAME =>
    simp only [http2_scan_body, hs]
    exact ⟨hd, hp, by omega, by simp⟩

/-- The loop of `http2_scan` ends: a budget exceeding the rank of the current state is
enough. -/
theorem http2_scan_loop_terminates (data : List Nat) (L : Nat) (hL : L < 4294967296) :
    ∀ (n : Nat) (c : Cutter) (pos : Nat), c.data_state.rank < n → pos ≤ L →
      c.data_len < 4294967296 → c.padding_len < 4294967296 →
      ∃ r, http2_scan_loop data L n c pos = some r := by
  intro n
  induction n with
  | zero => intro c pos h; omega
  | succ n ih =>
    intro c pos hr hpos hd hp
    by_cases hc : pos < L ∧ c.data_state ≠ DataState.FULL_FRAME
    · rw [http2_scan_loop_step data L n c pos hc]
      have hprog := http2_scan_body_progress data L c pos hL hc.1 hd hp
      cases hb : http2_scan_body data L c pos with
      | ret_false c1 => exact ⟨_, rfl⟩
      | next c1 p1 =>
        rw [hb] at hprog
        simp only at hprog ⊢
        obtain ⟨hd1, hp1, hle, hcase⟩ := hprog
        rcases hcase with h1 | h1 | h1
        · cases n with
          | zero =>
            exfalso
            have : c.data_state.rank = 0 := by omega
            apply hc.2
            cases hs : c.data_state <;> simp [hs, DataState.rank] at this
            rfl
          | succ m =>
            exact ⟨_, http2_scan_loop_exit data L m c1 p1 (by omega)⟩
        · exact ih c1 p1 (by omega) hle hd1 hp1
        · cases n with
          | zero =>
            exfalso
            have : c.data_state.rank = 0 := by omega
            apply hc.2
            cases hs : c.data_state <;> simp [hs, DataState.rank] at this
            rfl
          | succ m =>
            exact ⟨_, http2_scan_loop_exit data L m c1 p1 (by simp [h1])⟩
    · exact ⟨_, http2_scan_loop_exit data L n c pos hc⟩

/-! ## Closed form of the scanner loop -/

theorem http2_scan_loop_PADDING (data : List Nat) (L n : Nat) (c : Cutter) (pos : Nat)
    (hL : L < 4294967296) (hpos : pos ≤ L) (hp : c.padding_len < 4294967296)
    (hs : c.data_state = DataState.PADDING ∨ c.data_state = DataState.FULL_FRAME ∨ pos = L) :
    http2_scan_loop data L (n + 2) c pos =
      some (ScanStep.next (scan_phase_PADDING L (c, pos)).1 (scan_phase_PADDING L (c, pos)).2) := by
  by_cases hc : c.data_state = DataState.PADDING ∧ pos < L
  · rw [http2_scan_loop_step data L (n + 1) c pos ⟨hc.2, by simp [hc.1]⟩]
    simp only [http2_scan_body, hc.1, scan_phase_PADDING, hc, and_self, if_true]
    apply http2_scan_loop_exit
    by_cases hm : sub32 c.padding_len c.padding_read ≤ L - pos
    · rw [http2_scan_PADDING_enough L c pos hL hpos hp hm]; simp
    · rw [(http2_scan_PADDING_short L c pos hL hpos hm).1]; simp
  · have hx : scan_phase_PADDING L (c, pos) = (c, pos) := by
      simp only [scan_phase_PADDING, hc, if_false]
    rw [hx]
    apply http2_scan_loop_exit
    intro hcc
    rcases hs with h | h | h
    · exact hc ⟨h, hcc.1⟩
    · exact hcc.2 h
    · omega

theorem scan_phase_DATA_facts (L : Nat) (c : Cutter) (pos : Nat)
    (hL : L < 4294967296) (hpos : pos ≤ L) (hd : c.data_len < 4294967296)
    (hs : c.data_state ≠ DataState.PADDING_LENGTH) :
    (scan_phase_DATA L (c, pos)).2 ≤ L ∧
    (scan_phase_DATA L (c, pos)).1.padding_len = c.padding_len ∧
    (scan_phase_DATA L (c, pos)).1.data_len = c.data_len ∧
    ((scan_phase_DATA L (c, pos)).1.data_state = DataState.PADDING ∨
      (scan_phase_DATA L (c, pos)).1.data_state = DataState.FULL_FRAME ∨
      (scan_phase_DATA L (c, pos)).2 = L) := by
  by_cases hc : c.data_state = DataState.DATA ∧ pos < L
  · simp only [scan_phase_DATA, hc, and_self, if_true]
    by_cases hm : sub32 c.data_len c.data_bytes_read ≤ L - pos
    · rw [http2_scan_DATA_enough L c pos hL hpos hd hm]
      refine ⟨by simp only; omega, rfl, rfl, ?_⟩
      simp only
      split <;> simp
    · rw [(http2_scan_DATA_short L c pos hL hpos hm).1]
      exact ⟨le_refl _, rfl, rfl, Or.inr (Or.inr rfl)⟩
  · have hx : scan_phase_DATA L (c, pos) = (c, pos) := by
      simp only [scan_phase_DATA, hc, if_false]
    rw [hx]
    refine ⟨hpos, rfl, rfl, ?_⟩
    simp only
    cases h : c.data_state with
    | PADDING_LENGTH => exact absurd h hs
    | DATA => right; right; simp only [h, true_and] at hc; omega
    | PADDING => simp
    | FULL_FRAME => simp

/-- Outside `PADDING_LENGTH` the loop is one `DATA` pass and one `PADDING` pass. -/
theorem http2_scan_loop_phases (data : List Nat) (L n : Nat) (c : Cutter) (pos : Nat)
    (hL : L < 4294967296) (hpos : pos ≤ L) (hd : c.data_len < 4294967296)
    (hp : c.padding_len < 4294967296) (hs : c.data_state ≠ DataState.PADDING_LENGTH) :
    http2_scan_loop data L (n + 3) c pos =
      some (ScanStep.next (scan_phases L c pos).1 (scan_phases L c pos).2) := by
  obtain ⟨h1, h2, _, h4⟩ := scan_phase_DATA_facts L c pos hL hpos hd hs
  by_cases hc : c.data_state = DataState.DATA ∧ pos < L
  · rw [http2_scan_loop_step data L (n + 2) c pos ⟨hc.2, by simp [hc.1]⟩]
    simp only [http2_scan_body, hc.1]
    have hx : scan_phase_DATA L (c, pos) = http2_scan_DATA L c pos := by
      simp only [scan_phase_DATA, hc, and_self, if_true]
    rw [hx] at h1 h2 h4
    rw [http2_scan_loop_PADDING data L n _ _ hL h1 (by rw [h2]; exact hp) h4]
    simp only [scan_phases, hx]
  · have hx : scan_phase_DATA L (c, pos) = (c, pos) := by
      simp only [scan_phase_DATA, hc, if_false]
    rw [hx] at h1 h2 h4
    rw [http2_scan_loop_PADDING data L (n + 1) c pos hL hpos hp h4]
    simp only [scan_phases, hx]

/-- In `PADDING_LENGTH` with input left and a payload byte remaining, the loop consumes the
padding-length byte and goes on with the `DATA` and `PADDING` passes. -/
theorem http2_scan_loop_PL_ok (data : List Nat) (L n : Nat) (c : Cutter) (pos : Nat)
    (hL : L < 4294967296) (hpos : pos < L) (hd : c.data_len < 4294967296)
    (hs : c.data_state = DataState.PADDING_LENGTH)
    (h : data.getD c.cur_data_offset 0 % 256 + 1 < c.data_len) :
    http2_scan_loop data L (n + 4) c pos =
      some (ScanStep.next (scan_phases L (scan_after_PADDING_LENGTH data c) (pos + 1)).1
        (scan_phases L (scan_after_PADDING_LENGTH data c) (pos + 1)).2) := by
  rw [http2_scan_loop_step data L (n + 3) c pos ⟨hpos, by simp [hs]⟩]
  rw [http2_scan_body_PL_ok data L c pos hs hd (by omega) h]
  exact http2_scan_loop_phases data L n (scan_after_PADDING_LENGTH data c) (pos + 1) hL
    (by omega) (by simp only [scan_after_PADDING_LENGTH]; omega)
    (by simp only [scan_after_PADDING_LENGTH]; omega)
    (by simp [scan_after_PADDING_LENGTH])

/-! ## Closed form of `http2_scan` -/

theorem scan_length_lt (c : Cutter) (length : Nat) (h : length < 4294967296) :
    scan_length c length < 4294967296 := by
  unfold scan_length
  split
  · exact sub32_lt _ _
  · exact h

@[simp] theorem http2_scan_entry_data_state (c : Cutter) :
    (http2_scan_entry c).data_state = c.data_state := by
  unfold http2_scan_entry; split <;> rfl

@[simp] theorem http2_scan_entry_data_len (c : Cutter) :
    (http2_scan_entry c).data_len = c.data_len := by
  unfold http2_scan_entry; split <;> rfl

@[simp] theorem http2_scan_entry_padding_len (c : Cutter) :
    (http2_scan_entry c).padding_len = c.padding_len := by
  unfold http2_scan_entry; split <;> rfl

@[simp] theorem http2_scan_entry_session_data (c : Cutter) :
    (http2_scan_entry c).session_data = c.session_data := by
  unfold http2_scan_entry; split <;> rfl

@[simp] theorem http2_scan_entry_cur_data_offset (c : Cutter) :
    (http2_scan_entry c).cur_data_offset = padding_length_index c := by
  unfold http2_scan_entry padding_length_index; split <;> rfl

theorem getD_entry (c : Cutter) (data : List Nat) :
    data.getD (http2_scan_entry c).cur_data_offset 0 % 256 = padding_length_byte c data := by
  rw [http2_scan_entry_cur_data_offset]; rfl

/-- `http2_scan` on a call that does not start in `PADDING_LENGTH`. -/
theorem http2_scan_eq_phases (n : Nat) (c : Cutter) (data : List Nat) (length : Nat)
    (hlen : length < 4294967296) (hd : c.data_len < 4294967296)
    (hp : c.padding_len < 4294967296) (hs : c.data_state ≠ DataState.PADDING_LENGTH) :
    http2_scan (n + 4) c data length =
      some { ok := true
             c := http2_scan_exit
               (scan_phases (scan_length c length) (http2_scan_entry c) 0).1
               (scan_phases (scan_length c length) (http2_scan_entry c) 0).2
             flush_offset := add32 (scan_flush_offset c)
               (scan_phases (scan_length c length) (http2_scan_entry c) 0).2 } := by
  unfold http2_scan
  rw [http2_scan_loop_phases data _ (n + 1) (http2_scan_entry c) 0 (scan_length_lt c length hlen)
    (Nat.zero_le _) (by simpa using hd) (by simpa using hp) (by simpa using hs)]

/-- `http2_scan` on a call that starts in `PADDING_LENGTH` and has no byte to offer. -/
theorem http2_scan_eq_PL_empty (n : Nat) (c : Cutter) (data : List Nat) (length : Nat)
    (hL : scan_length c length = 0) :
    http2_scan (n + 1) c data length =
      some { ok := true
             c := http2_scan_exit (http2_scan_entry c) 0
             flush_offset := add32 (scan_flush_offset c) 0 } := by
  unfold http2_scan
  rw [http2_scan_loop_exit data _ n (http2_scan_entry c) 0 (by omega)]

/-- `http2_scan` reading a padding length that is at least the remaining length. -/
theorem http2_scan_eq_PL_malformed (n : Nat) (c : Cutter) (data : List Nat) (length : Nat)
    (hL : 0 < scan_length c length) (hs : c.data_state = DataState.PADDING_LENGTH)
    (h : c.data_len ≤ padding_length_byte c data) :
    http2_scan (n + 1) c data length =
      some { ok := false
             c := { http2_scan_entry c with
                    padding_len := padding_length_byte c data
                    session_data :=
                      { c.session_data with
                        infractions := c.session_data.infractions ++ [Infraction.INF_PADDING_LEN]
                        events := c.session_data.events ++ [EventSid.EVENT_PADDING_LEN] } }
             flush_offset := scan_flush_offset c } := by
  unfold http2_scan
  rw [http2_scan_loop_step data _ n (http2_scan_entry c) 0 ⟨hL, by simp [hs]⟩]
  rw [http2_scan_body_PL_malformed data _ (http2_scan_entry c) 0 (by simpa using hs)
    (by rw [getD_entry]; simpa using h)]
  simp only [getD_entry, http2_scan_entry_session_data]

/-- `http2_scan` reading a padding length that leaves no payload byte. -/
theorem http2_scan_eq_PL_all_padding (n : Nat) (c : Cutter) (data : List Nat) (length : Nat)
    (hL : 0 < scan_length c length) (hs : c.data_state = DataState.PADDING_LENGTH)
    (h : c.data_len = padding_length_byte c data + 1) :
    http2_scan (n + 1) c data length =
      some { ok := false
             c := { http2_scan_entry c with padding_len := padding_length_byte c data }
             flush_offset := scan_flush_offset c } := by
  unfold http2_scan
  rw [http2_scan_loop_step data _ n (http2_scan_entry c) 0 ⟨hL, by simp [hs]⟩]
  rw [http2_scan_body_PL_all_padding data _ (http2_scan_entry c) 0 (by simpa using hs)
    (by rw [getD_entry]; simpa using h)]
  simp only [getD_entry]

/-- `http2_scan` reading a padding length that leaves at least one payload byte. -/
theorem http2_scan_eq_PL_ok (n : Nat) (c : Cutter) (data : List Nat) (length : Nat)
    (hlen : length < 4294967296) (hd : c.data_len < 4294967296)
    (hL : 0 < scan_length c length) (hs : c.data_state = DataState.PADDING_LENGTH)
    (h : padding_length_byte c data + 1 < c.data_len) :
    http2_scan (n + 4) c data length =
      some { ok := true
             c := http2_scan_exit
               (scan_phases (scan_length c length)
                 (scan_after_PADDING_LENGTH data (http2_scan_entry c)) 1).1
               (scan_phases (scan_length c length)
                 (scan_after_PADDING_LENGTH data (http2_scan_entry c)) 1).2
             flush_offset := add32 (scan_flush_offset c)
               (scan_phases (scan_length c length)
                 (scan_after_PADDING_LENGTH data (http2_scan_entry c)) 1).2 } := by
  unfold http2_scan
  rw [http2_scan_loop_PL_ok data _ n (http2_scan_entry c) 0 (scan_length_lt c length hlen) hL
    (by simpa using hd) (by simpa using hs) (by rw [getD_entry]; simpa using h)]

theorem http2_scan_mono (n k : Nat) (c : Cutter) (data : List Nat) (length : Nat)
    (r : ScanResult) (h : http2_scan n c data length = some r) :
    http2_scan (n + k) c data length = some r := by
  unfold http2_scan at h ⊢
  cases hl : http2_scan_loop data (scan_length c length) n (http2_scan_entry c) 0 with
  | none => rw [hl] at h; simp at h
  | some st =>
    rw [http2_scan_loop_mono data _ st n _ 0 hl k]
    rw [hl] at h
    exact h

/-! ## The loop invariant of the scanner -/

theorem http2_scan_DATA_spec (L : Nat) (c : Cutter) (pos : Nat) (hL : L < 4294967296)
    (hpos : pos ≤ L) (hd : c.data_len < 4294967296) (hdl : c.data_bytes_read ≤ c.data_len) :
    SameFrame c (http2_scan_DATA L c pos).1 ∧
    (http2_scan_DATA L c pos).1.data_len = c.data_len ∧
    (http2_scan_DATA L c pos).1.padding_len = c.padding_len ∧
    (http2_scan_DATA L c pos).1.padding_read = c.padding_read ∧
    (http2_scan_DATA L c pos).1.cur_padding = c.cur_padding ∧
    (http2_scan_DATA L c pos).1.cur_data_offset = c.cur_data_offset ∧
    ((c.data_len - c.data_bytes_read ≤ L - pos ∧
        (http2_scan_DATA L c pos).1.cur_data = c.data_len - c.data_bytes_read ∧
        (http2_scan_DATA L c pos).1.data_bytes_read = c.data_len ∧
        (http2_scan_DATA L c pos).2 = pos + (c.data_len - c.data_bytes_read) ∧
        ((c.padding_len = 0 ∧
            (http2_scan_DATA L c pos).1.data_state = DataState.FULL_FRAME) ∨
          (c.padding_len ≠ 0 ∧
            (http2_scan_DATA L c pos).1.data_state = DataState.PADDING))) ∨
      (L - pos < c.data_len - c.data_bytes_read ∧
        (http2_scan_DATA L c pos).1.cur_data = L - pos ∧
        (http2_scan_DATA L c pos).1.data_bytes_read = c.data_bytes_read + (L - pos) ∧
        (http2_scan_DATA L c pos).2 = L ∧
        (http2_scan_DATA L c pos).1.data_state = c.data_state)) := by
  have hm : sub32 c.data_len c.data_bytes_read = c.data_len - c.data_bytes_read :=
    sub32_eq _ _ hdl hd
  refine ⟨⟨rfl, rfl, rfl, rfl, rfl, rfl, rfl⟩, rfl, rfl, rfl, rfl, rfl, ?_⟩
  by_cases he : sub32 c.data_len c.data_bytes_read ≤ L - pos
  · left
    rw [http2_scan_DATA_enough L c pos hL hpos hd he, hm]
    rw [hm] at he
    refine ⟨he, rfl, rfl, rfl, ?_⟩
    by_cases hp : c.padding_len = 0
    · left; exact ⟨hp, by simp [hp]⟩
    · right; exact ⟨hp, by simp [hp]⟩
  · right
    rw [(http2_scan_DATA_short L c pos hL hpos he).1]
    rw [hm] at he
    refine ⟨by omega, rfl, ?_, rfl, rfl⟩
    exact add32_eq _ _ (by omega)

theorem http2_scan_PADDING_spec (L : Nat) (c : Cutter) (pos : Nat) (hL : L < 4294967296)
    (hpos : pos ≤ L) (hp : c.padding_len < 4294967296) (hpl : c.padding_read ≤ c.padding_len) :
    SameFrame c (http2_scan_PADDING L c pos).1 ∧
    (http2_scan_PADDING L c pos).1.data_len = c.data_len ∧
    (http2_scan_PADDING L c pos).1.padding_len = c.padding_len ∧
    (http2_scan_PADDING L c pos).1.data_bytes_read = c.data_bytes_read ∧
    (http2_scan_PADDING L c pos).1.cur_data = c.cur_data ∧
    (http2_scan_PADDING L c pos).1.cur_data_offset = c.cur_data_offset ∧
    ((c.padding_len - c.padding_read ≤ L - pos ∧
        (http2_scan_PADDING L c pos).1.cur_padding = c.padding_len - c.padding_read ∧
        (http2_scan_PADDING L c pos).1.padding_read = c.padding_len ∧
        (http2_scan_PADDING L c pos).2 = pos + (c.padding_len - c.padding_read) ∧
        (http2_scan_PADDING L c pos).1.data_state = DataState.FULL_FRAME) ∨
      (L - pos < c.padding_len - c.padding_read ∧
        (http2_scan_PADDING L c pos).1.cur_padding = L - pos ∧
        (http2_scan_PADDING L c pos).1.padding_read = c.padding_read + (L - pos) ∧
        (http2_scan_PADDING L c pos).2 = L ∧
        (http2_scan_PADDING L c pos).1.data_state = c.data_state)) := by
  have hm : sub32 c.padding_len c.padding_read = c.padding_len - c.padding_read :=
    sub32_eq _ _ hpl hp
  refine ⟨⟨rfl, rfl, rfl, rfl, rfl, rfl, rfl⟩, rfl, rfl, rfl, rfl, rfl, ?_⟩
  by_cases he : sub32 c.padding_len c.padding_read ≤ L - pos
  · left
    rw [http2_scan_PADDING_enough L c pos hL hpos hp he, hm]
    rw [hm] at he
    exact ⟨he, rfl, rfl, rfl, rfl⟩
  · right
    rw [(http2_scan_PADDING_short L c pos hL hpos he).1]
    rw [hm] at he
    refine ⟨by omega, rfl, ?_, rfl, rfl⟩
    exact add32_eq _ _ (by omega)

theorem pl_consumed_eq (c0 c c1 : Cutter) (h : c.data_state ≠ DataState.PADDING_LENGTH)
    (h1 : c1.data_state ≠ DataState.PADDING_LENGTH) : pl_consumed c0 c1 = pl_consumed c0 c := by
  simp [pl_consumed, h, h1]


theorem SameFrame.refl (c : Cutter) : SameFrame c c := ⟨rfl, rfl, rfl, rfl, rfl, rfl, rfl⟩

theorem SameFrame.trans {a b c : Cutter} (h1 : SameFrame a b) (h2 : SameFrame b c) :
    SameFrame a c :=
  ⟨h2.session_data.trans h1.session_data, h2.frame_length.trans h1.frame_length,
    h2.frame_bytes_seen.trans h1.frame_bytes_seen, h2.bytes_sent_http.trans h1.bytes_sent_http,
    h2.hdr_bytes_read.trans h1.hdr_bytes_read, h2.http_state.trans h1.http_state,
    h2.reassemble_state.trans h1.reassemble_state⟩

theorem LoopInv_init (len : Nat) (padded : Bool) (data : List Nat) (L : Nat) (c0 : Cutter)
    (h : ScanInv len padded c0 c0.frame_bytes_seen) (hcd : c0.cur_data = 0)
    (hcp : c0.cur_padding = 0) (hoff : c0.cur_data_offset ≤ 9) :
    LoopInv len padded data L c0 c0 0 := by
  constructor
  · simpa using h
  · omega
  · simp [pl_consumed, hcd, hcp]
  · simp [hcd]
  · simp [hcp]
  · intros; exact hcd
  · intros; exact hcp
  · intro _; exact ⟨rfl, rfl⟩
  · intro h1 h2; exact absurd h2 h1
  · simp [pl_consumed]
  · exact hoff
  · intro _ h; omega
  · intro h; exact absurd rfl h
  · intro _; exact ⟨rfl, rfl⟩
  · exact le_refl _
  · exact SameFrame.refl c0

theorem LoopInv_step_DATA (len : Nat) (padded : Bool) (data : List Nat) (L : Nat)
    (c0 c : Cutter) (pos : Nat) (hL : L < 4294967296) (hpos : pos < L)
    (hs : c.data_state = DataState.DATA) (h : LoopInv len padded data L c0 c pos) :
    LoopInv len padded data L c0 (http2_scan_DATA L c pos).1 (http2_scan_DATA L c pos).2 := by
  have hnpl : c.data_state ≠ DataState.PADDING_LENGTH := by simp [hs]
  obtain ⟨hf, hsum, hpf⟩ := h.inv.st_npl hnpl
  have hpr := h.inv.st_data hs
  have hcd := h.todo_data hs hpos
  have hcp := h.todo_padding (by simp [hs]) hpos
  have hdl := h.inv.dbr_le
  have hprl := h.inv.pr_le
  have hlen := h.inv.len_lt
  have hfl := h.inv.frame_length
  have hunp := h.inv.unpadded
  have hacct := h.acct
  have hdbr := h.dbr
  have hprr := h.pr
  have hoff := h.offset
  have hoffle := h.offset_le
  have hpp := h.past_pl hnpl
  have hsl := h.same_len
  have hrk := h.rank_le
  rw [hs] at hrk
  have hrk2 : 2 ≤ c0.data_state.rank := hrk
  obtain ⟨hsf, e1, e2, e3, e4, e5, hcase⟩ :=
    http2_scan_DATA_spec L c pos hL (by omega) (by omega) hdl
  generalize (http2_scan_DATA L c pos).1 = c1 at *
  generalize (http2_scan_DATA L c pos).2 = p1 at *
  have hfl1 := hsf.frame_length
  have key : ∀ st, c1.data_state = st → st ≠ DataState.PADDING_LENGTH →
      st.rank ≤ 2 →
      (st = DataState.DATA → p1 = L ∧ c1.data_bytes_read < c1.data_len) →
      (st = DataState.PADDING → c1.data_bytes_read = c1.data_len ∧ c1.padding_len ≠ 0) →
      (st = DataState.FULL_FRAME → c1.data_bytes_read = c1.data_len ∧ c1.padding_len = 0) →
      c1.data_bytes_read = c.data_bytes_read + c1.cur_data → p1 = pos + c1.cur_data →
      p1 ≤ L → c1.data_bytes_read ≤ c1.data_len →
      LoopInv len padded data L c0 c1 p1 := by
    intro st hst hst1 hst2 hD hP hF g1 g2 g3 g4
    have hplc : pl_consumed c0 c1 = pl_consumed c0 c :=
      pl_consumed_eq c0 c c1 hnpl (by rw [hst]; exact hst1)
    refine ⟨⟨hlen, by omega, by omega, by omega, fun hh => by have := hunp hh; omega,
      fun hh => absurd (hst ▸ hh) hst1, fun _ => by omega, fun _ => by omega,
      fun hh => ?_, fun hh => ?_⟩, g3, by omega, by omega, by omega,
      fun hh _ => ?_, fun _ _ => by omega, fun hh => absurd (hst ▸ hh) hst1,
      fun _ h0 => by have := hpp h0; omega, by omega, hoffle, fun hh _ => ?_,
      fun _ => by omega, fun h0 => by have := hsl h0; omega, by rw [hst]; omega,
      h.frame.trans hsf⟩
    · have := hP (hst ▸ hh); omega
    · have := hF (hst ▸ hh); omega
    · have := hD (hst ▸ hh); omega
    · have := hD (hst ▸ hh); omega
  rcases hcase with ⟨he, f1, f2, f3, hst⟩ | ⟨he, f1, f2, f3, hst⟩
  · rcases hst with ⟨hp0, hst⟩ | ⟨hp0, hst⟩
    · exact key _ hst (by simp) (by simp [DataState.rank]) (by simp) (by simp)
        (fun _ => by omega) (by omega) (by omega) (by omega) (by omega)
    · exact key _ hst (by simp) (by simp [DataState.rank]) (by simp)
        (fun _ => ⟨by omega, by omega⟩) (by simp) (by omega) (by omega) (by omega) (by omega)
  · rw [hs] at hst
    exact key _ hst (by simp) (by simp [DataState.rank]) (fun _ => by omega) (by simp) (by simp)
      (by omega) (by omega) (by omega) (by omega)

theorem LoopInv_step_PADDING (len : Nat) (padded : Bool) (data : List Nat) (L : Nat)
    (c0 c : Cutter) (pos : Nat) (hL : L < 4294967296) (hpos : pos < L)
    (hs : c.data_state = DataState.PADDING) (h : LoopInv len padded data L c0 c pos) :
    LoopInv len padded data L c0 (http2_scan_PADDING L c pos).1
      (http2_scan_PADDING L c pos).2 := by
  have hnpl : c.data_state ≠ DataState.PADDING_LENGTH := by simp [hs]
  obtain ⟨hf, hsum, hpf⟩ := h.inv.st_npl hnpl
  obtain ⟨hpd, hpr⟩ := h.inv.st_padding hs
  have hcp := h.todo_padding (by simp [hs]) hpos
  have hdl := h.inv.dbr_le
  have hprl := h.inv.pr_le
  have hlen := h.inv.len_lt
  have hfl := h.inv.frame_length
  have hunp := h.inv.unpadded
  have hacct := h.acct
  have hdbr := h.dbr
  have hprr := h.pr
  have hoff := h.offset
  have hoffle := h.offset_le
  have hpp := h.past_pl hnpl
  have hsl := h.same_len
  have hrk := h.rank_le
  rw [hs] at hrk
  have hrk2 : 1 ≤ c0.data_state.rank := hrk
  obtain ⟨hsf, e1, e2, e3, e4, e5, hcase⟩ :=
    http2_scan_PADDING_spec L c pos hL (by omega) (by omega) hprl
  generalize (http2_scan_PADDING L c pos).1 = c1 at *
  generalize (http2_scan_PADDING L c pos).2 = p1 at *
  have hfl1 := hsf.frame_length
  have key : ∀ st, c1.data_state = st → st ≠ DataState.PADDING_LENGTH →
      st ≠ DataState.DATA → st.rank ≤ 1 →
      (st = DataState.PADDING → p1 = L ∧ c1.padding_read < c1.padding_len) →
      (st = DataState.FULL_FRAME → c1.padding_read = c1.padding_len) →
      c1.padding_read = c.padding_read + c1.cur_padding → p1 = pos + c1.cur_padding →
      p1 ≤ L → c1.padding_read ≤ c1.padding_len →
      LoopInv len padded data L c0 c1 p1 := by
    intro st hst hst1 hst3 hst2 hP hF g1 g2 g3 g4
    have hplc : pl_consumed c0 c1 = pl_consumed c0 c :=
      pl_consumed_eq c0 c c1 hnpl (by rw [hst]; exact hst1)
    refine ⟨⟨hlen, by omega, by omega, by omega, fun hh => by have := hunp hh; omega,
      fun hh => absurd (hst ▸ hh) hst1, fun _ => by omega,
      fun hh => absurd (hst ▸ hh) hst3,
      fun hh => ?_, fun hh => ?_⟩, g3, by omega, by omega, by omega,
      fun hh _ => absurd (hst ▸ hh) hst3, fun hh hlt => ?_, fun hh => absurd (hst ▸ hh) hst1,
      fun _ h0 => by have := hpp h0; omega, by omega, hoffle,
      fun hh _ => absurd (hst ▸ hh) hst3,
      fun _ => by omega, fun h0 => by have := hsl h0; omega, by rw [hst]; omega,
      h.frame.trans hsf⟩
    · have := hP (hst ▸ hh); omega
    · have := hF (hst ▸ hh); omega
    · exfalso
      cases st with
      | PADDING_LENGTH => exact hst1 rfl
      | DATA => exact hst3 rfl
      | PADDING => have := hP rfl; omega
      | FULL_FRAME => exact hh hst
  rcases hcase with ⟨he, f1, f2, f3, hst⟩ | ⟨he, f1, f2, f3, hst⟩
  · exact key _ hst (by simp) (by simp) (by simp [DataState.rank]) (by simp)
      (fun _ => by omega) (by omega) (by omega) (by omega) (by omega)
  · rw [hs] at hst
    exact key _ hst (by simp) (by simp) (by simp [DataState.rank]) (fun _ => by omega) (by simp)
      (by omega) (by omega) (by omega) (by omega)

theorem LoopInv_step_PL (len : Nat) (padded : Bool) (data : List Nat) (L : Nat)
    (c0 c : Cutter) (pos : Nat) (hpos : pos < L)
    (hs : c.data_state = DataState.PADDING_LENGTH) (h : LoopInv len padded data L c0 c pos)
    (hok : data.getD c0.cur_data_offset 0 % 256 + 1 < len) :
    http2_scan_body data L c pos = ScanStep.next (scan_after_PADDING_LENGTH data c0) 1 ∧
      LoopInv len padded data L c0 (scan_after_PADDING_LENGTH data c0) 1 := by
  obtain ⟨hc, hp0⟩ := h.still_pl hs
  subst hc
  subst hp0
  obtain ⟨hpadded, hdlen, hpl0, hdbr0, hpr0, hf⟩ := h.inv.st_pl hs
  have hlen := h.inv.len_lt
  have hfl := h.inv.frame_length
  have hacct := h.acct
  have hoffle := h.offset_le
  have hpf : pad_field padded = 1 := by simp [pad_field, hpadded]
  have hplc0 : pl_consumed c c = 0 := by simp [pl_consumed]
  have hplc : pl_consumed c (scan_after_PADDING_LENGTH data c) = 1 := by
    simp [pl_consumed, scan_after_PADDING_LENGTH, hs]
  have hoff1 : add32 c.cur_data_offset 1 = c.cur_data_offset + 1 := add32_eq _ _ (by omega)
  refine ⟨?_, ?_⟩
  · rw [http2_scan_body_PL_ok data L c 0 hs (by omega) (by omega) (by omega)]
    rfl
  · refine ⟨⟨hlen, hfl, ?_, ?_, fun hh => ?_, fun hh => ?_, fun _ => ?_, fun _ => ?_,
      fun hh => ?_, fun hh => ?_⟩, by omega, ?_, ?_, ?_, fun _ _ => ?_, fun _ _ => ?_,
      fun hh => ?_, fun _ _ => ⟨rfl, by omega⟩, ?_, hoffle, fun _ _ => ?_, fun _ => by omega,
      fun h0 => absurd hs h0, ?_, ⟨rfl, rfl, rfl, rfl, rfl, rfl, rfl⟩⟩
    all_goals simp only [scan_after_PADDING_LENGTH, hoff1] at *
    all_goals first
      | omega
      | (rw [hpadded] at hh; cases hh)
      | (cases hh)
      | (rw [hs]; simp [DataState.rank])

/-! ## One call of `http2_scan` on a consistent context -/

theorem ScanInv.bounds {len : Nat} {padded : Bool} {c : Cutter} {f : Nat}
    (h : ScanInv len padded c f) :
    c.data_len ≤ len ∧ c.padding_len ≤ len ∧ f ≤ 9 + len ∧ 9 ≤ f := by
  have h1 := h.dbr_le
  have h2 := h.pr_le
  by_cases hs : c.data_state = DataState.PADDING_LENGTH
  · obtain ⟨_, h3, h4, _, _, h5⟩ := h.st_pl hs
    omega
  · obtain ⟨h3, h4, _⟩ := h.st_npl hs
    omega

theorem http2_scan_loop_spec (len : Nat) (padded : Bool) (data : List Nat) (L : Nat)
    (c0 : Cutter) (fuel : Nat) (hfuel : 4 ≤ fuel) (hL : L < 4294967296)
    (h0 : LoopInv len padded data L c0 c0 0)
    (hgood : c0.data_state = DataState.PADDING_LENGTH → 0 < L →
      data.getD c0.cur_data_offset 0 % 256 + 1 < len) :
    ∃ c1 pos, http2_scan_loop data L fuel c0 0 = some (ScanStep.next c1 pos) ∧
      LoopInv len padded data L c0 c1 pos ∧
      (pos = L ∨ c1.data_state = DataState.FULL_FRAME) := by
  obtain ⟨hdl, hpl, _, _⟩ := h0.inv.bounds
  have hlen := h0.inv.len_lt
  obtain ⟨r, hr⟩ := http2_scan_loop_terminates data L hL fuel c0 0
    (by cases c0.data_state <;> simp [DataState.rank] <;> omega) (Nat.zero_le _)
    (by omega) (by omega)
  have hH := http2_scan_loop_inv data L (LoopInv len padded data L c0) (fun _ => False)
    (by
      intro c pos hP hpos hnf
      cases hs : c.data_state with
      | PADDING_LENGTH =>
        have hc := (hP.still_pl hs).1
        obtain ⟨hb, hI⟩ := LoopInv_step_PL len padded data L c0 c pos hpos hs hP
          (hgood (hc ▸ hs) (by omega))
        rw [hb]
        exact hI
      | DATA =>
        simp only [http2_scan_body, hs]
        exact LoopInv_step_DATA len padded data L c0 c pos hL hpos hs hP
      | PADDING =>
        simp only [http2_scan_body, hs]
        exact LoopInv_step_PADDING len padded data L c0 c pos hL hpos hs hP
      | FULL_FRAME => exact absurd hs hnf)
    fuel c0 0 h0 r hr
  cases r with
  | ret_false c1 => exact absurd hH id
  | next c1 pos =>
    simp only at hH
    refine ⟨c1, pos, hr, hH.1, ?_⟩
    have hle := hH.1.pos_le
    by_cases hf : c1.data_state = DataState.FULL_FRAME
    · exact Or.inr hf
    · left
      have := hH.2
      simp only [not_and, not_not] at this
      by_contra hne
      exact hf (this (by omega))

@[simp] theorem http2_scan_entry_cur_data (c : Cutter) : (http2_scan_entry c).cur_data = 0 := by
  unfold http2_scan_entry; split <;> rfl

@[simp] theorem http2_scan_entry_cur_padding (c : Cutter) :
    (http2_scan_entry c).cur_padding = 0 := by
  unfold http2_scan_entry; split <;> rfl

theorem http2_scan_entry_offset_le (c : Cutter) : (http2_scan_entry c).cur_data_offset ≤ 9 := by
  unfold http2_scan_entry; split <;> simp [FRAME_HEADER_LENGTH]

theorem scan_length_add (c : Cutter) (length : Nat) (hlen : length < 4294967296)
    (hfirst : c.frame_bytes_seen = 0 → 9 ≤ length) :
    scan_flush_offset c + scan_length c length = length ∧ scan_flush_offset c ≤ 9 := by
  unfold scan_flush_offset scan_length FRAME_HEADER_LENGTH
  split
  · rename_i h
    have := hfirst h
    rw [sub32_eq _ _ this hlen]
    omega
  · omega

/-- A call of `http2_scan` that starts from a consistent context, receives at least the frame
header if it is the first call, and, if it reads the padding-length byte, finds that a
payload byte remains: it succeeds, and the cutter with which the loop ends satisfies the loop
invariant. -/
theorem http2_scan_ok_spec (len : Nat) (padded : Bool) (fuel : Nat) (c : Cutter)
    (data : List Nat) (length : Nat) (hfuel : 4 ≤ fuel) (hlen : length < 4294967296)
    (hfirst : c.frame_bytes_seen = 0 → 9 ≤ length)
    (hinv : ScanInv len padded (http2_scan_entry c) (http2_scan_entry c).frame_bytes_seen)
    (hgood : c.data_state = DataState.PADDING_LENGTH → 0 < scan_length c length →
      padding_length_byte c data + 1 < len) :
    ∃ c1 pos,
      http2_scan fuel c data length =
        some { ok := true, c := http2_scan_exit c1 pos,
               flush_offset := scan_flush_offset c + pos } ∧
      LoopInv len padded data (scan_length c length) (http2_scan_entry c) c1 pos ∧
      (pos = scan_length c length ∨ c1.data_state = DataState.FULL_FRAME) ∧
      (len + 9 < 4294967296 ∨
          (http2_scan_entry c).frame_bytes_seen + scan_length c length < 4294967296 →
        (http2_scan_exit c1 pos).frame_bytes_seen =
          (http2_scan_entry c).frame_bytes_seen + pos) := by
  have hL := scan_length_lt c length hlen
  obtain ⟨c1, pos, hloop, hI, hexit⟩ := http2_scan_loop_spec len padded data
    (scan_length c length) (http2_scan_entry c) fuel hfuel hL
    (LoopInv_init len padded data _ _ hinv (by simp) (by simp) (http2_scan_entry_offset_le c))
    (by
      intro hs h0
      rw [getD_entry]
      exact hgood (by simpa using hs) h0)
  obtain ⟨hadd, hfo⟩ := scan_length_add c length hlen hfirst
  have hple := hI.pos_le
  obtain ⟨_, _, hfle, _⟩ := hI.inv.bounds
  have hfbs := hI.frame.frame_bytes_seen
  have e1 : add32 (scan_flush_offset c) pos = scan_flush_offset c + pos :=
    add32_eq _ _ (by omega)
  refine ⟨c1, pos, ?_, hI, hexit, ?_⟩
  · unfold http2_scan
    rw [hloop]
    simp only [e1]
  · intro hbound
    have e2 : add32 c1.frame_bytes_seen pos = (http2_scan_entry c).frame_bytes_seen + pos := by
      rw [hfbs]
      exact add32_eq _ _ (by omega)
    simp only [http2_scan_exit, e2]

/-- A call of `http2_scan` that succeeds did not find a padding-length byte that leaves no
payload. -/
theorem http2_scan_ok_good (fuel : Nat) (c : Cutter) (data : List Nat) (length : Nat)
    (r : ScanResult) (hr : http2_scan fuel c data length = some r) (hok : r.ok = true)
    (hs : c.data_state = DataState.PADDING_LENGTH) (hL : 0 < scan_length c length) :
    padding_length_byte c data + 1 < c.data_len := by
  have hr4 := http2_scan_mono fuel 1 c data length r hr
  by_contra hbad
  by_cases h1 : c.data_len ≤ padding_length_byte c data
  · rw [http2_scan_eq_PL_malformed fuel c data length hL hs h1] at hr4
    simp only [Option.some.injEq] at hr4
    subst hr4
    simp at hok
  · rw [http2_scan_eq_PL_all_padding fuel c data length hL hs (by omega)] at hr4
    simp only [Option.some.injEq] at hr4
    subst hr4
    simp at hok

/-! ## Failure of the scanner -/

theorem http2_scan_DATA_state_ne (L : Nat) (c : Cutter) (pos : Nat)
    (hs : c.data_state = DataState.DATA) :
    (http2_scan_DATA L c pos).1.data_state ≠ DataState.PADDING_LENGTH := by
  simp only [http2_scan_DATA, hs]
  split_ifs <;> simp

theorem http2_scan_PADDING_state_ne (L : Nat) (c : Cutter) (pos : Nat)
    (hs : c.data_state = DataState.PADDING) :
    (http2_scan_PADDING L c pos).1.data_state ≠ DataState.PADDING_LENGTH := by
  simp only [http2_scan_PADDING, hs]
  split_ifs <;> simp

theorem scan_phase_DATA_keeps (L : Nat) (x : Cutter × Nat) :
    (scan_phase_DATA L x).1.data_len = x.1.data_len ∧
    (scan_phase_DATA L x).1.padding_len = x.1.padding_len ∧
    (scan_phase_DATA L x).1.session_data = x.1.session_data ∧
    (x.1.data_state ≠ DataState.PADDING_LENGTH →
      (scan_phase_DATA L x).1.data_state ≠ DataState.PADDING_LENGTH) := by
  unfold scan_phase_DATA
  split
  · rename_i h
    exact ⟨rfl, rfl, rfl, fun _ => http2_scan_DATA_state_ne L x.1 x.2 h.1⟩
  · exact ⟨rfl, rfl, rfl, fun h => h⟩

theorem scan_phase_PADDING_keeps (L : Nat) (x : Cutter × Nat) :
    (scan_phase_PADDING L x).1.data_len = x.1.data_len ∧
    (scan_phase_PADDING L x).1.padding_len = x.1.padding_len ∧
    (scan_phase_PADDING L x).1.session_data = x.1.session_data ∧
    (x.1.data_state ≠ DataState.PADDING_LENGTH →
      (scan_phase_PADDING L x).1.data_state ≠ DataState.PADDING_LENGTH) := by
  unfold scan_phase_PADDING
  split
  · rename_i h
    exact ⟨rfl, rfl, rfl, fun _ => http2_scan_PADDING_state_ne L x.1 x.2 h.1⟩
  · exact ⟨rfl, rfl, rfl, fun h => h⟩

theorem scan_phases_keeps (L : Nat) (c : Cutter) (pos : Nat) :
    (scan_phases L c pos).1.data_len = c.data_len ∧
    (scan_phases L c pos).1.padding_len = c.padding_len ∧
    (scan_phases L c pos).1.session_data = c.session_data ∧
    (c.data_state ≠ DataState.PADDING_LENGTH →
      (scan_phases L c pos).1.data_state ≠ DataState.PADDING_LENGTH) := by
  unfold scan_phases
  obtain ⟨a1, a2, a3, a4⟩ := scan_phase_DATA_keeps L (c, pos)
  obtain ⟨b1, b2, b3, b4⟩ := scan_phase_PADDING_keeps L (scan_phase_DATA L (c, pos))
  exact ⟨b1.trans a1, b2.trans a2, b3.trans a3, fun h => b4 (a4 h)⟩

/-- C5: `http2_scan` fails exactly when the call processes the padding-length byte `p` of a
frame in state `PADDING_LENGTH` whose `data_len` at that moment satisfies
`data_len <= p + 1`; the public `scan` then returns `ABORT` and forwards nothing downstream.
A context built for an unpadded frame starts in `DATA`, and a call that does not start in
`PADDING_LENGTH` never fails and never enters `PADDING_LENGTH`. When the `PADDING_LENGTH` step
succeeds it sets `padding_len = p`, `data_len = data_len - 1 - p >= 1` and
`data_state = DATA`, and `padding_len`, `data_len` keep these values to the end of the call. -/
theorem http2_scan_failure_condition (fuel : Nat) (hi : HttpStreamSplitter) (c : Cutter)
    (data : List Nat) (length : Nat) (s : Http2FlowData) (len : Nat)
    (hfuel : 4 ≤ fuel) (hlen : length < 4294967296) (hd : c.data_len < 4294967296)
    (hp : c.padding_len < 4294967296) :
    (Cutter.new s len false).data_state = DataState.DATA ∧
    ∃ r, http2_scan fuel c data length = some r ∧
      (r.ok = false ↔
        (c.data_state = DataState.PADDING_LENGTH ∧ 0 < scan_length c length ∧
          c.data_len ≤ padding_length_byte c data + 1)) ∧
      (r.ok = false →
        scan fuel hi c data length =
          some { status := Status.ABORT, c := r.c, flush_offset := r.flush_offset } ∧
        r.c.session_data.hi_scan_calls = c.session_data.hi_scan_calls) ∧
      (c.data_state ≠ DataState.PADDING_LENGTH →
        r.ok = true ∧ r.c.data_state ≠ DataState.PADDING_LENGTH) ∧
      (r.ok = true → c.data_state = DataState.PADDING_LENGTH → 0 < scan_length c length →
        http2_scan_body data (scan_length c length) (http2_scan_entry c) 0 =
          ScanStep.next (scan_after_PADDING_LENGTH data (http2_scan_entry c)) 1 ∧
        (scan_after_PADDING_LENGTH data (http2_scan_entry c)).padding_len =
          padding_length_byte c data ∧
        (scan_after_PADDING_LENGTH data (http2_scan_entry c)).data_len =
          c.data_len - 1 - padding_length_byte c data ∧
        1 ≤ (scan_after_PADDING_LENGTH data (http2_scan_entry c)).data_len ∧
        (scan_after_PADDING_LENGTH data (http2_scan_entry c)).data_state = DataState.DATA ∧
        r.c.padding_len = padding_length_byte c data ∧
        r.c.data_len = c.data_len - 1 - padding_length_byte c data ∧
        r.c.data_state ≠ DataState.PADDING_LENGTH) := by
  refine ⟨rfl, ?_⟩
  obtain ⟨n, rfl⟩ : ∃ n, fuel = n + 4 := ⟨fuel - 4, by omega⟩
  have hscan : ∀ r, http2_scan (n + 4) c data length = some r → r.ok = false →
      scan (n + 4) hi c data length =
        some { status := Status.ABORT, c := r.c, flush_offset := r.flush_offset } := by
    intro r hr hok
    simp [scan, hr, hok]
  by_cases hs : c.data_state = DataState.PADDING_LENGTH
  · by_cases hL : 0 < scan_length c length
    · by_cases h1 : c.data_len ≤ padding_length_byte c data
      · have hr := http2_scan_eq_PL_malformed (n + 3) c data length hL hs h1
        refine ⟨_, hr, ?_, ?_, ?_, ?_⟩
        · simp only [true_iff]
          exact ⟨hs, hL, by omega⟩
        · intro hok
          exact ⟨hscan _ hr hok, rfl⟩
        · intro hns; exact absurd hs hns
        · intro hok; simp at hok
      · by_cases h2 : c.data_len = padding_length_byte c data + 1
        · have hr := http2_scan_eq_PL_all_padding (n + 3) c data length hL hs h2
          refine ⟨_, hr, ?_, ?_, ?_, ?_⟩
          · simp only [true_iff]
            exact ⟨hs, hL, by omega⟩
          · intro hok
            exact ⟨hscan _ hr hok, by simp⟩
          · intro hns; exact absurd hs hns
          · intro hok; simp at hok
        · have h3 : padding_length_byte c data + 1 < c.data_len := by omega
          have hr := http2_scan_eq_PL_ok n c data length hlen hd hL hs h3
          obtain ⟨k1, k2, k3, k4⟩ := scan_phases_keeps (scan_length c length)
            (scan_after_PADDING_LENGTH data (http2_scan_entry c)) 1
          have hb := http2_scan_body_PL_ok data (scan_length c length) (http2_scan_entry c) 0
            (by simpa using hs) (by simpa using hd) (by omega)
            (by rw [getD_entry]; simpa using h3)
          have g1 : (scan_after_PADDING_LENGTH data (http2_scan_entry c)).padding_len =
              padding_length_byte c data := by
            simp only [scan_after_PADDING_LENGTH, getD_entry]
          have g2 : (scan_after_PADDING_LENGTH data (http2_scan_entry c)).data_len =
              c.data_len - 1 - padding_length_byte c data := by
            simp only [scan_after_PADDING_LENGTH, getD_entry, http2_scan_entry_data_len]
            omega
          have g3 : (scan_after_PADDING_LENGTH data (http2_scan_entry c)).data_state =
              DataState.DATA := rfl
          refine ⟨_, hr, ?_, ?_, ?_, ?_⟩
          · simp only [false_iff, not_and, not_le, Bool.true_eq_false]
            intro _ _
            omega
          · intro hok; simp at hok
          · intro hns; exact absurd hs hns
          · intro _ _ _
            refine ⟨hb, g1, g2, by omega, g3, ?_, ?_, ?_⟩
            · simp only [http2_scan_exit, k2, g1]
            · simp only [http2_scan_exit, k1, g2]
            · simp only [http2_scan_exit]
              exact k4 (by simp [g3])
    · have hr := http2_scan_eq_PL_empty (n + 3) c data length (by omega)
      refine ⟨_, hr, ?_, ?_, ?_, ?_⟩
      · simp only [false_iff, not_and, Bool.true_eq_false]
        intro _ h0
        exact absurd h0 hL
      · intro hok; simp at hok
      · intro hns; exact absurd hs hns
      · intro _ _ h0; exact absurd h0 hL
  · have hr := http2_scan_eq_phases n c data length hlen hd hp hs
    obtain ⟨k1, k2, k3, k4⟩ := scan_phases_keeps (scan_length c length) (http2_scan_entry c) 0
    refine ⟨_, hr, ?_, ?_, ?_, ?_⟩
    · simp only [false_iff, not_and, Bool.true_eq_false]
      intro h0
      exact absurd h0 hs
    · intro hok; simp at hok
    · intro _
      refine ⟨rfl, ?_⟩
      simp only [http2_scan_exit]
      exact k4 (by simpa using hs)
    · intro _ h0; exact absurd h0 hs

/-- Worked instance of C5: a padded frame of constructor length 10 whose padding-length byte
is 9 makes the first call fail. -/
theorem http2_scan_failure_condition_witness :
    (4 ≤ 4 ∧ 19 < 4294967296 ∧ (Cutter.new {} 10 true).data_len < 4294967296 ∧
      (Cutter.new {} 10 true).padding_len < 4294967296) ∧
    ∃ r, http2_scan 4 (Cutter.new {} 10 true) (header9 ++ [9, 1, 2, 3, 4, 5, 6, 7, 8, 9]) 19 =
        some r ∧ r.ok = false := by
  have h := http2_scan_failure_condition 4 hi_chunked (Cutter.new {} 10 true)
    (header9 ++ [9, 1, 2, 3, 4, 5, 6, 7, 8, 9]) 19 {} 10 (by decide) (by decide) (by decide)
    (by decide)
  obtain ⟨_, r, hr, hiff, _⟩ := h
  refine ⟨⟨by decide, by decide, by decide, by decide⟩, r, hr, ?_⟩
  exact hiff.mpr ⟨rfl, by decide, by decide⟩

/-! ## The chunk wrapper leaves the scanner members alone -/

/-- The members of the cutter that `http_scan` never writes are equal in `c` and `c1`. -/
theorem http_scan_send_header_keeps (hi : HttpStreamSplitter) (c : Cutter) :
    SameScan c (http_scan_send_header hi c).2 := ⟨rfl, rfl, rfl, rfl, rfl, rfl, rfl, rfl, rfl, rfl⟩

theorem http_scan_send_payload_keeps (hi : HttpStreamSplitter) (c : Cutter) (data : List Nat) :
    SameScan c (http_scan_send_payload hi c data).2 :=
  ⟨rfl, rfl, rfl, rfl, rfl, rfl, rfl, rfl, rfl, rfl⟩

theorem http_scan_send_terminal_keeps (hi : HttpStreamSplitter) (c : Cutter) :
    SameScan c (http_scan_send_terminal hi c).2 := ⟨rfl, rfl, rfl, rfl, rfl, rfl, rfl, rfl, rfl, rfl⟩

theorem SameScan.refl_scan (c : Cutter) : SameScan c c := ⟨rfl, rfl, rfl, rfl, rfl, rfl, rfl, rfl, rfl, rfl⟩

theorem SameScan.trans_scan {a b c : Cutter} (h1 : SameScan a b) (h2 : SameScan b c) :
    SameScan a c :=
  ⟨h2.data_len.trans h1.data_len, h2.padding_len.trans h1.padding_len,
    h2.data_state.trans h1.data_state, h2.data_bytes_read.trans h1.data_bytes_read,
    h2.padding_read.trans h1.padding_read, h2.frame_bytes_seen.trans h1.frame_bytes_seen,
    h2.frame_length.trans h1.frame_length, h2.cur_data.trans h1.cur_data,
    h2.cur_padding.trans h1.cur_padding, h2.cur_data_offset.trans h1.cur_data_offset⟩

theorem http_scan_finish_keeps (hi : HttpStreamSplitter) (c : Cutter) (fo : Nat) (sr : Status) :
    SameScan c (http_scan_finish hi c fo sr).c := by
  unfold http_scan_finish
  split
  · exact http_scan_send_terminal_keeps hi c
  · exact SameScan.refl_scan c

theorem http_scan_header_sent_keeps (hi : HttpStreamSplitter) (c : Cutter) (data : List Nat)
    (fo : Nat) (sr : Status) : SameScan c (http_scan_header_sent hi c data fo sr).c := by
  unfold http_scan_header_sent
  split
  · split
    · exact http_scan_send_payload_keeps hi c data
    · exact (http_scan_send_payload_keeps hi c data).trans_scan (http_scan_finish_keeps hi _ fo _)
  · exact http_scan_finish_keeps hi c fo sr

theorem http_scan_keeps (hi : HttpStreamSplitter) (c : Cutter) (data : List Nat) (fo : Nat) :
    SameScan c (http_scan hi c data fo).c := by
  unfold http_scan
  split
  · split
    · split
      · exact http_scan_send_header_keeps hi c
      · exact (http_scan_send_header_keeps hi c).trans_scan (http_scan_header_sent_keeps hi _ data fo _)
    · exact http_scan_header_sent_keeps hi c data fo _
  · exact http_scan_header_sent_keeps hi c data fo _

/-! ## Malformed padding -/

/-- C4 (as amended): when a call of `scan` reads the padding-length byte `p` of a frame with
`n = data_len` post-header bytes and `n <= p + 1`, it returns `ABORT` and forwards nothing
downstream; if `n <= p` it registers exactly one `INF_PADDING_LEN` infraction and raises
exactly one `EVENT_PADDING_LEN` event, and if `n = p + 1` it registers and raises nothing. -/
theorem malformed_padding_reported (fuel : Nat) (hi : HttpStreamSplitter) (c : Cutter)
    (data : List Nat) (length : Nat) (hfuel : 0 < fuel)
    (hs : c.data_state = DataState.PADDING_LENGTH) (hL : 0 < scan_length c length)
    (hbad : c.data_len ≤ padding_length_byte c data + 1) :
    ∃ r, scan fuel hi c data length = some r ∧ r.status = Status.ABORT ∧
      r.c.session_data.hi_scan_calls = c.session_data.hi_scan_calls ∧
      (c.data_len ≤ padding_length_byte c data →
        r.c.session_data.infractions =
          c.session_data.infractions ++ [Infraction.INF_PADDING_LEN] ∧
        r.c.session_data.events = c.session_data.events ++ [EventSid.EVENT_PADDING_LEN]) ∧
      (c.data_len = padding_length_byte c data + 1 →
        r.c.session_data.infractions = c.session_data.infractions ∧
        r.c.session_data.events = c.session_data.events) := by
  obtain ⟨n, rfl⟩ : ∃ n, fuel = n + 1 := ⟨fuel - 1, by omega⟩
  by_cases h1 : c.data_len ≤ padding_length_byte c data
  · have hr := http2_scan_eq_PL_malformed n c data length hL hs h1
    refine ⟨_, by simp only [scan, hr]; rfl, rfl, rfl, fun _ => ⟨rfl, rfl⟩, fun h2 => ?_⟩
    omega
  · have h2 : c.data_len = padding_length_byte c data + 1 := by omega
    have hr := http2_scan_eq_PL_all_padding n c data length hL hs h2
    refine ⟨_, by simp only [scan, hr]; rfl, rfl, ?_, fun h3 => absurd h3 h1, fun _ => ?_⟩
    · simp
    · simp

/-- Worked instance of the amended C4: 10 post-header bytes and padding-length byte 10. -/
theorem malformed_padding_reported_witness :
    (0 < 4 ∧ (Cutter.new {} 10 true).data_state = DataState.PADDING_LENGTH ∧
      0 < scan_length (Cutter.new {} 10 true) 19 ∧
      (Cutter.new {} 10 true).data_len ≤
        padding_length_byte (Cutter.new {} 10 true)
          (header9 ++ [10, 1, 2, 3, 4, 5, 6, 7, 8, 9]) + 1) ∧
    ∃ r, scan 4 hi_chunked (Cutter.new {} 10 true)
        (header9 ++ [10, 1, 2, 3, 4, 5, 6, 7, 8, 9]) 19 = some r ∧
      r.status = Status.ABORT ∧
      r.c.session_data.infractions = [Infraction.INF_PADDING_LEN] ∧
      r.c.session_data.events = [EventSid.EVENT_PADDING_LEN] := by
  have h := malformed_padding_reported 4 hi_chunked (Cutter.new {} 10 true)
    (header9 ++ [10, 1, 2, 3, 4, 5, 6, 7, 8, 9]) 19 (by decide) rfl (by decide) (by decide)
  obtain ⟨r, hr, hst, _, hrep, _⟩ := h
  refine ⟨⟨by decide, rfl, by decide, by decide⟩, r, hr, hst, ?_, ?_⟩
  · exact (hrep (by decide)).1
  · exact (hrep (by decide)).2

/-- C4 fails as stated: with 10 post-header bytes and padding-length byte 9 (so
`n - 1 <= p`), `scan` returns `ABORT` but registers no infraction and raises no event. -/
theorem malformed_padding_silent_abort :
    (scan 4 hi_chunked (Cutter.new {} 10 true)
        (header9 ++ [9, 1, 2, 3, 4, 5, 6, 7, 8, 9]) 19).map
      (fun r => (r.status, r.c.session_data.infractions, r.c.session_data.events)) =
      some (Status.ABORT, [], []) := by
  decide

/-! ## Reads beyond the supplied bytes -/

/-- C8 fails on a first call shorter than the frame header: for an unpadded frame of
constructor length 5 and a first segment of 4 bytes, `length -= FRAME_HEADER_LENGTH` wraps,
`http2_scan` succeeds, classifies the payload subrange `[9, 14)` and returns
`flush_offset = 14`, all beyond the 4 bytes supplied. -/
theorem http2_scan_short_first_segment_overruns :
    (http2_scan 4 (Cutter.new {} 5 false) [0, 0, 5, 0] 4).map
      (fun r => (r.ok, r.flush_offset, r.c.cur_data_offset, r.c.cur_data,
        scan_length (Cutter.new {} 5 false) 4)) =
      some (true, 14, 9, 5, 4294967291) := by
  decide

/-! ## The Frame Context invariant on `data_len` and `padding_len` -/

theorem LenInv.len_bounds {len : Nat} {padded : Bool} {c : Cutter} (h : LenInv len padded c) :
    c.data_len ≤ len ∧ c.padding_len ≤ len := by
  by_cases hs : c.data_state = DataState.PADDING_LENGTH
  · obtain ⟨_, h1, h2⟩ := h.st_pl hs
    omega
  · obtain ⟨h1, _⟩ := h.st_npl hs
    omega

theorem LenInv_of_same {len : Nat} {padded : Bool} {c c1 : Cutter} (h : LenInv len padded c)
    (e1 : c1.data_state = c.data_state) (e2 : c1.data_len = c.data_len)
    (e3 : c1.padding_len = c.padding_len) : LenInv len padded c1 :=
  ⟨fun hs => by rw [e2, e3]; exact h.st_pl (e1 ▸ hs),
    fun hs => by rw [e2, e3]; exact h.st_npl (e1 ▸ hs),
    fun hp => by rw [e3]; exact h.unpadded hp⟩

theorem LenInv_http2_scan (len : Nat) (padded : Bool) (hlen : len < 4294967296) (c : Cutter)
    (hI : LenInv len padded c) (fuel : Nat) (data : List Nat) (length : Nat) (r : ScanResult)
    (hl : length < 4294967296) (hr : http2_scan fuel c data length = some r)
    (hok : r.ok = true) : LenInv len padded r.c := by
  obtain ⟨hd, hp⟩ := hI.len_bounds
  have hr4 := http2_scan_mono fuel 4 c data length r hr
  by_cases hs : c.data_state = DataState.PADDING_LENGTH
  · obtain ⟨hpadded, hdl, hpl⟩ := hI.st_pl hs
    by_cases hL : 0 < scan_length c length
    · by_cases h1 : c.data_len ≤ padding_length_byte c data
      · rw [http2_scan_eq_PL_malformed (fuel + 3) c data length hL hs h1] at hr4
        simp only [Option.some.injEq] at hr4
        subst hr4
        simp at hok
      · by_cases h2 : c.data_len = padding_length_byte c data + 1
        · rw [http2_scan_eq_PL_all_padding (fuel + 3) c data length hL hs h2] at hr4
          simp only [Option.some.injEq] at hr4
          subst hr4
          simp at hok
        · rw [http2_scan_eq_PL_ok fuel c data length hl (by omega) hL hs (by omega)] at hr4
          simp only [Option.some.injEq] at hr4
          subst hr4
          obtain ⟨k1, k2, _, k4⟩ := scan_phases_keeps (scan_length c length)
            (scan_after_PADDING_LENGTH data (http2_scan_entry c)) 1
          have hpf : pad_field padded = 1 := by simp [pad_field, hpadded]
          have g1 : (scan_after_PADDING_LENGTH data (http2_scan_entry c)).padding_len =
              padding_length_byte c data := by
            simp only [scan_after_PADDING_LENGTH, getD_entry]
          have g2 : (scan_after_PADDING_LENGTH data (http2_scan_entry c)).data_len =
              c.data_len - (padding_length_byte c data + 1) := by
            simp only [scan_after_PADDING_LENGTH, getD_entry, http2_scan_entry_data_len]
          refine ⟨fun h0 => ?_, fun _ => ?_, fun h0 => ?_⟩
          · exact absurd h0 (k4 (by simp [scan_after_PADDING_LENGTH]))
          · simp only [http2_scan_exit, k1, k2, g1, g2]
            omega
          · rw [hpadded] at h0; cases h0
    · rw [http2_scan_eq_PL_empty (fuel + 3) c data length (by omega)] at hr4
      simp only [Option.some.injEq] at hr4
      subst hr4
      exact LenInv_of_same hI (by simp [http2_scan_exit]) (by simp [http2_scan_exit])
        (by simp [http2_scan_exit])
  · rw [http2_scan_eq_phases fuel c data length hl (by omega) (by omega) hs] at hr4
    simp only [Option.some.injEq] at hr4
    subst hr4
    obtain ⟨k1, k2, _, k4⟩ := scan_phases_keeps (scan_length c length) (http2_scan_entry c) 0
    obtain ⟨h1, h2⟩ := hI.st_npl hs
    refine ⟨fun h0 => ?_, fun _ => ?_, fun h0 => ?_⟩
    · exact absurd h0 (k4 (by simpa using hs))
    · simp only [http2_scan_exit, k1, k2, http2_scan_entry_data_len,
        http2_scan_entry_padding_len]
      exact ⟨h1, h2⟩
    · simp only [http2_scan_exit, k2, http2_scan_entry_padding_len]
      exact hI.unpadded h0

theorem LenInv_scan (len : Nat) (padded : Bool) (hlen : len < 4294967296) (c : Cutter)
    (hI : LenInv len padded c) (fuel : Nat) (hi : HttpStreamSplitter) (data : List Nat)
    (length : Nat) (r : StatusResult) (hl : length < 4294967296)
    (hr : scan fuel hi c data length = some r) (hst : r.status ≠ Status.ABORT) :
    LenInv len padded r.c := by
  unfold scan at hr
  cases h2 : http2_scan fuel c data length with
  | none => rw [h2] at hr; simp at hr
  | some r2 =>
    rw [h2] at hr
    simp only at hr
    by_cases hok : r2.ok = false
    · rw [if_pos hok] at hr
      simp only [Option.some.injEq] at hr
      subst hr
      exact absurd rfl hst
    · rw [if_neg hok] at hr
      simp only [Option.some.injEq] at hr
      subst hr
      have hI2 := LenInv_http2_scan len padded hlen c hI fuel data length r2 hl h2
        (by simpa using hok)
      have hk := http_scan_keeps hi r2.c data r2.flush_offset
      exact LenInv_of_same hI2 hk.data_state hk.data_len hk.padding_len

theorem LenInv_new (s : Http2FlowData) (len : Nat) (padded : Bool) :
    LenInv len padded (Cutter.new s len padded) := by
  cases padded
  · exact ⟨fun h => by simp [Cutter.new] at h, fun _ => by simp [Cutter.new, pad_field],
      fun _ => rfl⟩
  · exact ⟨fun _ => ⟨rfl, rfl, rfl⟩, fun h => by simp [Cutter.new] at h,
      fun h => by cases h⟩

/-- C10 (as amended): in every Frame Context reachable from construction through calls of
`scan` that do not abort, `data_len` is still the constructor length and `padding_len` is 0
while the scanner is in `PADDING_LENGTH`; afterwards `data_len + padding_len`, plus one for
the padding-length field of a padded frame, equals the constructor length, and a padded frame
has `data_len >= 1`; an unpadded frame has `padding_len = 0`. -/
theorem data_len_padding_len_invariant (hi : HttpStreamSplitter) (s : Http2FlowData)
    (len : Nat) (padded : Bool) (c : Cutter) (hlen : len < 4294967296)
    (h : Reachable hi s len padded c) :
    (c.data_state = DataState.PADDING_LENGTH →
      padded = true ∧ c.data_len = len ∧ c.padding_len = 0) ∧
    (c.data_state ≠ DataState.PADDING_LENGTH →
      c.data_len + c.padding_len + pad_field padded = len ∧ pad_field padded ≤ c.data_len) ∧
    (padded = false → c.padding_len = 0) := by
  have hI : LenInv len padded c := by
    induction h with
    | init => exact LenInv_new s len padded
    | step fuel data length r _ hl hr hst ih =>
      exact LenInv_scan len padded hlen _ ih fuel hi data length r hl hr hst
  exact ⟨hI.st_pl, hI.st_npl, hI.unpadded⟩

/-- Worked instance of the amended C10: the context reached by one successful `scan` call on
the header, the padding-length byte 5 and two payload bytes of a padded frame of constructor
length 10; the scanner has left `PADDING_LENGTH` and `data_len = 4`, `padding_len = 5`. -/
theorem data_len_padding_len_invariant_witness :
    ∃ c, ((10 : Nat) < 4294967296 ∧ Reachable hi_chunked {} 10 true c) ∧
      c.data_state = DataState.DATA ∧ c.data_len = 4 ∧ c.padding_len = 5 ∧
      c.data_len + c.padding_len + pad_field true = 10 ∧ pad_field true ≤ c.data_len := by
  have hev : (scan 4 hi_chunked (Cutter.new {} 10 true) (header9 ++ [5, 1, 2]) 12).map
      (fun r => (r.status, r.c.data_state, r.c.data_len, r.c.padding_len)) =
        some (Status.SEARCH, DataState.DATA, 4, 5) := by
    decide
  cases hr : scan 4 hi_chunked (Cutter.new {} 10 true) (header9 ++ [5, 1, 2]) 12 with
  | none => rw [hr] at hev; simp at hev
  | some r =>
    rw [hr] at hev
    simp only [Option.map_some', Option.some.injEq, Prod.mk.injEq] at hev
    obtain ⟨h1, h2, h3, h4⟩ := hev
    have hreach : Reachable hi_chunked {} 10 true r.c :=
      Reachable.step 4 _ 12 r Reachable.init (by decide) hr (by rw [h1]; decide)
    have h := data_len_padding_len_invariant hi_chunked {} 10 true r.c (by decide) hreach
    have hnpl : r.c.data_state ≠ DataState.PADDING_LENGTH := by rw [h2]; decide
    exact ⟨r.c, ⟨by decide, hreach⟩, h2, h3, h4, (h.2.1 hnpl).1, (h.2.1 hnpl).2⟩

/-- C10 fails as stated: after one successful `scan` call on a padded frame of constructor
length 10 with padding-length byte 5, the reachable context has `data_len = 4` and
`padding_len = 5`. -/
theorem reachable_data_len_le_padding_len :
    ∃ c, Reachable hi_chunked {} 10 true c ∧ c.data_len = 4 ∧ c.padding_len = 5 ∧
      ¬ (c.data_len > c.padding_len) := by
  have hev : (scan 4 hi_chunked (Cutter.new {} 10 true)
      (header9 ++ [5, 1, 2, 3, 4, 0, 0, 0, 0, 0]) 19).map
        (fun r => (r.status, r.c.data_len, r.c.padding_len)) = some (Status.FLUSH, 4, 5) := by
    decide
  cases hr : scan 4 hi_chunked (Cutter.new {} 10 true)
      (header9 ++ [5, 1, 2, 3, 4, 0, 0, 0, 0, 0]) 19 with
  | none => rw [hr] at hev; simp at hev
  | some r =>
    rw [hr] at hev
    simp only [Option.map_some', Option.some.injEq, Prod.mk.injEq] at hev
    obtain ⟨h1, h2, h3⟩ := hev
    refine ⟨r.c, Reachable.step 4 _ 19 r Reachable.init (by decide) hr ?_, h2, h3, ?_⟩
    · rw [h1]; decide
    · omega

/-! ## Status returned by `scan` -/

theorem http_scan_finish_not_full (hi : HttpStreamSplitter) (c : Cutter) (fo : Nat)
    (h : c.data_state ≠ DataState.FULL_FRAME) :
    http_scan_finish hi c fo Status.SEARCH =
      { status := Status.SEARCH, c := c, flush_offset := 0 } := by
  simp [http_scan_finish, h]

theorem http_scan_finish_full (hi : HttpStreamSplitter) (c : Cutter) (fo : Nat) (sr : Status)
    (h : c.data_state = DataState.FULL_FRAME) :
    http_scan_finish hi c fo sr =
      { status := (http_scan_send_terminal hi c).1
        c := (http_scan_send_terminal hi c).2
        flush_offset := if (http_scan_send_terminal hi c).1 ≠ Status.FLUSH then 0 else fo } := by
  simp only [http_scan_finish, h, if_true]

theorem http_scan_send_terminal_asserts (hi : HttpStreamSplitter) (c : Cutter) :
    (http_scan_send_terminal hi c).2.session_data.asserts_hold =
      (c.session_data.asserts_hold && decide ((http_scan_send_terminal hi c).1 = Status.FLUSH)) := by
  simp only [http_scan_send_terminal, c_assert, hi_scan]

theorem http_scan_eq (hi : HttpStreamSplitter) (c : Cutter) (data : List Nat) (fo : Nat) :
    (downstream_abort hi c data → (http_scan hi c data fo).status = Status.ABORT) ∧
    (¬ downstream_abort hi c data →
      http_scan hi c data fo = http_scan_finish hi (after_payload hi c data) fo Status.SEARCH) := by
  unfold downstream_abort answer_to_payload after_payload after_header answer_to_header
    forwards_header
  by_cases hs : c.http_state = HttpScanState.NONE_SENT
  · by_cases hcd : c.cur_data ≠ 0
    · have hcd2 : (http_scan_send_header hi c).2.cur_data ≠ 0 := hcd
      by_cases ha : (http_scan_send_header hi c).1 ≠ Status.SEARCH
      · simp [http_scan, hs, hcd, ha]
      · by_cases hb : (http_scan_send_payload hi (http_scan_send_header hi c).2 data).1 ≠
            Status.SEARCH
        · simp [http_scan, hs, hcd, ha, http_scan_header_sent, hcd2, hb]
        · simp only [not_not] at ha hb
          simp [http_scan, hs, hcd, ha, http_scan_header_sent, hcd2, hb]
    · simp only [not_not] at hcd
      simp [http_scan, hs, hcd, http_scan_header_sent]
  · have hs2 : c.http_state = HttpScanState.HEADER_SENT := by
      cases h : c.http_state with
      | NONE_SENT => exact absurd h hs
      | HEADER_SENT => rfl
    by_cases hcd : c.cur_data ≠ 0
    · by_cases hb : (http_scan_send_payload hi c data).1 ≠ Status.SEARCH
      · simp [http_scan, hs2, hcd, http_scan_header_sent, hb]
      · simp only [not_not] at hb
        simp [http_scan, hs2, hcd, http_scan_header_sent, hb]
    · simp only [not_not] at hcd
      simp [http_scan, hs2, hcd, http_scan_header_sent]

theorem after_payload_keeps (hi : HttpStreamSplitter) (c : Cutter) (data : List Nat) :
    SameScan c (after_payload hi c data) := by
  have h1 : SameScan c (after_header hi c) := by
    unfold after_header
    split
    · exact http_scan_send_header_keeps hi c
    · exact SameScan.refl_scan c
  unfold after_payload
  split
  · exact h1.trans_scan (http_scan_send_payload_keeps hi _ data)
  · exact h1

theorem pl_consumed_congr (a b a1 b1 : Cutter) (h1 : a1.data_state = a.data_state)
    (h2 : b1.data_state = b.data_state) : pl_consumed a1 b1 = pl_consumed a b := by
  simp [pl_consumed, h1, h2]

/-- C9 (as amended): for every `scan` call on which `http2_scan` succeeds: if the downstream
answers anything other than `SEARCH` to the chunk header or to the payload subrange, `scan`
returns `ABORT`; otherwise `scan` returns `FLUSH` exactly when the scanner is in `FULL_FRAME`
at the end of the call and the downstream answered `FLUSH` to the terminal marker, it returns
`SEARCH` with `flush_offset = 0` whenever the scanner is not in `FULL_FRAME`, and when the
scanner is in `FULL_FRAME` it returns the downstream answer to the terminal marker, an answer
other than `FLUSH` (`SEARCH` or `ABORT`) violating the assertion of `http_scan` and giving
`flush_offset = 0`. So as long as the assertions hold, `FLUSH` is returned exactly in
`FULL_FRAME` and `SEARCH` with `flush_offset = 0` in every other case. On `FLUSH` the returned `flush_offset` is the one of
`http2_scan`, which, for a consistent context whose first call holds the frame header, is the
number of bytes this call consumed: the 9 header bytes on the first call, the padding-length
byte if read in this call, and the payload and padding bytes classified in this call; it never
exceeds `length`. -/
theorem scan_status (fuel : Nat) (hi : HttpStreamSplitter) (c : Cutter) (data : List Nat)
    (length : Nat) (r2 : ScanResult) (h2 : http2_scan fuel c data length = some r2)
    (hok : r2.ok = true) :
    ∃ res, scan fuel hi c data length = some res ∧
      res.c.data_state = r2.c.data_state ∧
      (downstream_abort hi r2.c data → res.status = Status.ABORT) ∧
      (¬ downstream_abort hi r2.c data →
        (res.status = Status.FLUSH ↔
          r2.c.data_state = DataState.FULL_FRAME ∧
            answer_to_terminal hi r2.c data = Status.FLUSH) ∧
        (r2.c.data_state ≠ DataState.FULL_FRAME →
          res.status = Status.SEARCH ∧ res.flush_offset = 0) ∧
        (r2.c.data_state = DataState.FULL_FRAME →
          res.status = answer_to_terminal hi r2.c data ∧
          (answer_to_terminal hi r2.c data ≠ Status.FLUSH →
            res.flush_offset = 0 ∧ res.c.session_data.asserts_hold = false)) ∧
        (res.status = Status.FLUSH → res.flush_offset = r2.flush_offset) ∧
        (res.c.session_data.asserts_hold = true →
          (res.status = Status.FLUSH ↔ res.c.data_state = DataState.FULL_FRAME) ∧
          (res.status ≠ Status.FLUSH → res.status = Status.SEARCH ∧ res.flush_offset = 0))) ∧
      (∀ len padded,
        ScanInv len padded (http2_scan_entry c) (http2_scan_entry c).frame_bytes_seen →
        length < 4294967296 → (c.frame_bytes_seen = 0 → 9 ≤ length) →
        r2.flush_offset =
          scan_flush_offset c + pl_consumed c r2.c + r2.c.cur_data + r2.c.cur_padding ∧
        r2.flush_offset ≤ length) := by
  have hscan : scan fuel hi c data length = some (http_scan hi r2.c data r2.flush_offset) := by
    simp [scan, h2, hok]
  obtain ⟨habort, hfin⟩ := http_scan_eq hi r2.c data r2.flush_offset
  have hk := http_scan_keeps hi r2.c data r2.flush_offset
  have hkp := after_payload_keeps hi r2.c data
  refine ⟨_, hscan, hk.data_state, habort, fun hna => ?_, ?_⟩
  · have he := hfin hna
    by_cases hf : r2.c.data_state = DataState.FULL_FRAME
    · have hf2 : (after_payload hi r2.c data).data_state = DataState.FULL_FRAME := by
        rw [hkp.data_state]; exact hf
      rw [http_scan_finish_full hi _ _ _ hf2] at he
      have hassert := http_scan_send_terminal_asserts hi (after_payload hi r2.c data)
      have hst : (http_scan hi r2.c data r2.flush_offset).status =
          answer_to_terminal hi r2.c data := by rw [he]; rfl
      have hfo : (http_scan hi r2.c data r2.flush_offset).flush_offset =
          if answer_to_terminal hi r2.c data ≠ Status.FLUSH then 0 else r2.flush_offset := by
        rw [he]; rfl
      have has : (http_scan hi r2.c data r2.flush_offset).c.session_data.asserts_hold =
          ((after_payload hi r2.c data).session_data.asserts_hold &&
            decide (answer_to_terminal hi r2.c data = Status.FLUSH)) := by
        rw [he]; exact hassert
      refine ⟨?_, fun h => absurd hf h, fun _ => ⟨hst, fun hne => ⟨?_, ?_⟩⟩, fun h => ?_,
        fun h => ⟨?_, fun hne => ?_⟩⟩
      · rw [hst]; simp [hf]
      · rw [hfo]; simp [hne]
      · rw [has]; simp [hne]
      · rw [hst] at h
        rw [hfo]; simp [h]
      · rw [hk.data_state, hst]
        rw [has] at h
        simp only [Bool.and_eq_true, decide_eq_true_eq] at h
        simp [hf, h.2]
      · rw [has] at h
        simp only [Bool.and_eq_true, decide_eq_true_eq] at h
        rw [hst] at hne
        exact absurd h.2 hne
    · have hf2 : (after_payload hi r2.c data).data_state ≠ DataState.FULL_FRAME := by
        rw [hkp.data_state]; exact hf
      rw [http_scan_finish_not_full hi _ _ hf2] at he
      rw [he]
      refine ⟨?_, fun _ => ⟨rfl, rfl⟩, fun h => absurd h hf, fun h => ?_, fun _ => ⟨?_, ?_⟩⟩
      · simp [hf]
      · simp at h
      · simp only [hkp.data_state]
        simp [hf]
      · intro _; exact ⟨rfl, rfl⟩
  · intro len padded hinv hlen hfirst
    have h4 := http2_scan_mono fuel 4 c data length r2 h2
    obtain ⟨c1, pos, hr, hI, _, _⟩ := http2_scan_ok_spec len padded (fuel + 4) c data length
      (by omega) hlen hfirst hinv
      (by
        intro hs hL
        have := http2_scan_ok_good fuel c data length r2 h2 hok hs hL
        have hdl := (hinv.st_pl (by simpa using hs)).2.1
        simp only [http2_scan_entry_data_len] at hdl
        omega)
    rw [hr] at h4
    simp only [Option.some.injEq] at h4
    subst h4
    have hacct := hI.acct
    have hple := hI.pos_le
    obtain ⟨hadd, _⟩ := scan_length_add c length hlen hfirst
    have hplc : pl_consumed c (http2_scan_exit c1 pos) =
        pl_consumed (http2_scan_entry c) c1 :=
      pl_consumed_congr _ _ _ _ (by simp) rfl
    simp only [hplc]
    simp only [http2_scan_exit]
    omega

/-- Worked instance of C9: one call holding a whole padded frame of constructor length 10
with padding-length byte 5 returns `FLUSH` with `flush_offset = 19`. -/
theorem scan_status_witness :
    ∃ r2, http2_scan 4 (Cutter.new {} 10 true) (header9 ++ [5, 1, 2, 3, 4, 0, 0, 0, 0, 0]) 19 =
        some r2 ∧ r2.ok = true ∧
      ∃ res, scan 4 hi_chunked (Cutter.new {} 10 true)
          (header9 ++ [5, 1, 2, 3, 4, 0, 0, 0, 0, 0]) 19 = some res ∧
        res.status = Status.FLUSH ∧ res.flush_offset = r2.flush_offset ∧
        r2.flush_offset = 19 := by
  have hev : (http2_scan 4 (Cutter.new {} 10 true)
      (header9 ++ [5, 1, 2, 3, 4, 0, 0, 0, 0, 0]) 19).map
        (fun r => (r.ok, r.flush_offset, r.c.data_state)) =
      some (true, 19, DataState.FULL_FRAME) := by decide
  cases hr : http2_scan 4 (Cutter.new {} 10 true)
      (header9 ++ [5, 1, 2, 3, 4, 0, 0, 0, 0, 0]) 19 with
  | none => rw [hr] at hev; simp at hev
  | some r2 =>
    rw [hr] at hev
    simp only [Option.map_some', Option.some.injEq, Prod.mk.injEq] at hev
    obtain ⟨h1, h2, h3⟩ := hev
    obtain ⟨res, hres, _, _, hna, _⟩ := scan_status 4 hi_chunked (Cutter.new {} 10 true)
      (header9 ++ [5, 1, 2, 3, 4, 0, 0, 0, 0, 0]) 19 r2 hr h1
    have hres2 : (scan 4 hi_chunked (Cutter.new {} 10 true)
        (header9 ++ [5, 1, 2, 3, 4, 0, 0, 0, 0, 0]) 19).map (fun r => r.status) =
        some Status.FLUSH := by decide
    rw [hres] at hres2
    simp only [Option.map_some', Option.some.injEq] at hres2
    have hnab : ¬ downstream_abort hi_chunked r2.c
        (header9 ++ [5, 1, 2, 3, 4, 0, 0, 0, 0, 0]) := by
      intro hab
      have := (scan_status 4 hi_chunked (Cutter.new {} 10 true)
        (header9 ++ [5, 1, 2, 3, 4, 0, 0, 0, 0, 0]) 19 r2 hr h1)
      obtain ⟨res', hres', _, hab', _⟩ := this
      rw [hres] at hres'
      simp only [Option.some.injEq] at hres'
      subst hres'
      rw [hab' hab] at hres2
      cases hres2
    exact ⟨r2, rfl, h1, res, hres, hres2, (hna hnab).2.2.2.1 hres2, h2⟩

/-- C9 fails as stated: an unpadded frame of constructor length 2 scanned in one call, with a
downstream that answers `SEARCH` to the chunk header and to the payload and `ABORT` to the
terminal marker. `http2_scan` succeeds and ends in `FULL_FRAME`, no forward before the
terminal marker is answered with anything but `SEARCH`, the downstream reports no flush, and
`scan` returns `ABORT`, not `SEARCH`. -/
theorem scan_returns_terminal_answer :
    (http2_scan 4 (Cutter.new {} 2 false) frame_plain2 11).map
        (fun r2 => (r2.ok, r2.c.data_state, answer_to_header hi_abort_terminal r2.c,
          answer_to_payload hi_abort_terminal r2.c frame_plain2,
          answer_to_terminal hi_abort_terminal r2.c frame_plain2)) =
      some (true, DataState.FULL_FRAME, Status.SEARCH, Status.SEARCH, Status.ABORT) ∧
    (scan 4 hi_abort_terminal (Cutter.new {} 2 false) frame_plain2 11).map
        (fun r => (r.status, r.flush_offset, r.c.data_state)) =
      some (Status.ABORT, 0, DataState.FULL_FRAME) := by
  refine ⟨by decide, by decide⟩

/-! ## Sequences of scanner calls -/

theorem ScanInv_of_same {len : Nat} {padded : Bool} {c c1 : Cutter} {f : Nat}
    (h : ScanInv len padded c f) (e0 : c1.frame_length = c.frame_length)
    (e1 : c1.data_state = c.data_state) (e2 : c1.data_len = c.data_len)
    (e3 : c1.padding_len = c.padding_len) (e4 : c1.data_bytes_read = c.data_bytes_read)
    (e5 : c1.padding_read = c.padding_read) : ScanInv len padded c1 f := by
  refine ⟨h.len_lt, ?_, ?_, ?_, ?_, ?_, ?_, ?_, ?_, ?_⟩
  · rw [e0]; exact h.frame_length
  · rw [e2, e4]; exact h.dbr_le
  · rw [e3, e5]; exact h.pr_le
  · rw [e3]; exact h.unpadded
  · rw [e1, e2, e3, e4, e5]; exact h.st_pl
  · rw [e1, e2, e3, e4, e5]; exact h.st_npl
  · rw [e1, e5]; exact h.st_data
  · rw [e1, e2, e3, e4, e5]; exact h.st_padding
  · rw [e1, e2, e3, e4, e5]; exact h.st_full

theorem ScanInv_new_entry (s : Http2FlowData) (len : Nat) (padded : Bool)
    (hlen : len < 4294967296) :
    ScanInv len padded (http2_scan_entry (Cutter.new s len padded))
      (http2_scan_entry (Cutter.new s len padded)).frame_bytes_seen := by
  cases padded
  · refine ⟨hlen, rfl, ?_, ?_, fun _ => rfl, fun h => ?_, fun _ => ?_, fun _ => rfl,
      fun h => ?_, fun h => ?_⟩
    all_goals simp [http2_scan_entry, Cutter.new, FRAME_HEADER_LENGTH, pad_field] at *
  · refine ⟨hlen, rfl, ?_, ?_, fun h => ?_, fun _ => ?_, fun h => ?_, fun h => ?_,
      fun h => ?_, fun h => ?_⟩
    all_goals simp [http2_scan_entry, Cutter.new, FRAME_HEADER_LENGTH, pad_field] at *

theorem ScanInv_entry {len : Nat} {padded : Bool} {c : Cutter}
    (h : ScanInv len padded c c.frame_bytes_seen) (hne : c.frame_bytes_seen ≠ 0) :
    ScanInv len padded (http2_scan_entry c) (http2_scan_entry c).frame_bytes_seen := by
  have e : http2_scan_entry c = { c with cur_data := 0, cur_padding := 0, cur_data_offset := 0 } := by
    simp [http2_scan_entry, hne]
  rw [e]
  exact ScanInv_of_same h rfl rfl rfl rfl rfl rfl

/-- What a successful call of `http2_scan` from a consistent context leaves behind, for any
iteration budget with which it returns. -/
theorem http2_scan_some_spec (len : Nat) (padded : Bool) (fuel : Nat) (c : Cutter)
    (data : List Nat) (length : Nat) (r : ScanResult)
    (hr : http2_scan fuel c data length = some r) (hok : r.ok = true)
    (hlen : length < 4294967296) (hfirst : c.frame_bytes_seen = 0 → 9 ≤ length)
    (hinv : ScanInv len padded (http2_scan_entry c) (http2_scan_entry c).frame_bytes_seen) :
    ∃ c1 pos, r.c = http2_scan_exit c1 pos ∧ r.flush_offset = scan_flush_offset c + pos ∧
      LoopInv len padded data (scan_length c length) (http2_scan_entry c) c1 pos ∧
      (pos = scan_length c length ∨ c1.data_state = DataState.FULL_FRAME) ∧
      (len + 9 < 4294967296 ∨
          (http2_scan_entry c).frame_bytes_seen + scan_length c length < 4294967296 →
        r.c.frame_bytes_seen = (http2_scan_entry c).frame_bytes_seen + pos ∧
        ScanInv len padded r.c r.c.frame_bytes_seen) := by
  have h4 := http2_scan_mono fuel 4 c data length r hr
  obtain ⟨c1, pos, hr4, hI, hex, hfbs⟩ := http2_scan_ok_spec len padded (fuel + 4) c data length
    (by omega) hlen hfirst hinv
    (by
      intro hs hL
      have := http2_scan_ok_good fuel c data length r hr hok hs hL
      have hdl := (hinv.st_pl (by simpa using hs)).2.1
      simp only [http2_scan_entry_data_len] at hdl
      omega)
  rw [hr4] at h4
  simp only [Option.some.injEq] at h4
  subst h4
  refine ⟨c1, pos, rfl, rfl, hI, hex, fun hb => ?_⟩
  have e := hfbs hb
  refine ⟨e, ?_⟩
  rw [e]
  exact ScanInv_of_same hI.inv rfl rfl rfl rfl rfl rfl

theorem final_cutter_cons (c : Cutter) (r : ScanResult) (rs : List ScanResult) :
    final_cutter c (r :: rs) = final_cutter r.c rs := by
  cases rs with
  | nil => rfl
  | cons r1 rs1 =>
    simp only [final_cutter, List.getLast?_cons_cons]
    cases h : (r1 :: rs1).getLast? with
    | none => simp at h
    | some x => rfl

theorem http2_scan_calls_cons (fuel : Nat) (c : Cutter) (seg : List Nat)
    (rest : List (List Nat)) (rs : List ScanResult)
    (h : http2_scan_calls fuel c (seg :: rest) = some rs) :
    ∃ r, http2_scan fuel c seg seg.length = some r ∧
      ((r.ok = true ∧ ∃ rs1, http2_scan_calls fuel r.c rest = some rs1 ∧ rs = r :: rs1) ∨
        (r.ok = false ∧ rs = [r])) := by
  rw [http2_scan_calls] at h
  cases hr : http2_scan fuel c seg seg.length with
  | none => rw [hr] at h; simp at h
  | some r =>
    rw [hr] at h
    simp only at h
    refine ⟨r, rfl, ?_⟩
    by_cases hok : r.ok = true
    · left
      rw [if_pos hok] at h
      cases hrs : http2_scan_calls fuel r.c rest with
      | none => rw [hrs] at h; simp at h
      | some rs1 =>
        rw [hrs] at h
        simp only [Option.some.injEq] at h
        exact ⟨hok, rs1, rfl, h.symm⟩
    · right
      rw [if_neg hok] at h
      simp only [Option.some.injEq] at h
      exact ⟨by simpa using hok, h.symm⟩

/-- Accounting over a sequence of successful calls that continues a frame. -/
theorem http2_scan_calls_acct (len : Nat) (padded : Bool) (hlen9 : len + 9 < 4294967296)
    (fuel : Nat) :
    ∀ (segs : List (List Nat)) (c : Cutter) (rs : List ScanResult),
      ScanInv len padded c c.frame_bytes_seen → c.frame_bytes_seen ≠ 0 →
      (∀ seg ∈ segs, seg.length < 4294967296) →
      http2_scan_calls fuel c segs = some rs → (∀ r ∈ rs, r.ok = true) →
      ScanInv len padded (final_cutter c rs) (final_cutter c rs).frame_bytes_seen ∧
      (final_cutter c rs).data_bytes_read =
        c.data_bytes_read + (rs.map (fun r => r.c.cur_data)).sum ∧
      (final_cutter c rs).padding_read =
        c.padding_read + (rs.map (fun r => r.c.cur_padding)).sum ∧
      (final_cutter c rs).frame_bytes_seen =
        c.frame_bytes_seen + (rs.map (fun r => r.flush_offset)).sum := by
  intro segs
  induction segs with
  | nil =>
    intro c rs hI _ _ hrun _
    simp only [http2_scan_calls, Option.some.injEq] at hrun
    subst hrun
    exact ⟨hI, by simp [final_cutter], by simp [final_cutter], by simp [final_cutter]⟩
  | cons seg rest ih =>
    intro c rs hI hne hseg hrun hok
    obtain ⟨r, hr, hcase⟩ := http2_scan_calls_cons fuel c seg rest rs hrun
    rcases hcase with ⟨hrok, rs1, hrs1, rfl⟩ | ⟨hrbad, rfl⟩
    · obtain ⟨c1, pos, hrc, hfo, hL, _, hfb⟩ := http2_scan_some_spec len padded fuel c seg
        seg.length r hr hrok (hseg seg (List.mem_cons_self _ _)) (fun h => absurd h hne)
        (ScanInv_entry hI hne)
      obtain ⟨hfbs, hI1⟩ := hfb (Or.inl hlen9)
      have hdbr := hL.dbr
      have hpr := hL.pr
      have e0 : (http2_scan_entry c).frame_bytes_seen = c.frame_bytes_seen := by
        simp [http2_scan_entry, hne]
      have e1 : (http2_scan_entry c).data_bytes_read = c.data_bytes_read := by
        simp [http2_scan_entry, hne]
      have e2 : (http2_scan_entry c).padding_read = c.padding_read := by
        simp [http2_scan_entry, hne]
      have e3 : scan_flush_offset c = 0 := by simp [scan_flush_offset, hne]
      have g1 : r.c.data_bytes_read = c1.data_bytes_read := by rw [hrc]; rfl
      have g2 : r.c.padding_read = c1.padding_read := by rw [hrc]; rfl
      have g3 : r.c.cur_data = c1.cur_data := by rw [hrc]; rfl
      have g4 : r.c.cur_padding = c1.cur_padding := by rw [hrc]; rfl
      obtain ⟨_, _, _, h9⟩ := hI1.bounds
      obtain ⟨k1, k2, k3, k4⟩ := ih r.c rs1 hI1 (by omega)
        (fun s hs => hseg s (List.mem_cons_of_mem _ hs)) hrs1
        (fun x hx => hok x (List.mem_cons_of_mem _ hx))
      rw [final_cutter_cons]
      refine ⟨k1, ?_, ?_, ?_⟩
      · rw [k2]; simp only [List.map_cons, List.sum_cons]; omega
      · rw [k3]; simp only [List.map_cons, List.sum_cons]; omega
      · rw [k4]; simp only [List.map_cons, List.sum_cons]; omega
    · have := hok r (List.mem_singleton_self r)
      rw [hrbad] at this
      cases this

/-- C7: for every frame (constructor length `len` with `len + 9 < 2 ^ 32`, any padded flag)
scanned from a fresh context to `FULL_FRAME` through any sequence of successful
`http2_scan` calls whose first segment holds at least the 9 header bytes, the per-call
`cur_data` sum to `data_len`, the per-call `cur_padding` sum to `padding_len`, and the
returned flush offsets sum to `9 + (1 if padded) + data_len + padding_len`, which is
`9 + len`. -/
theorem scan_accounting (len : Nat) (padded : Bool) (s : Http2FlowData) (fuel : Nat)
    (seg1 : List Nat) (rest : List (List Nat)) (rs : List ScanResult)
    (hlen9 : len + 9 < 4294967296) (hfirst : 9 ≤ seg1.length)
    (hseg : ∀ seg ∈ seg1 :: rest, seg.length < 4294967296)
    (hrun : http2_scan_calls fuel (Cutter.new s len padded) (seg1 :: rest) = some rs)
    (hok : ∀ r ∈ rs, r.ok = true)
    (hfull : (final_cutter (Cutter.new s len padded) rs).data_state = DataState.FULL_FRAME) :
    (rs.map (fun r => r.c.cur_data)).sum =
      (final_cutter (Cutter.new s len padded) rs).data_len ∧
    (rs.map (fun r => r.c.cur_padding)).sum =
      (final_cutter (Cutter.new s len padded) rs).padding_len ∧
    (rs.map (fun r => r.flush_offset)).sum =
      9 + pad_field padded + (final_cutter (Cutter.new s len padded) rs).data_len +
        (final_cutter (Cutter.new s len padded) rs).padding_len ∧
    (rs.map (fun r => r.flush_offset)).sum = 9 + len := by
  obtain ⟨r, hr, hcase⟩ := http2_scan_calls_cons fuel _ seg1 rest rs hrun
  rcases hcase with ⟨hrok, rs1, hrs1, rfl⟩ | ⟨hrbad, rfl⟩
  · obtain ⟨c1, pos, hrc, hfo, hL, _, hfb⟩ := http2_scan_some_spec len padded fuel _ seg1
      seg1.length r hr hrok (hseg seg1 (List.mem_cons_self _ _)) (fun _ => hfirst)
      (ScanInv_new_entry s len padded (by omega))
    obtain ⟨hfbs, hI1⟩ := hfb (Or.inl hlen9)
    have hdbr := hL.dbr
    have hpr := hL.pr
    have e0 : (http2_scan_entry (Cutter.new s len padded)).frame_bytes_seen = 9 := rfl
    have e1 : (http2_scan_entry (Cutter.new s len padded)).data_bytes_read = 0 := rfl
    have e2 : (http2_scan_entry (Cutter.new s len padded)).padding_read = 0 := rfl
    have e3 : scan_flush_offset (Cutter.new s len padded) = 9 := rfl
    have g1 : r.c.data_bytes_read = c1.data_bytes_read := by rw [hrc]; rfl
    have g2 : r.c.padding_read = c1.padding_read := by rw [hrc]; rfl
    have g3 : r.c.cur_data = c1.cur_data := by rw [hrc]; rfl
    have g4 : r.c.cur_padding = c1.cur_padding := by rw [hrc]; rfl
    obtain ⟨_, _, _, h9⟩ := hI1.bounds
    obtain ⟨k1, k2, k3, k4⟩ := http2_scan_calls_acct len padded hlen9 fuel rest r.c rs1 hI1
      (by omega) (fun x hx => hseg x (List.mem_cons_of_mem _ hx)) hrs1
      (fun x hx => hok x (List.mem_cons_of_mem _ hx))
    rw [final_cutter_cons] at hfull ⊢
    obtain ⟨f1, f2⟩ := k1.st_full hfull
    obtain ⟨f3, f4, _⟩ := k1.st_npl (by rw [hfull]; simp)
    simp only [List.map_cons, List.sum_cons]
    refine ⟨by omega, by omega, by omega, by omega⟩
  · have := hok r (List.mem_singleton_self r)
    rw [hrbad] at this
    cases this

/-- Worked instance of C7: a padded frame of constructor length 21 with padding-length
byte 5, scanned in three calls of 10, 10 and 10 bytes. -/
theorem scan_accounting_witness :
    ∃ rs, http2_scan_calls 4 (Cutter.new {} 21 true)
        ((header9 ++ [5]) :: [List.replicate 10 7, List.replicate 10 7]) = some rs ∧
      (rs.map (fun r => r.c.cur_data)).sum = 15 ∧
      (rs.map (fun r => r.c.cur_padding)).sum = 5 ∧
      (rs.map (fun r => r.flush_offset)).sum = 9 + 21 := by
  have hev : (http2_scan_calls 4 (Cutter.new {} 21 true)
      ((header9 ++ [5]) :: [List.replicate 10 7, List.replicate 10 7])).map
        (fun rs => (rs.map (fun r => r.ok),
          (final_cutter (Cutter.new {} 21 true) rs).data_state,
          (final_cutter (Cutter.new {} 21 true) rs).data_len,
          (final_cutter (Cutter.new {} 21 true) rs).padding_len)) =
      some ([true, true, true], DataState.FULL_FRAME, 15, 5) := by decide
  cases hr : http2_scan_calls 4 (Cutter.new {} 21 true)
      ((header9 ++ [5]) :: [List.replicate 10 7, List.replicate 10 7]) with
  | none => rw [hr] at hev; simp at hev
  | some rs =>
    rw [hr] at hev
    simp only [Option.map_some', Option.some.injEq, Prod.mk.injEq] at hev
    obtain ⟨h1, h2, h3, h4⟩ := hev
    have hok : ∀ r ∈ rs, r.ok = true := by
      intro r hrm
      have : r.ok ∈ rs.map (fun r => r.ok) := List.mem_map_of_mem _ hrm
      rw [h1] at this
      simpa using this
    have h := scan_accounting 21 true {} 4 (header9 ++ [5])
      [List.replicate 10 7, List.replicate 10 7] rs (by decide) (by decide) (by decide) hr hok h2
    refine ⟨rs, rfl, ?_, ?_, h.2.2.2⟩
    · rw [h.1, h3]
    · rw [h.2.1, h4]

/-! ## Resumable classification -/

theorem OfferInv_unique (len : Nat) (padded : Bool) (b : List Nat) (o : Nat) (c c1 : Cutter)
    (h : OfferInv len padded b o c) (h1 : OfferInv len padded b o c1) :
    scan_tuple c = scan_tuple c1 := by
  have a1 := h.inv.dbr_le
  have a2 := h.inv.pr_le
  have a3 := h.fbs_le
  have b1 := h1.inv.dbr_le
  have b2 := h1.inv.pr_le
  have b3 := h1.fbs_le
  have hu := h.inv.unpadded
  have hu1 := h1.inv.unpadded
  have key : ∀ (x : Cutter), OfferInv len padded b o x →
      (x.data_state = DataState.PADDING_LENGTH ∧ padded = true ∧ x.data_len = len ∧
        x.padding_len = 0 ∧ x.data_bytes_read = 0 ∧ x.padding_read = 0 ∧
        x.frame_bytes_seen = 9 ∧ o = 9) ∨
      (x.data_state ≠ DataState.PADDING_LENGTH ∧
        x.frame_bytes_seen = 9 + pad_field padded + x.data_bytes_read + x.padding_read ∧
        x.data_len + x.padding_len + pad_field padded = len ∧ pad_field padded ≤ x.data_len ∧
        (padded = true → x.padding_len = b.getD 9 0 % 256) ∧
        ((x.data_state = DataState.DATA ∧ x.padding_read = 0 ∧ x.frame_bytes_seen = o ∧
            (x.data_bytes_read < x.data_len ∨ o = 9)) ∨
          (x.data_state = DataState.PADDING ∧ x.data_bytes_read = x.data_len ∧
            x.padding_read < x.padding_len ∧ x.frame_bytes_seen = o) ∨
          (x.data_state = DataState.FULL_FRAME ∧ x.data_bytes_read = x.data_len ∧
            x.padding_read = x.padding_len ∧ 9 < o))) := by
    intro x hx
    cases hs : x.data_state with
    | PADDING_LENGTH =>
      left
      obtain ⟨p1, p2, p3, p4, p5, p6⟩ := hx.inv.st_pl hs
      have := hx.all_consumed (by simp [hs])
      exact ⟨rfl, p1, p2, p3, p4, p5, p6, by omega⟩
    | DATA =>
      right
      obtain ⟨p1, p2, p3⟩ := hx.inv.st_npl (by simp [hs])
      exact ⟨by simp, p1, p2, p3, hx.pad_byte (by simp [hs]),
        Or.inl ⟨rfl, hx.inv.st_data hs, hx.all_consumed (by simp [hs]), hx.data_progress hs⟩⟩
    | PADDING =>
      right
      obtain ⟨p1, p2, p3⟩ := hx.inv.st_npl (by simp [hs])
      obtain ⟨q1, q2⟩ := hx.inv.st_padding hs
      exact ⟨by simp, p1, p2, p3, hx.pad_byte (by simp [hs]),
        Or.inr (Or.inl ⟨rfl, q1, q2, hx.all_consumed (by simp [hs])⟩)⟩
    | FULL_FRAME =>
      right
      obtain ⟨p1, p2, p3⟩ := hx.inv.st_npl (by simp [hs])
      obtain ⟨q1, q2⟩ := hx.inv.st_full hs
      exact ⟨by simp, p1, p2, p3, hx.pad_byte (by simp [hs]),
        Or.inr (Or.inr ⟨rfl, q1, q2, hx.full_pos hs⟩)⟩
  have k := key c h
  have k1 := key c1 h1
  unfold scan_tuple
  cases hp : padded with
  | false =>
    have hpf : pad_field padded = 0 := by simp [pad_field, hp]
    have u := hu hp
    have u1 := hu1 hp
    rcases k with ⟨_, hpt, _⟩ | ⟨_, f1, f2, f3, _, hc⟩
    · rw [hp] at hpt; cases hpt
    · rcases k1 with ⟨_, hpt, _⟩ | ⟨_, g1, g2, g3, _, hc1⟩
      · rw [hp] at hpt; cases hpt
      · rcases hc with ⟨s1, x1, x2, x3⟩ | ⟨s1, x1, x2, x3⟩ | ⟨s1, x1, x2, x3⟩ <;>
        rcases hc1 with ⟨t1, y1, y2, y3⟩ | ⟨t1, y1, y2, y3⟩ | ⟨t1, y1, y2, y3⟩ <;>
        first
          | (exfalso; omega)
          | (rw [s1, t1]; simp only [Prod.mk.injEq, true_and]; omega)
  | true =>
    have hpf : pad_field padded = 1 := by simp [pad_field, hp]
    rcases k with ⟨s1, _, x1, x2, x3, x4, x5, x6⟩ | ⟨_, f1, f2, f3, f4, hc⟩
    · rcases k1 with ⟨t1, _, y1, y2, y3, y4, y5, y6⟩ | ⟨_, g1, g2, g3, g4, hc1⟩
      · rw [s1, t1]; simp only [Prod.mk.injEq, true_and]; omega
      · exfalso; omega
    · have f5 := f4 hp
      rcases k1 with ⟨t1, _, y1, y2, y3, y4, y5, y6⟩ | ⟨_, g1, g2, g3, g4, hc1⟩
      · exfalso; omega
      · have g5 := g4 hp
        rcases hc with ⟨s1, x1, x2, x3⟩ | ⟨s1, x1, x2, x3⟩ | ⟨s1, x1, x2, x3⟩ <;>
        rcases hc1 with ⟨t1, y1, y2, y3⟩ | ⟨t1, y1, y2, y3⟩ | ⟨t1, y1, y2, y3⟩ <;>
        first
          | (exfalso; omega)
          | (rw [s1, t1]; simp only [Prod.mk.injEq, true_and]; omega)

theorem Outcome_unique (len : Nat) (padded : Bool) (b : List Nat) (o : Nat) (ok ok1 : Bool)
    (c c1 : Cutter) (t t1 : Nat) (h : Outcome len padded b o ok c t)
    (h1 : Outcome len padded b o ok1 c1 t1) :
    ok = ok1 ∧ scan_tuple c = scan_tuple c1 ∧ t = t1 := by
  unfold Outcome at h h1
  split at h
  · rename_i hc
    rw [if_pos hc] at h1
    obtain ⟨a1, a2, a3⟩ := h
    obtain ⟨b1, b2, b3⟩ := h1
    exact ⟨by rw [a1, b1], by rw [a2, b2], by rw [a3, b3]⟩
  · rename_i hc
    rw [if_neg hc] at h1
    obtain ⟨a1, a2, a3⟩ := h
    obtain ⟨b1, b2, b3⟩ := h1
    have hu := OfferInv_unique len padded b o c c1 a2 b2
    refine ⟨by rw [a1, b1], hu, ?_⟩
    rw [a3, b3]
    unfold scan_tuple at hu
    simp only [Prod.mk.injEq] at hu
    exact hu.2.2.2.2.2

theorem rank_zero_iff (st : DataState) : st.rank = 0 ↔ st = DataState.FULL_FRAME := by
  cases st <;> simp [DataState.rank]

/-- One call of `http2_scan` on the next `scan_length` bytes of `b`. -/
theorem OfferInv_call (len : Nat) (padded : Bool) (b : List Nat) (o : Nat) (fuel : Nat)
    (c : Cutter) (data : List Nat) (length : Nat) (hfuel : 4 ≤ fuel)
    (hlen : length < 4294967296) (hfirst : c.frame_bytes_seen = 0 → 9 ≤ length)
    (hI : OfferInv len padded b o (http2_scan_entry c))
    (hob : o + scan_length c length < 4294967296)
    (hbyte : 0 < scan_length c length → padding_length_byte c data = b.getD o 0 % 256) :
    ∃ r, http2_scan fuel c data length = some r ∧
      ((c.data_state = DataState.PADDING_LENGTH ∧ 0 < scan_length c length ∧
          len ≤ b.getD 9 0 % 256 + 1) →
        r.ok = false ∧
        scan_tuple r.c = (DataState.PADDING_LENGTH, len, b.getD 9 0 % 256, 0, 0, 9) ∧
        r.flush_offset = scan_flush_offset c) ∧
      (¬ (c.data_state = DataState.PADDING_LENGTH ∧ 0 < scan_length c length ∧
          len ≤ b.getD 9 0 % 256 + 1) →
        r.ok = true ∧ OfferInv len padded b (o + scan_length c length) r.c ∧
        r.flush_offset + (http2_scan_entry c).frame_bytes_seen =
          scan_flush_offset c + r.c.frame_bytes_seen) := by
  obtain ⟨n, rfl⟩ : ∃ n, fuel = n + 4 := ⟨fuel - 4, by omega⟩
  have ho9 : c.data_state = DataState.PADDING_LENGTH → o = 9 := by
    intro hs
    have h1 := hI.all_consumed (by simp [hs])
    have h2 := (hI.inv.st_pl (by simpa using hs)).2.2.2.2.2
    omega
  by_cases hcond : c.data_state = DataState.PADDING_LENGTH ∧ 0 < scan_length c length ∧
      len ≤ b.getD 9 0 % 256 + 1
  · have hcond0 := hcond
    obtain ⟨hs, hL, hbad⟩ := hcond
    obtain ⟨_, hdl, _, hdbr, hpr, hf⟩ := hI.inv.st_pl (by simpa using hs)
    simp only [http2_scan_entry_data_len] at hdl
    have hp : padding_length_byte c data = b.getD 9 0 % 256 := by
      rw [hbyte hL, ho9 hs]
    by_cases h1 : c.data_len ≤ padding_length_byte c data
    · refine ⟨_, http2_scan_eq_PL_malformed (n + 3) c data length hL hs h1,
        fun _ => ⟨rfl, ?_, rfl⟩, fun h => absurd hcond0 h⟩
      simp only [scan_tuple, http2_scan_entry_data_state, http2_scan_entry_data_len, hs, hdl,
        hp, hdbr, hpr, hf]
    · refine ⟨_, http2_scan_eq_PL_all_padding (n + 3) c data length hL hs (by omega),
        fun _ => ⟨rfl, ?_, rfl⟩, fun h => absurd hcond0 h⟩
      simp only [scan_tuple, http2_scan_entry_data_state, http2_scan_entry_data_len, hs, hdl,
        hp, hdbr, hpr, hf]
  · have hfle := hI.fbs_le
    obtain ⟨c1, pos, hr, hL, hex, hfb⟩ := http2_scan_ok_spec len padded (n + 4) c data length
      (by omega) hlen hfirst hI.inv
      (by
        intro hs hL
        rw [hbyte hL, ho9 hs]
        by_contra hh
        exact hcond ⟨hs, hL, by omega⟩)
    have hfbs := hfb (Or.inr (by omega))
    have hple := hL.pos_le
    have hrk := hL.rank_le
    obtain ⟨_, _, _, h9⟩ := hI.inv.bounds
    refine ⟨_, hr, fun h => absurd h hcond, fun _ => ⟨rfl, ⟨?_, ?_, ?_, ?_, ?_, ?_⟩, ?_⟩⟩
    · rw [hfbs]
      exact ScanInv_of_same hL.inv rfl rfl rfl rfl rfl rfl
    · rw [hfbs]; omega
    · intro hnf
      have hnf1 : c1.data_state ≠ DataState.FULL_FRAME := hnf
      have hpL : pos = scan_length c length := by
        rcases hex with h | h
        · exact h
        · exact absurd h hnf1
      have hc0 : (http2_scan_entry c).data_state ≠ DataState.FULL_FRAME := by
        intro h0
        rw [h0] at hrk
        exact hnf1 ((rank_zero_iff _).mp (by simpa [DataState.rank] using hrk))
      have := hI.all_consumed hc0
      rw [hfbs]; omega
    · intro hf
      have hf1 : c1.data_state = DataState.FULL_FRAME := hf
      by_cases hc0 : (http2_scan_entry c).data_state = DataState.FULL_FRAME
      · have := hI.full_pos hc0
        omega
      · have := hL.entered (by rw [hf1]; exact fun h => hc0 h.symm)
        omega
    · intro hd
      have hd1 : c1.data_state = DataState.DATA := hd
      show c1.data_bytes_read < c1.data_len ∨ _
      by_cases hp0 : 0 < pos
      · exact Or.inl (hL.progress_data hd1 hp0)
      · have hpL : pos = scan_length c length := by
          rcases hex with h | h
          · exact h
          · rw [hd1] at h; cases h
        have hnpl : (http2_scan_entry c).data_state ≠ DataState.PADDING_LENGTH := by
          intro h0
          have := (hL.past_pl (by rw [hd1]; simp) h0).2
          omega
        have hc0 : (http2_scan_entry c).data_state = DataState.DATA := by
          rw [hd1] at hrk
          cases h : (http2_scan_entry c).data_state with
          | PADDING_LENGTH => exact absurd h hnpl
          | DATA => rfl
          | PADDING => rw [h] at hrk; simp [DataState.rank] at hrk
          | FULL_FRAME => rw [h] at hrk; simp [DataState.rank] at hrk
        obtain ⟨e1, _⟩ := hL.same_len hnpl
        have e2 := hL.dbr
        have e3 := hL.acct
        rcases hI.data_progress hc0 with h | h
        · left; omega
        · right; omega
    · intro hnpl hpad
      have hnpl1 : c1.data_state ≠ DataState.PADDING_LENGTH := hnpl
      show c1.padding_len = _
      by_cases hc0 : (http2_scan_entry c).data_state = DataState.PADDING_LENGTH
      · obtain ⟨e1, e2⟩ := hL.past_pl hnpl1 hc0
        rw [e1, getD_entry, hbyte e2, ho9 (by simpa using hc0)]
      · obtain ⟨_, e1⟩ := hL.same_len hc0
        rw [e1]
        exact hI.pad_byte hc0 hpad
    · rw [hfbs]; simp only; omega

theorem getD_drop_zero (b : List Nat) (o : Nat) : (b.drop o).getD 0 0 = b.getD o 0 := by
  simp [List.getD_eq_getElem?_getD, List.getElem?_drop]

theorem getD_append_left (seg x : List Nat) (i : Nat) (h : i < seg.length) :
    (seg ++ x).getD i 0 = seg.getD i 0 := by
  simp [List.getD_eq_getElem?_getD, List.getElem?_append_left h]

theorem drop_add_of_drop_eq (b seg x : List Nat) (o : Nat) (h : b.drop o = seg ++ x)
    (ho : o ≤ b.length) : b.drop (o + seg.length) = x ∧ o + seg.length ≤ b.length := by
  have h1 : b.drop (o + seg.length) = x := by
    rw [← List.drop_drop, h, List.drop_left]
  have h2 : (b.drop o).length = seg.length + x.length := by rw [h]; simp
  rw [List.length_drop] at h2
  exact ⟨h1, by omega⟩

theorem http2_scan_calls_ok (fuel : Nat) (c : Cutter) (seg : List Nat)
    (rest : List (List Nat)) (r : ScanResult) (rs : List ScanResult)
    (h : http2_scan fuel c seg seg.length = some r) (hok : r.ok = true)
    (hrs : http2_scan_calls fuel r.c rest = some rs) :
    http2_scan_calls fuel c (seg :: rest) = some (r :: rs) := by
  simp [http2_scan_calls, h, hok, hrs]

theorem http2_scan_calls_fail (fuel : Nat) (c : Cutter) (seg : List Nat)
    (rest : List (List Nat)) (r : ScanResult)
    (h : http2_scan fuel c seg seg.length = some r) (hok : r.ok = false) :
    http2_scan_calls fuel c (seg :: rest) = some [r] := by
  simp [http2_scan_calls, h, hok]

theorem OfferInv_entry {len : Nat} {padded : Bool} {b : List Nat} {o : Nat} {c : Cutter}
    (h : OfferInv len padded b o c) (hne : c.frame_bytes_seen ≠ 0) :
    OfferInv len padded b o (http2_scan_entry c) := by
  have e : http2_scan_entry c = { c with cur_data := 0, cur_padding := 0, cur_data_offset := 0 } := by
    simp [http2_scan_entry, hne]
  rw [e]
  exact ⟨ScanInv_of_same h.inv rfl rfl rfl rfl rfl rfl, h.fbs_le, h.all_consumed, h.full_pos,
    h.data_progress, h.pad_byte⟩

theorem OfferInv_not_bad {len : Nat} {padded : Bool} {b : List Nat} {o : Nat} {c : Cutter}
    (h : OfferInv len padded b o c) :
    ¬ (padded = true ∧ 9 < o ∧ len ≤ b.getD 9 0 % 256 + 1) := by
  rintro ⟨hp, ho, hbad⟩
  by_cases hs : c.data_state = DataState.PADDING_LENGTH
  · have h1 := h.all_consumed (by simp [hs])
    have h2 := (h.inv.st_pl hs).2.2.2.2.2
    omega
  · obtain ⟨_, h1, h2⟩ := h.inv.st_npl hs
    have h3 := h.pad_byte hs hp
    have hpf : pad_field padded = 1 := by simp [pad_field, hp]
    omega

/-- A sequence of calls that continues a frame on the remaining bytes of `b`. -/
theorem http2_scan_calls_outcome (len : Nat) (padded : Bool) (b : List Nat) (fuel : Nat)
    (hfuel : 4 ≤ fuel) (hb : b.length < 4294967296) :
    ∀ (rest : List (List Nat)) (c : Cutter) (o : Nat),
      OfferInv len padded b o c → c.frame_bytes_seen ≠ 0 → b.drop o = rest.flatten →
      o ≤ b.length →
      ∃ rs, http2_scan_calls fuel c rest = some rs ∧
        Outcome len padded b b.length (calls_ok rs) (final_cutter c rs)
          (c.frame_bytes_seen + (rs.map (fun r => r.flush_offset)).sum) := by
  intro rest
  induction rest with
  | nil =>
    intro c o hI _ hdrop ho
    have hob : o = b.length := by
      have := congrArg List.length hdrop
      simp only [List.length_drop, List.flatten_nil, List.length_nil] at this
      omega
    subst hob
    refine ⟨[], rfl, ?_⟩
    unfold Outcome
    rw [if_neg (OfferInv_not_bad hI)]
    exact ⟨rfl, hI, by simp [final_cutter]⟩
  | cons seg rest ih =>
    intro c o hI hne hdrop ho
    rw [List.flatten_cons] at hdrop
    obtain ⟨hdrop1, ho1⟩ := drop_add_of_drop_eq b seg rest.flatten o hdrop ho
    have hL : scan_length c seg.length = seg.length := by simp [scan_length, hne]
    have hidx : padding_length_index c = 0 := by simp [padding_length_index, hne]
    have hf0 : scan_flush_offset c = 0 := by simp [scan_flush_offset, hne]
    have he0 : (http2_scan_entry c).frame_bytes_seen = c.frame_bytes_seen := by
      simp [http2_scan_entry, hne]
    obtain ⟨r, hr, hbadc, hokc⟩ := OfferInv_call len padded b o fuel c seg seg.length hfuel
      (by omega) (fun h => absurd h hne) (OfferInv_entry hI hne) (by rw [hL]; omega)
      (by
        intro h0
        rw [hL] at h0
        unfold padding_length_byte
        rw [hidx, ← getD_drop_zero b o, hdrop, getD_append_left seg _ 0 h0])
    rw [hL] at hbadc hokc
    by_cases hcond : c.data_state = DataState.PADDING_LENGTH ∧ 0 < seg.length ∧
        len ≤ b.getD 9 0 % 256 + 1
    · obtain ⟨h1, h2, h3⟩ := hbadc hcond
      refine ⟨[r], http2_scan_calls_fail fuel c seg rest r hr h1, ?_⟩
      obtain ⟨hpad, _, _, _, _, hf9⟩ := hI.inv.st_pl hcond.1
      have hoc := hI.all_consumed (by simp [hcond.1])
      unfold Outcome
      rw [if_pos ⟨hpad, by omega, hcond.2.2⟩]
      refine ⟨by simp [calls_ok, h1], by simpa [final_cutter] using h2, ?_⟩
      simp only [List.map_cons, List.map_nil, List.sum_cons, List.sum_nil, h3, hf0]
      omega
    · obtain ⟨h1, h2, h3⟩ := hokc hcond
      have h9 := h2.inv.bounds.2.2.2
      obtain ⟨rs, hrs, hout⟩ := ih r.c (o + seg.length) h2 (by omega) hdrop1 ho1
      refine ⟨r :: rs, http2_scan_calls_ok fuel c seg rest r rs hr h1 hrs, ?_⟩
      rw [final_cutter_cons]
      have e1 : calls_ok (r :: rs) = calls_ok rs := by simp [calls_ok, h1]
      have e2 : c.frame_bytes_seen + ((r :: rs).map (fun r => r.flush_offset)).sum =
          r.c.frame_bytes_seen + (rs.map (fun r => r.flush_offset)).sum := by
        simp only [List.map_cons, List.sum_cons]
        omega
      rw [e1, e2]
      exact hout

/-- A sequence of calls on a fresh context whose first segment holds the frame header. -/
theorem http2_scan_calls_fresh_outcome (len : Nat) (padded : Bool) (s : Http2FlowData)
    (b : List Nat) (fuel : Nat) (seg1 : List Nat) (rest : List (List Nat))
    (hfuel : 4 ≤ fuel) (hlen : len < 4294967296) (hb : b.length < 4294967296)
    (hsplit : (seg1 :: rest).flatten = b) (hfirst : 9 ≤ seg1.length) :
    ∃ rs, http2_scan_calls fuel (Cutter.new s len padded) (seg1 :: rest) = some rs ∧
      Outcome len padded b b.length (calls_ok rs) (final_cutter (Cutter.new s len padded) rs)
        ((rs.map (fun r => r.flush_offset)).sum) := by
  rw [List.flatten_cons] at hsplit
  have hbl : b.length = seg1.length + rest.flatten.length := by rw [← hsplit]; simp
  have hL : scan_length (Cutter.new s len padded) seg1.length = seg1.length - 9 := by
    simp only [scan_length, Cutter.new, if_true, FRAME_HEADER_LENGTH]
    exact sub32_eq _ _ hfirst (by omega)
  have hI0 : OfferInv len padded b 9 (http2_scan_entry (Cutter.new s len padded)) := by
    refine ⟨ScanInv_new_entry s len padded hlen, le_refl _, fun _ => rfl, fun h => ?_,
      fun _ => Or.inr rfl, fun h hp => ?_⟩
    · cases padded <;> simp [Cutter.new] at h
    · subst hp
      simp [Cutter.new] at h
  obtain ⟨r, hr, hbadc, hokc⟩ := OfferInv_call len padded b 9 fuel (Cutter.new s len padded)
    seg1 seg1.length hfuel (by omega) (fun _ => hfirst) hI0 (by rw [hL]; omega)
    (by
      intro h0
      rw [hL] at h0
      unfold padding_length_byte
      have : padding_length_index (Cutter.new s len padded) = 9 := rfl
      rw [this, ← hsplit, getD_append_left seg1 _ 9 (by omega)])
  rw [hL] at hbadc hokc
  have hf0 : scan_flush_offset (Cutter.new s len padded) = 9 := rfl
  have he0 : (http2_scan_entry (Cutter.new s len padded)).frame_bytes_seen = 9 := rfl
  by_cases hcond : (Cutter.new s len padded).data_state = DataState.PADDING_LENGTH ∧
      0 < seg1.length - 9 ∧ len ≤ b.getD 9 0 % 256 + 1
  · obtain ⟨h1, h2, h3⟩ := hbadc hcond
    refine ⟨[r], http2_scan_calls_fail fuel _ seg1 rest r hr h1, ?_⟩
    have hpad : padded = true := by
      cases padded
      · have := hcond.1; simp [Cutter.new] at this
      · rfl
    unfold Outcome
    rw [if_pos ⟨hpad, by omega, hcond.2.2⟩]
    refine ⟨by simp [calls_ok, h1], by simpa [final_cutter] using h2, ?_⟩
    simp only [List.map_cons, List.map_nil, List.sum_cons, List.sum_nil, h3, hf0]
    rfl
  · obtain ⟨h1, h2, h3⟩ := hokc hcond
    have h9 := h2.inv.bounds.2.2.2
    have ho : 9 + (seg1.length - 9) = seg1.length := by omega
    rw [ho] at h2
    obtain ⟨rs, hrs, hout⟩ := http2_scan_calls_outcome len padded b fuel hfuel hb rest r.c
      seg1.length h2 (by omega) (by rw [← hsplit, List.drop_left]) (by omega)
    refine ⟨r :: rs, http2_scan_calls_ok fuel _ seg1 rest r rs hr h1 hrs, ?_⟩
    rw [final_cutter_cons]
    have e1 : calls_ok (r :: rs) = calls_ok rs := by simp [calls_ok, h1]
    have e2 : ((r :: rs).map (fun r => r.flush_offset)).sum =
        r.c.frame_bytes_seen + (rs.map (fun r => r.flush_offset)).sum := by
      simp only [List.map_cons, List.sum_cons]
      omega
    rw [e1, e2]
    exact hout

/-- C3: for every frame (padded or not, any 32-bit constructor length), every byte sequence
`b` that fits a 32-bit `length`, and every way of splitting `b` into consecutive segments
whose first segment holds at least the 9 header bytes, running `http2_scan` on the segments
in order from a fresh Frame Context (stopping at a call that fails) yields the same
success/failure result, the same final `scan_state`, `data_len`, `padding_len`,
`data_bytes_read`, `padding_read`, `frame_bytes_seen`, and the same sum of returned flush
offsets as one `http2_scan` call on `b`; both computations return. -/
theorem resumable_classification (len : Nat) (padded : Bool) (s : Http2FlowData)
    (b : List Nat) (fuel : Nat) (seg1 : List Nat) (rest : List (List Nat))
    (hfuel : 4 ≤ fuel) (hlen : len < 4294967296) (hb : b.length < 4294967296)
    (hsplit : (seg1 :: rest).flatten = b) (hfirst : 9 ≤ seg1.length) :
    ∃ r rs, http2_scan fuel (Cutter.new s len padded) b b.length = some r ∧
      http2_scan_calls fuel (Cutter.new s len padded) (seg1 :: rest) = some rs ∧
      calls_ok rs = r.ok ∧
      scan_tuple (final_cutter (Cutter.new s len padded) rs) = scan_tuple r.c ∧
      (rs.map (fun x => x.flush_offset)).sum = r.flush_offset := by
  obtain ⟨rs, hrs, hout⟩ := http2_scan_calls_fresh_outcome len padded s b fuel seg1 rest hfuel
    hlen hb hsplit hfirst
  have hbl : 9 ≤ b.length := by
    rw [← hsplit]
    simp only [List.flatten_cons, List.length_append]
    omega
  obtain ⟨rs1, hrs1, hout1⟩ := http2_scan_calls_fresh_outcome len padded s b fuel b [] hfuel
    hlen hb (by simp) hbl
  obtain ⟨r, hr, hcase⟩ := http2_scan_calls_cons fuel _ b [] rs1 hrs1
  have hrs1eq : rs1 = [r] := by
    rcases hcase with ⟨_, rs2, h2, h3⟩ | ⟨_, h3⟩
    · simp only [http2_scan_calls, Option.some.injEq] at h2
      rw [h3, ← h2]
    · exact h3
  subst hrs1eq
  have e1 : calls_ok [r] = r.ok := by simp [calls_ok]
  have e2 : final_cutter (Cutter.new s len padded) [r] = r.c := rfl
  have e3 : ([r].map (fun x => x.flush_offset)).sum = r.flush_offset := by simp
  rw [e1, e2, e3] at hout1
  obtain ⟨u1, u2, u3⟩ := Outcome_unique len padded b b.length _ _ _ _ _ _ hout hout1
  exact ⟨r, rs, hr, hrs, u1, u2, u3⟩

/-- Worked instance of C3: padded frame of length 30 (constructor length 21),
padding-length byte 5, post-header bytes split 1, 10, 9 against one call with 20
post-header bytes. -/
theorem resumable_classification_witness :
    ∃ r rs, http2_scan 4 (Cutter.new {} 21 true)
        (header9 ++ [5] ++ List.replicate 10 7 ++ List.replicate 9 7) 29 = some r ∧
      http2_scan_calls 4 (Cutter.new {} 21 true)
        [header9 ++ [5], List.replicate 10 7, List.replicate 9 7] = some rs ∧
      calls_ok rs = r.ok ∧
      scan_tuple (final_cutter (Cutter.new {} 21 true) rs) = scan_tuple r.c ∧
      (rs.map (fun x => x.flush_offset)).sum = r.flush_offset := by
  have h := resumable_classification 21 true {}
    (header9 ++ [5] ++ List.replicate 10 7 ++ List.replicate 9 7) 4 (header9 ++ [5])
    [List.replicate 10 7, List.replicate 9 7] (by decide) (by decide) (by decide) (by decide)
    (by decide)
  exact h

/-! ## Scan-side chunk wrapping -/

/-- The downstream scan call that forwards the chunk header of `c`. -/
theorem http_scan_send_header_log (hi : HttpStreamSplitter) (c : Cutter) :
    (http_scan_send_header hi c).2.session_data.hi_scan_calls =
      c.session_data.hi_scan_calls ++
        [{ kind := FwdKind.CHUNK_HDR, bytes := c_str (create_chunk_hdr c.data_len) }] ∧
    (http_scan_send_header hi c).2.http_state = HttpScanState.HEADER_SENT ∧
    (http_scan_send_header hi c).1 =
      hi.scan (c.session_data.hi_scan_calls ++
        [{ kind := FwdKind.CHUNK_HDR, bytes := c_str (create_chunk_hdr c.data_len) }]) :=
  ⟨rfl, rfl, rfl⟩

theorem http_scan_send_payload_log (hi : HttpStreamSplitter) (c : Cutter) (data : List Nat) :
    (http_scan_send_payload hi c data).2.session_data.hi_scan_calls =
      c.session_data.hi_scan_calls ++
        [{ kind := FwdKind.PAYLOAD, bytes := (data.drop c.cur_data_offset).take c.cur_data }] ∧
    (http_scan_send_payload hi c data).2.http_state = c.http_state ∧
    (http_scan_send_payload hi c data).1 =
      hi.scan (c.session_data.hi_scan_calls ++
        [{ kind := FwdKind.PAYLOAD,
           bytes := (data.drop c.cur_data_offset).take c.cur_data }]) :=
  ⟨rfl, rfl, rfl⟩

theorem http_scan_send_terminal_log (hi : HttpStreamSplitter) (c : Cutter) :
    (http_scan_send_terminal hi c).2.session_data.hi_scan_calls =
      c.session_data.hi_scan_calls ++
        [{ kind := FwdKind.TERMINAL, bytes := c_str END_OF_CHUNK }] ∧
    (http_scan_send_terminal hi c).2.http_state = c.http_state :=
  ⟨rfl, rfl⟩

/-- What one call of `http_scan` appends to the log of downstream scan calls when the
downstream answers `SEARCH` to the chunk header and to the payload subrange, if forwarded. -/
theorem http_scan_log (hi : HttpStreamSplitter) (c : Cutter) (data : List Nat) (fo : Nat)
    (hna : ¬ downstream_abort hi c data) :
    (http_scan hi c data fo).c.session_data.hi_scan_calls =
      c.session_data.hi_scan_calls ++
        (if forwards_header c then
          [{ kind := FwdKind.CHUNK_HDR, bytes := c_str (create_chunk_hdr c.data_len) }]
         else []) ++
        (if c.cur_data ≠ 0 then
          [{ kind := FwdKind.PAYLOAD, bytes := (data.drop c.cur_data_offset).take c.cur_data }]
         else []) ++
        (if c.data_state = DataState.FULL_FRAME then
          [{ kind := FwdKind.TERMINAL, bytes := c_str END_OF_CHUNK }]
         else []) ∧
    (http_scan hi c data fo).c.http_state =
      (if c.cur_data ≠ 0 then HttpScanState.HEADER_SENT else c.http_state) ∧
    (c.data_state ≠ DataState.FULL_FRAME → (http_scan hi c data fo).status = Status.SEARCH) := by
  rw [(http_scan_eq hi c data fo).2 hna]
  have hk := after_payload_keeps hi c data
  have hlog : (after_payload hi c data).session_data.hi_scan_calls =
      c.session_data.hi_scan_calls ++
        (if forwards_header c then
          [{ kind := FwdKind.CHUNK_HDR, bytes := c_str (create_chunk_hdr c.data_len) }]
         else []) ++
        (if c.cur_data ≠ 0 then
          [{ kind := FwdKind.PAYLOAD, bytes := (data.drop c.cur_data_offset).take c.cur_data }]
         else []) ∧
      (after_payload hi c data).http_state =
        (if c.cur_data ≠ 0 then HttpScanState.HEADER_SENT else c.http_state) := by
    unfold after_payload after_header
    by_cases hcd : c.cur_data ≠ 0
    · by_cases hf : forwards_header c
      · simp only [hcd, hf, if_true, ne_eq, not_false_eq_true]
        refine ⟨?_, ?_⟩
        · rw [(http_scan_send_payload_log hi _ data).1, (http_scan_send_header_log hi c).1]
          rfl
        · rw [(http_scan_send_payload_log hi _ data).2.1]
          rfl
      · simp only [hcd, hf, if_true, if_false, ne_eq, not_false_eq_true]
        refine ⟨?_, ?_⟩
        · rw [(http_scan_send_payload_log hi _ data).1]
          simp
        · rw [(http_scan_send_payload_log hi _ data).2.1]
          unfold forwards_header at hf
          cases hs : c.http_state with
          | NONE_SENT => exact absurd ⟨hs, hcd⟩ hf
          | HEADER_SENT => rfl
    · have hf : ¬ forwards_header c := fun h => hcd h.2
      simp only [hcd, hf, if_false]
      simp
  by_cases hfull : c.data_state = DataState.FULL_FRAME
  · have hf2 : (after_payload hi c data).data_state = DataState.FULL_FRAME := by
      rw [hk.data_state]; exact hfull
    rw [http_scan_finish_full hi _ _ _ hf2]
    refine ⟨?_, ?_, fun h => absurd hfull h⟩
    · simp only [hfull, if_true]
      rw [(http_scan_send_terminal_log hi _).1, hlog.1]
    · simp only
      rw [(http_scan_send_terminal_log hi _).2, hlog.2]
  · have hf2 : (after_payload hi c data).data_state ≠ DataState.FULL_FRAME := by
      rw [hk.data_state]; exact hfull
    rw [http_scan_finish_not_full hi _ _ hf2]
    refine ⟨?_, hlog.2, fun _ => rfl⟩
    simp only [hfull, if_false, List.append_nil]
    exact hlog.1

/-! ## The forwards of one call and their answers -/

theorem answers_search_mono {hi : HttpStreamSplitter} {n n1 : Nat} {log log1 : List ScanCall}
    (h : answers_search hi n log) (hn : n ≤ n1) (hl : log1 <+: log) :
    answers_search hi n1 log1 :=
  fun pre call hk hlen hpre => h pre call hk (Nat.le_trans hn hlen) (List.IsPrefix.trans hpre hl)

theorem after_header_log (hi : HttpStreamSplitter) (c : Cutter) :
    c.session_data.hi_scan_calls <+: (after_header hi c).session_data.hi_scan_calls := by
  unfold after_header
  split
  · rw [(http_scan_send_header_log hi c).1]
    exact List.prefix_append _ _
  · exact List.prefix_refl _

theorem after_payload_log (hi : HttpStreamSplitter) (c : Cutter) (data : List Nat) :
    c.session_data.hi_scan_calls <+: (after_payload hi c data).session_data.hi_scan_calls := by
  unfold after_payload
  split
  · rw [(http_scan_send_payload_log hi _ data).1]
    exact List.IsPrefix.trans (after_header_log hi c) (List.prefix_append _ _)
  · exact after_header_log hi c

theorem http_scan_finish_log (hi : HttpStreamSplitter) (c : Cutter) (fo : Nat) (sr : Status) :
    c.session_data.hi_scan_calls <+:
      (http_scan_finish hi c fo sr).c.session_data.hi_scan_calls := by
  unfold http_scan_finish
  split
  · simp only
    rw [(http_scan_send_terminal_log hi c).1]
    exact List.prefix_append _ _
  · exact List.prefix_refl _

/-- The three ways a call of `http_scan` can go: the chunk header is forwarded and not
answered with `SEARCH`, and the call stops there; or the payload subrange is forwarded and
not answered with `SEARCH`, and the call stops there; or neither, and the call goes on to the
test for `FULL_FRAME`. -/
theorem http_scan_cases (hi : HttpStreamSplitter) (c : Cutter) (data : List Nat) (fo : Nat) :
    (forwards_header c ∧ answer_to_header hi c ≠ Status.SEARCH ∧
      (http_scan hi c data fo).c = (http_scan_send_header hi c).2) ∨
    (c.cur_data ≠ 0 ∧ answer_to_payload hi c data ≠ Status.SEARCH ∧
      (http_scan hi c data fo).c = (http_scan_send_payload hi (after_header hi c) data).2) ∨
    (¬ downstream_abort hi c data ∧
      http_scan hi c data fo =
        http_scan_finish hi (after_payload hi c data) fo Status.SEARCH) := by
  by_cases hna : downstream_abort hi c data
  · unfold downstream_abort at hna
    by_cases hh : forwards_header c ∧ answer_to_header hi c ≠ Status.SEARCH
    · left
      refine ⟨hh.1, hh.2, ?_⟩
      obtain ⟨⟨hs, hcd⟩, ha⟩ := hh
      unfold answer_to_header at ha
      simp [http_scan, hs, hcd, ha]
    · right; left
      have hp : c.cur_data ≠ 0 ∧ answer_to_payload hi c data ≠ Status.SEARCH := by
        rcases hna with h | h
        · exact absurd h hh
        · exact h
      refine ⟨hp.1, hp.2, ?_⟩
      obtain ⟨hcd, hb⟩ := hp
      unfold answer_to_payload at hb
      by_cases hs : c.http_state = HttpScanState.NONE_SENT
      · have hf : forwards_header c := ⟨hs, hcd⟩
        have ha : (http_scan_send_header hi c).1 = Status.SEARCH := by
          by_contra h
          exact hh ⟨hf, h⟩
        have hah : after_header hi c = (http_scan_send_header hi c).2 := by
          simp [after_header, hf]
        rw [hah] at hb ⊢
        have hcd2 : (http_scan_send_header hi c).2.cur_data ≠ 0 := hcd
        simp [http_scan, hs, hcd, ha, http_scan_header_sent, hcd2, hb]
      · have hs2 : c.http_state = HttpScanState.HEADER_SENT := by
          cases h : c.http_state with
          | NONE_SENT => exact absurd h hs
          | HEADER_SENT => rfl
        have hf : ¬ forwards_header c := fun h => hs h.1
        have hah : after_header hi c = c := by simp [after_header, hf]
        rw [hah] at hb ⊢
        simp [http_scan, hs2, hcd, http_scan_header_sent, hb]
  · right; right
    exact ⟨hna, (http_scan_eq hi c data fo).2 hna⟩

/-- A call of `http_scan` only appends to the log of downstream scan calls. -/
theorem http_scan_log_prefix (hi : HttpStreamSplitter) (c : Cutter) (data : List Nat)
    (fo : Nat) :
    c.session_data.hi_scan_calls <+: (http_scan hi c data fo).c.session_data.hi_scan_calls := by
  rcases http_scan_cases hi c data fo with ⟨_, _, h⟩ | ⟨_, _, h⟩ | ⟨_, h⟩
  · rw [h, (http_scan_send_header_log hi c).1]
    exact List.prefix_append _ _
  · rw [h, (http_scan_send_payload_log hi _ data).1]
    exact List.IsPrefix.trans (after_header_log hi c) (List.prefix_append _ _)
  · rw [h]
    exact List.IsPrefix.trans (after_payload_log hi c data) (http_scan_finish_log hi _ fo _)

/-- If every non-terminal forward that a call of `http_scan` recorded was answered `SEARCH`,
the call was not aborted by the downstream. -/
theorem http_scan_not_abort (hi : HttpStreamSplitter) (c : Cutter) (data : List Nat) (fo : Nat)
    (h : answers_search hi c.session_data.hi_scan_calls.length
      (http_scan hi c data fo).c.session_data.hi_scan_calls) :
    ¬ downstream_abort hi c data := by
  rcases http_scan_cases hi c data fo with ⟨_, ha, he⟩ | ⟨_, hb, he⟩ | ⟨hna, _⟩
  · exfalso
    apply ha
    unfold answer_to_header
    rw [(http_scan_send_header_log hi c).2.2]
    refine h _ _ (by simp) (Nat.le_refl _) ?_
    rw [he, (http_scan_send_header_log hi c).1]
  · exfalso
    apply hb
    unfold answer_to_payload
    rw [(http_scan_send_payload_log hi _ data).2.2]
    refine h _ _ (by simp) ((after_header_log hi c).length_le) ?_
    rw [he, (http_scan_send_payload_log hi _ data).1]
  · exact hna

theorem getD_drop (b : List Nat) (n i : Nat) : (b.drop n).getD i 0 = b.getD (n + i) 0 := by
  simp [List.getD_eq_getElem?_getD, List.getElem?_drop]

theorem piece_eq (frame seg X : List Nat) (base cdo cd d0 D k : Nat)
    (hdata : frame.drop base = seg ++ X) (h1 : cdo + cd ≤ seg.length)
    (h2 : base + cdo = d0 + k) (h3 : k + cd ≤ D) :
    (seg.drop cdo).take cd = (((frame.drop d0).take D).drop k).take cd := by
  have e1 : (seg.drop cdo).take cd = ((seg ++ X).drop cdo).take cd := by
    rw [List.drop_append_of_le_length (by omega)]
    rw [List.take_append_of_le_length (by simp; omega)]
  rw [e1, ← hdata, List.drop_drop, h2]
  rw [List.drop_take, List.take_take, List.drop_drop]
  congr 1
  omega

theorem OfferInv_of_same {len : Nat} {padded : Bool} {b : List Nat} {o : Nat} {c c1 : Cutter}
    (h : OfferInv len padded b o c) (hs : SameScan c c1) : OfferInv len padded b o c1 := by
  have hinv : ScanInv len padded c1 c1.frame_bytes_seen := by
    rw [hs.frame_bytes_seen]
    exact ScanInv_of_same h.inv hs.frame_length hs.data_state hs.data_len hs.padding_len
      hs.data_bytes_read hs.padding_read
  refine ⟨hinv, ?_, ?_, ?_, ?_, ?_⟩
  · rw [hs.frame_bytes_seen]; exact h.fbs_le
  · rw [hs.frame_bytes_seen, hs.data_state]; exact h.all_consumed
  · rw [hs.data_state]; exact h.full_pos
  · rw [hs.data_state, hs.data_bytes_read, hs.data_len]; exact h.data_progress
  · rw [hs.data_state, hs.padding_len]; exact h.pad_byte

/-- Past the padding-length byte, `data_len` is the number of payload bytes of the frame. -/
theorem OfferInv.data_len_eq {len : Nat} {padded : Bool} {b : List Nat} {o : Nat} {c : Cutter}
    (h : OfferInv len padded b o c) (hs : c.data_state ≠ DataState.PADDING_LENGTH) :
    c.data_len = frame_data_len len padded b ∧ c.data_len + 9 + pad_field padded ≤ 9 + len := by
  obtain ⟨_, h1, _⟩ := h.inv.st_npl hs
  cases hp : padded with
  | false =>
    have := h.inv.unpadded hp
    simp only [frame_data_len, hp, pad_field] at *
    simp only [Bool.false_eq_true, if_false] at *
    omega
  | true =>
    have := h.pad_byte hs hp
    simp only [frame_data_len, hp, pad_field] at *
    simp only [if_true] at *
    omega

theorem frame_payload_length (len : Nat) (padded : Bool) (frame : List Nat)
    (hfl : frame.length = 9 + len)
    (hD : frame_data_len len padded frame + 9 + pad_field padded ≤ 9 + len) :
    (frame_payload len padded frame).length = frame_data_len len padded frame := by
  unfold frame_payload
  rw [List.length_take, List.length_drop]
  omega

theorem wrapped_calls_snoc (D : Nat) (pieces : List (List Nat)) (p : List Nat) :
    wrapped_calls D pieces false ++ [{ kind := FwdKind.PAYLOAD, bytes := p }] =
      wrapped_calls D (pieces ++ [p]) false := by
  simp [wrapped_calls]

theorem wrapped_calls_complete (D : Nat) (pieces : List (List Nat)) :
    wrapped_calls D pieces false ++ [{ kind := FwdKind.TERMINAL, bytes := c_str END_OF_CHUNK }] =
      wrapped_calls D pieces true := by
  simp [wrapped_calls]

theorem wrapped_calls_first (D : Nat) (p : List Nat) :
    [({ kind := FwdKind.CHUNK_HDR, bytes := c_str (create_chunk_hdr D) } : ScanCall)] ++
        [{ kind := FwdKind.PAYLOAD, bytes := p }] =
      wrapped_calls D [p] false := by
  simp [wrapped_calls]

theorem http2_scan_entry_fields (c : Cutter) :
    (http2_scan_entry c).cur_data_offset = scan_flush_offset c ∧
    (http2_scan_entry c).data_bytes_read = c.data_bytes_read ∧
    (http2_scan_entry c).http_state = c.http_state ∧
    (http2_scan_entry c).padding_read = c.padding_read := by
  unfold http2_scan_entry scan_flush_offset
  split <;> exact ⟨rfl, rfl, rfl, rfl⟩

/-- The scanner side of one `scan` call on the next bytes of a frame with at least one payload
byte: the call succeeds and the payload subrange it classifies is the next piece of the
payload of the frame. -/
theorem http2_scan_piece (len : Nat) (padded : Bool) (frame : List Nat) (fuel : Nat)
    (c : Cutter) (seg X : List Nat) (base : Nat) (hfuel : 4 ≤ fuel)
    (hseg : seg.length < 4294967296) (hfirst : c.frame_bytes_seen = 0 → 9 ≤ seg.length)
    (hO : OfferInv len padded frame (http2_scan_entry c).frame_bytes_seen (http2_scan_entry c))
    (hvp : padded = true → frame.getD 9 0 % 256 + 1 < len)
    (hdata : frame.drop base = seg ++ X)
    (hbase : base + scan_flush_offset c = (http2_scan_entry c).frame_bytes_seen)
    (hob : (http2_scan_entry c).frame_bytes_seen + scan_length c seg.length < 4294967296) :
    ∃ r2, http2_scan fuel c seg seg.length = some r2 ∧ r2.ok = true ∧
      OfferInv len padded frame
        ((http2_scan_entry c).frame_bytes_seen + scan_length c seg.length) r2.c ∧
      r2.c.session_data.hi_scan_calls = c.session_data.hi_scan_calls ∧
      r2.c.http_state = c.http_state ∧
      r2.c.data_bytes_read = c.data_bytes_read + r2.c.cur_data ∧
      (r2.c.cur_data ≠ 0 →
        r2.c.data_state ≠ DataState.PADDING_LENGTH ∧
        c.data_bytes_read + r2.c.cur_data ≤ r2.c.data_len ∧
        (seg.drop r2.c.cur_data_offset).take r2.c.cur_data =
          ((frame_payload len padded frame).drop c.data_bytes_read).take r2.c.cur_data) := by
  obtain ⟨hcdo, hdbr0, hhs0, hpr0⟩ := http2_scan_entry_fields c
  obtain ⟨hadd, _⟩ := scan_length_add c seg.length hseg hfirst
  have ho9 : c.data_state = DataState.PADDING_LENGTH →
      (http2_scan_entry c).frame_bytes_seen = 9 := by
    intro hs
    exact (hO.inv.st_pl (by simpa using hs)).2.2.2.2.2
  obtain ⟨r2, hr2, _, hokc⟩ := OfferInv_call len padded frame _ fuel c seg seg.length hfuel
    hseg hfirst hO hob
    (by
      intro h0
      unfold padding_length_byte
      have hidx : padding_length_index c = scan_flush_offset c := by
        unfold padding_length_index scan_flush_offset; rfl
      rw [hidx, ← hbase, ← getD_drop, hdata, getD_append_left seg _ _ (by omega)])
  have hcond : ¬ (c.data_state = DataState.PADDING_LENGTH ∧ 0 < scan_length c seg.length ∧
      len ≤ frame.getD 9 0 % 256 + 1) := by
    rintro ⟨hs, _, hbad⟩
    have := hvp (hO.inv.st_pl (by simpa using hs)).1
    omega
  obtain ⟨hok, hO2, _⟩ := hokc hcond
  obtain ⟨c1, pos, hrc, _, hL, _, _⟩ := http2_scan_some_spec len padded fuel c seg seg.length
    r2 hr2 hok hseg hfirst hO.inv
  have hsd : r2.c.session_data.hi_scan_calls = c.session_data.hi_scan_calls := by
    rw [hrc]
    simp only [http2_scan_exit]
    rw [hL.frame.session_data, http2_scan_entry_session_data]
  have hhs : r2.c.http_state = c.http_state := by
    rw [hrc]
    simp only [http2_scan_exit]
    rw [hL.frame.http_state, hhs0]
  have hdbr : r2.c.data_bytes_read = c.data_bytes_read + r2.c.cur_data := by
    rw [hrc]
    simp only [http2_scan_exit]
    rw [hL.dbr, hdbr0]
  refine ⟨r2, hr2, hok, hO2, hsd, hhs, hdbr, fun hcd => ?_⟩
  have hcd1 : c1.cur_data ≠ 0 := by rw [hrc] at hcd; exact hcd
  have hnpl1 : c1.data_state ≠ DataState.PADDING_LENGTH := by
    intro h
    have := (hL.still_pl h).1
    rw [this] at hcd1
    exact hcd1 (http2_scan_entry_cur_data c)
  have hnpl2 : r2.c.data_state ≠ DataState.PADDING_LENGTH := by rw [hrc]; exact hnpl1
  have hdle : r2.c.data_bytes_read ≤ r2.c.data_len := hO2.inv.dbr_le
  obtain ⟨hD, hD9⟩ := hO2.data_len_eq hnpl2
  refine ⟨hnpl2, by omega, ?_⟩
  have hacct := hL.acct
  have hple := hL.pos_le
  have hoff := hL.offset
  have e1 : r2.c.cur_data_offset = c1.cur_data_offset := by rw [hrc]; rfl
  have e2 : r2.c.cur_data = c1.cur_data := by rw [hrc]; rfl
  have hkey : (http2_scan_entry c).frame_bytes_seen + pl_consumed (http2_scan_entry c) c1 =
      9 + pad_field padded + c.data_bytes_read := by
    by_cases hs0 : (http2_scan_entry c).data_state = DataState.PADDING_LENGTH
    · obtain ⟨hp, _, _, q1, _, q2⟩ := hO.inv.st_pl hs0
      have hs0c : c.data_state = DataState.PADDING_LENGTH := by simpa using hs0
      have hplc : pl_consumed (http2_scan_entry c) c1 = 1 := by
        simp [pl_consumed, hs0c, hnpl1]
      have hpf : pad_field padded = 1 := by simp [pad_field, hp]
      omega
    · obtain ⟨q1, _, _⟩ := hO.inv.st_npl hs0
      have hs0c : c.data_state ≠ DataState.PADDING_LENGTH := by simpa using hs0
      have hplc : pl_consumed (http2_scan_entry c) c1 = 0 := by
        simp [pl_consumed, hs0c]
      obtain ⟨sl1, _⟩ := hL.same_len hs0
      have hd1 := hL.dbr
      have hdle1 : c1.data_bytes_read ≤ c1.data_len := hL.inv.dbr_le
      have hpr : (http2_scan_entry c).padding_read = 0 := by
        cases hs : (http2_scan_entry c).data_state with
        | PADDING_LENGTH => exact absurd hs hs0
        | DATA => exact hO.inv.st_data hs
        | PADDING =>
          have := (hO.inv.st_padding hs).1
          omega
        | FULL_FRAME =>
          have := (hO.inv.st_full hs).1
          omega
      omega
  rw [e1, e2]
  unfold frame_payload
  have hD1 : c1.data_len = frame_data_len len padded frame := by
    rw [← hD, hrc]; rfl
  rw [← hD1]
  exact piece_eq frame seg X base c1.cur_data_offset c1.cur_data (9 + pad_field padded)
    c1.data_len c.data_bytes_read hdata (by omega) (by omega)
    (by rw [hrc] at hdle hdbr; simp only [http2_scan_exit] at hdle hdbr; omega)

theorem wrapped_calls_bool (D : Nat) (pieces : List (List Nat)) (b : Bool) :
    wrapped_calls D pieces false ++
        (if b = true then [{ kind := FwdKind.TERMINAL, bytes := c_str END_OF_CHUNK }] else []) =
      wrapped_calls D pieces b := by
  cases b <;> simp [wrapped_calls]

/-- One call of the public `scan` on the next bytes of a frame with at least one payload byte,
whatever the downstream answers: the scanner side succeeds without touching the log of
downstream scan calls, `scan` returns what `http_scan` makes of it, and the scanner members
are consistent afterwards. -/
theorem scan_call_any (len : Nat) (padded : Bool) (frame : List Nat)
    (fuel : Nat) (hi : HttpStreamSplitter) (c : Cutter) (seg X : List Nat) (base : Nat)
    (hfuel : 4 ≤ fuel) (hseg : seg.length < 4294967296)
    (hfirst : c.frame_bytes_seen = 0 → 9 ≤ seg.length)
    (hO : OfferInv len padded frame (http2_scan_entry c).frame_bytes_seen (http2_scan_entry c))
    (hvp : padded = true → frame.getD 9 0 % 256 + 1 < len)
    (hdata : frame.drop base = seg ++ X)
    (hbase : base + scan_flush_offset c = (http2_scan_entry c).frame_bytes_seen)
    (hob : (http2_scan_entry c).frame_bytes_seen + scan_length c seg.length < 4294967296) :
    ∃ r2, http2_scan fuel c seg seg.length = some r2 ∧
      r2.c.session_data.hi_scan_calls = c.session_data.hi_scan_calls ∧
      scan fuel hi c seg seg.length = some (http_scan hi r2.c seg r2.flush_offset) ∧
      OfferInv len padded frame
        ((http2_scan_entry c).frame_bytes_seen + scan_length c seg.length)
        (http_scan hi r2.c seg r2.flush_offset).c := by
  obtain ⟨r2, hr2, hok, hO2, hsd, _, _, _⟩ := http2_scan_piece len padded frame fuel c
    seg X base hfuel hseg hfirst hO hvp hdata hbase hob
  exact ⟨r2, hr2, hsd, by simp [scan, hr2, hok],
    OfferInv_of_same hO2 (http_scan_keeps hi r2.c seg r2.flush_offset)⟩

/-- One call of the public `scan` on the next bytes of a frame with at least one payload byte,
when the downstream answers `SEARCH` to the chunk header and the payload subrange that this
call forwards. -/
theorem scan_call_wrap (len : Nat) (padded : Bool) (frame : List Nat) (log0 : List ScanCall)
    (fuel : Nat) (hi : HttpStreamSplitter) (c : Cutter) (seg X : List Nat) (base : Nat)
    (hfuel : 4 ≤ fuel) (hseg : seg.length < 4294967296)
    (hfirst : c.frame_bytes_seen = 0 → 9 ≤ seg.length)
    (hO : OfferInv len padded frame (http2_scan_entry c).frame_bytes_seen (http2_scan_entry c))
    (hW : WrapInv len padded frame log0 c) (hnf : c.data_state ≠ DataState.FULL_FRAME)
    (hvp : padded = true → frame.getD 9 0 % 256 + 1 < len) (hvu : padded = false → 1 ≤ len)
    (hfl : frame.length = 9 + len)
    (hna : ∀ r2, http2_scan fuel c seg seg.length = some r2 → ¬ downstream_abort hi r2.c seg)
    (hdata : frame.drop base = seg ++ X)
    (hbase : base + scan_flush_offset c = (http2_scan_entry c).frame_bytes_seen)
    (hob : (http2_scan_entry c).frame_bytes_seen + scan_length c seg.length < 4294967296) :
    ∃ res, scan fuel hi c seg seg.length = some res ∧
      OfferInv len padded frame
        ((http2_scan_entry c).frame_bytes_seen + scan_length c seg.length) res.c ∧
      WrapInv len padded frame log0 res.c ∧
      (res.c.data_state ≠ DataState.FULL_FRAME → res.status = Status.SEARCH) := by
  obtain ⟨r2, hr2, hok, hO2, hsd, hhs, hdbr, hpiece⟩ := http2_scan_piece len padded frame fuel c
    seg X base hfuel hseg hfirst hO hvp hdata hbase hob
  have hscan : scan fuel hi c seg seg.length = some (http_scan hi r2.c seg r2.flush_offset) := by
    simp [scan, hr2, hok]
  obtain ⟨hlog, hstate, hstatus⟩ := http_scan_log hi r2.c seg r2.flush_offset (hna r2 hr2)
  have hk := http_scan_keeps hi r2.c seg r2.flush_offset
  have hO3 := OfferInv_of_same hO2 hk
  have hDpos : ∀ x : Cutter, OfferInv len padded frame
      ((http2_scan_entry c).frame_bytes_seen + scan_length c seg.length) x →
      x.data_state ≠ DataState.PADDING_LENGTH →
      x.data_len = frame_data_len len padded frame ∧ 1 ≤ frame_data_len len padded frame := by
    intro x hx hs
    refine ⟨(hx.data_len_eq hs).1, ?_⟩
    cases hp : padded with
    | false =>
      have := hvu hp
      simp only [frame_data_len, Bool.false_eq_true, if_false]
      exact this
    | true =>
      have := hvp hp
      simp only [frame_data_len, if_true]
      omega
  have hpl : (frame_payload len padded frame).length = frame_data_len len padded frame := by
    by_cases hs : r2.c.data_state = DataState.PADDING_LENGTH
    · -- nothing is known about the frame beyond its length; use validity
      unfold frame_payload
      rw [List.length_take, List.length_drop]
      cases hp : padded with
      | false =>
        simp only [frame_data_len, pad_field, Bool.false_eq_true, if_false]
        omega
      | true =>
        have := hvp hp
        simp only [frame_data_len, pad_field, if_true]
        omega
    · exact frame_payload_length len padded frame hfl
        (by have := hO2.data_len_eq hs; omega)
  refine ⟨_, hscan, hO3, ⟨fun h0 => ?_, fun hpos => ?_⟩, fun hnf2 => ?_⟩
  · -- nothing forwarded yet
    rw [hk.data_bytes_read, hdbr] at h0
    have hcd : r2.c.cur_data = 0 := by omega
    have hc0 : c.data_bytes_read = 0 := by omega
    obtain ⟨w1, w2⟩ := hW.none_sent hc0
    have hnfull : r2.c.data_state ≠ DataState.FULL_FRAME := by
      intro hf
      have h1 := (hO2.inv.st_full hf).1
      have h2 := hDpos r2.c hO2 (by rw [hf]; simp)
      omega
    have hfh : ¬ forwards_header r2.c := fun h => h.2 hcd
    refine ⟨?_, ?_⟩
    · rw [hstate, hhs]; simp [hcd, w1]
    · rw [hlog, hsd, w2]; simp [hcd, hfh, hnfull]
  · rw [hk.data_bytes_read, hdbr] at hpos
    rw [hk.data_bytes_read, hk.data_len, hk.data_state, hdbr]
    have hnpl2 : r2.c.data_state ≠ DataState.PADDING_LENGTH := by
      intro h
      have := (hO2.inv.st_pl h).2.2.2.1
      omega
    obtain ⟨hD2, _⟩ := hDpos r2.c hO2 hnpl2
    by_cases hcd : r2.c.cur_data = 0
    · have hc0 : 0 < c.data_bytes_read := by omega
      obtain ⟨w1, pieces, w2, w3, w4⟩ := hW.header_sent hc0
      have hnplc : (http2_scan_entry c).data_state ≠ DataState.PADDING_LENGTH := by
        intro h
        have := (hO.inv.st_pl h).2.2.2.1
        rw [(http2_scan_entry_fields c).2.1] at this
        omega
      have hDc : c.data_len = frame_data_len len padded frame := by
        have := (hO.data_len_eq hnplc).1
        simpa using this
      have hfh : ¬ forwards_header r2.c := fun h => h.2 hcd
      refine ⟨?_, pieces, ?_, ?_, w4⟩
      · rw [hstate, hhs]; simp [hcd, w1]
      · rw [hlog, hsd, w2]
        simp only [hcd, hfh, if_false, ne_eq, not_true_eq_false, List.append_nil, hnf,
          decide_False]
        rw [hDc, hD2, List.append_assoc]
        congr 1
        by_cases hf : r2.c.data_state = DataState.FULL_FRAME
        · simp [hf, wrapped_calls]
        · simp [hf, wrapped_calls]
      · rw [hcd, Nat.add_zero]; exact w3
    · obtain ⟨_, hle, hpc⟩ := hpiece hcd
      have hne : ((frame_payload len padded frame).drop c.data_bytes_read).take r2.c.cur_data ≠
          [] := by
        intro h
        have := congrArg List.length h
        simp only [List.length_take, List.length_drop, hpl, List.length_nil] at this
        omega
      by_cases hns : c.http_state = HttpScanState.NONE_SENT
      · have hc0 : c.data_bytes_read = 0 := by
          by_contra h
          have := (hW.header_sent (by omega)).1
          rw [hns] at this
          cases this
        obtain ⟨_, w2⟩ := hW.none_sent hc0
        have hfh : forwards_header r2.c := ⟨by rw [hhs]; exact hns, hcd⟩
        refine ⟨?_, [(seg.drop r2.c.cur_data_offset).take r2.c.cur_data], ?_, ?_, ?_⟩
        · rw [hstate]; simp [hcd]
        · rw [hlog, hsd, w2]
          simp only [hcd, hfh, if_true, ne_eq, not_false_eq_true]
          rw [List.append_assoc, List.append_assoc]
          congr 1
          by_cases hf : r2.c.data_state = DataState.FULL_FRAME
          · simp [hf, wrapped_calls]
          · simp [hf, wrapped_calls]
        · rw [hpc, hc0]
          simp
        · intro p hp
          simp only [List.mem_singleton] at hp
          rw [hp, hpc]
          exact hne
      · have hhsent : c.http_state = HttpScanState.HEADER_SENT := by
          cases h : c.http_state with
          | NONE_SENT => exact absurd h hns
          | HEADER_SENT => rfl
        have hc0 : 0 < c.data_bytes_read := by
          by_contra h
          have := (hW.none_sent (by omega)).1
          rw [hhsent] at this
          cases this
        obtain ⟨w1, pieces, w2, w3, w4⟩ := hW.header_sent hc0
        have hnplc : (http2_scan_entry c).data_state ≠ DataState.PADDING_LENGTH := by
          intro h
          have := (hO.inv.st_pl h).2.2.2.1
          rw [(http2_scan_entry_fields c).2.1] at this
          omega
        have hDc : c.data_len = frame_data_len len padded frame := by
          have := (hO.data_len_eq hnplc).1
          simpa using this
        have hfh : ¬ forwards_header r2.c := by
          rintro ⟨h, _⟩
          rw [hhs, hhsent] at h
          cases h
        refine ⟨?_, pieces ++ [(seg.drop r2.c.cur_data_offset).take r2.c.cur_data], ?_, ?_, ?_⟩
        · rw [hstate]; simp [hcd]
        · rw [hlog, hsd, w2]
          simp only [hcd, hfh, if_true, if_false, ne_eq, not_false_eq_true, List.append_nil, hnf,
            decide_False]
          rw [hDc, hD2, List.append_assoc, List.append_assoc]
          congr 1
          by_cases hf : r2.c.data_state = DataState.FULL_FRAME
          · simp [hf, wrapped_calls]
          · simp [hf, wrapped_calls]
        · rw [List.flatten_append, w3, hpc, List.take_add]
          simp
        · intro p hp
          rcases List.mem_append.mp hp with h | h
          · exact w4 p h
          · simp only [List.mem_singleton] at h
            rw [h, hpc]
            exact hne
  · rw [hk.data_state] at hnf2
    exact hstatus hnf2

theorem final_scan_cutter_cons (c : Cutter) (r : StatusResult) (rs : List StatusResult) :
    final_scan_cutter c (r :: rs) = final_scan_cutter r.c rs := by
  cases rs with
  | nil => rfl
  | cons r1 rs1 =>
    simp only [final_scan_cutter, List.getLast?_cons_cons]
    cases h : (r1 :: rs1).getLast? with
    | none => simp at h
    | some x => rfl

theorem scan_calls_continue (fuel : Nat) (hi : HttpStreamSplitter) (c : Cutter)
    (seg : List Nat) (rest : List (List Nat)) (r : StatusResult) (rs : List StatusResult)
    (h : scan fuel hi c seg seg.length = some r) (hst : r.status ≠ Status.ABORT)
    (hrs : scan_calls fuel hi r.c rest = some rs) :
    scan_calls fuel hi c (seg :: rest) = some (r :: rs) := by
  simp [scan_calls, h, hst, hrs]

theorem scan_calls_single (fuel : Nat) (hi : HttpStreamSplitter) (c : Cutter) (seg : List Nat)
    (r : StatusResult) (h : scan fuel hi c seg seg.length = some r) :
    scan_calls fuel hi c [seg] = some [r] := by
  by_cases hst : r.status = Status.ABORT
  · simp [scan_calls, h, hst]
  · simp [scan_calls, h, hst]

theorem flatten_ne_nil_of_getLast (l : List (List Nat)) (hne : l ≠ [])
    (h : l.getLast? ≠ some []) : l.flatten ≠ [] := by
  intro hf
  have hall : ∀ x ∈ l, x = [] := by
    intro x hx
    exact (List.flatten_eq_nil_iff.mp hf) x hx
  have hmem : l.getLast hne ∈ l := List.getLast_mem hne
  apply h
  rw [List.getLast?_eq_getLast l hne, hall _ hmem]

theorem OfferInv_not_full_before_end {len : Nat} {padded : Bool} {b : List Nat} {o : Nat}
    {c : Cutter} (h : OfferInv len padded b o c) (ho : o < 9 + len) :
    c.data_state ≠ DataState.FULL_FRAME := by
  intro hf
  obtain ⟨h1, h2⟩ := h.inv.st_full hf
  obtain ⟨h3, h4, _⟩ := h.inv.st_npl (by rw [hf]; simp)
  have := h.fbs_le
  omega

theorem OfferInv_full_at_end {len : Nat} {padded : Bool} {b : List Nat} {c : Cutter}
    (h : OfferInv len padded b (9 + len) c) (hlen : 1 ≤ len) :
    c.data_state = DataState.FULL_FRAME := by
  have hdl := h.inv.dbr_le
  cases hs : c.data_state with
  | PADDING_LENGTH =>
    have h1 := h.all_consumed (by simp [hs])
    have h2 := (h.inv.st_pl hs).2.2.2.2.2
    omega
  | DATA =>
    have h1 := h.all_consumed (by simp [hs])
    obtain ⟨h2, h3, _⟩ := h.inv.st_npl (by simp [hs])
    have h4 := h.inv.st_data hs
    rcases h.data_progress hs with h5 | h5 <;> omega
  | PADDING =>
    have h1 := h.all_consumed (by simp [hs])
    obtain ⟨h2, h3, _⟩ := h.inv.st_npl (by simp [hs])
    obtain ⟨h4, h5⟩ := h.inv.st_padding hs
    omega
  | FULL_FRAME => rfl

theorem scan_calls_abort (fuel : Nat) (hi : HttpStreamSplitter) (c : Cutter) (seg : List Nat)
    (rest : List (List Nat)) (r : StatusResult)
    (h : scan fuel hi c seg seg.length = some r) (hst : r.status = Status.ABORT) :
    scan_calls fuel hi c (seg :: rest) = some [r] := by
  simp [scan_calls, h, hst]

/-- A sequence of `scan` calls that continues a frame up to its last byte: the calls return
whatever the downstream answers and only append to the log of downstream scan calls; if every
non-terminal forward they recorded was answered `SEARCH`, every segment was scanned and the
log holds the wrapped payload. -/
theorem scan_calls_wrap (len : Nat) (padded : Bool) (frame : List Nat) (log0 : List ScanCall)
    (fuel : Nat) (hi : HttpStreamSplitter) (hfuel : 4 ≤ fuel) (hlen9 : len + 9 < 4294967296)
    (hvp : padded = true → frame.getD 9 0 % 256 + 1 < len) (hvu : padded = false → 1 ≤ len)
    (hfl : frame.length = 9 + len) :
    ∀ (rest : List (List Nat)) (c : Cutter) (o : Nat),
      OfferInv len padded frame o c →
      c.frame_bytes_seen ≠ 0 → frame.drop o = rest.flatten → o ≤ frame.length →
      rest.getLast? ≠ some [] →
      ∃ rs, scan_calls fuel hi c rest = some rs ∧
        c.session_data.hi_scan_calls <+:
          (final_scan_cutter c rs).session_data.hi_scan_calls ∧
        (WrapInv len padded frame log0 c →
          answers_search hi c.session_data.hi_scan_calls.length
            (final_scan_cutter c rs).session_data.hi_scan_calls →
          rs.length = rest.length ∧
          OfferInv len padded frame frame.length (final_scan_cutter c rs) ∧
          WrapInv len padded frame log0 (final_scan_cutter c rs)) := by
  intro rest
  induction rest with
  | nil =>
    intro c o hO _ hdrop ho _
    have hob : o = frame.length := by
      have := congrArg List.length hdrop
      simp only [List.length_drop, List.flatten_nil, List.length_nil] at this
      omega
    subst hob
    exact ⟨[], rfl, List.prefix_refl _, fun hW _ => ⟨rfl, hO, hW⟩⟩
  | cons seg rest ih =>
    intro c o hO hne hdrop ho hlast
    have hfne : (seg :: rest).flatten ≠ [] :=
      flatten_ne_nil_of_getLast _ (List.cons_ne_nil _ _) hlast
    have holt : o < frame.length := by
      by_contra h
      apply hfne
      rw [← hdrop]
      exact List.drop_eq_nil_of_le (by omega)
    have hnf := OfferInv_not_full_before_end hO (by omega)
    have hfo := hO.all_consumed hnf
    rw [List.flatten_cons] at hdrop
    obtain ⟨hdrop1, ho1⟩ := drop_add_of_drop_eq frame seg rest.flatten o hdrop ho
    have hL : scan_length c seg.length = seg.length := by simp [scan_length, hne]
    have hf0 : scan_flush_offset c = 0 := by simp [scan_flush_offset, hne]
    have he0 : (http2_scan_entry c).frame_bytes_seen = c.frame_bytes_seen := by
      simp [http2_scan_entry, hne]
    have hOe : OfferInv len padded frame (http2_scan_entry c).frame_bytes_seen
        (http2_scan_entry c) := by
      rw [he0, hfo]; exact OfferInv_entry hO hne
    have hbase : o + scan_flush_offset c = (http2_scan_entry c).frame_bytes_seen := by
      rw [hf0, he0, hfo]; rfl
    have hob : (http2_scan_entry c).frame_bytes_seen + scan_length c seg.length <
        4294967296 := by
      rw [he0, hL, hfo]; omega
    obtain ⟨r2, hr2, hsd, hres, hO2⟩ := scan_call_any len padded frame fuel hi c seg
      rest.flatten o hfuel (by omega) (fun h => absurd h hne) hOe hvp hdrop hbase hob
    rw [he0, hL, hfo] at hO2
    have h9 := hO2.inv.bounds.2.2.2
    have hpre : c.session_data.hi_scan_calls <+:
        (http_scan hi r2.c seg r2.flush_offset).c.session_data.hi_scan_calls := by
      rw [← hsd]; exact http_scan_log_prefix hi r2.c seg r2.flush_offset
    have hlast2 : rest.getLast? ≠ some [] := by
      cases hrest : rest with
      | nil => simp
      | cons seg2 rest2 =>
        rw [hrest, List.getLast?_cons_cons] at hlast
        exact hlast
    -- what the call leaves when its forwards were answered with `SEARCH`
    have hcall : answers_search hi c.session_data.hi_scan_calls.length
          (http_scan hi r2.c seg r2.flush_offset).c.session_data.hi_scan_calls →
        WrapInv len padded frame log0 c →
        WrapInv len padded frame log0 (http_scan hi r2.c seg r2.flush_offset).c ∧
        ((http_scan hi r2.c seg r2.flush_offset).c.data_state ≠ DataState.FULL_FRAME →
          (http_scan hi r2.c seg r2.flush_offset).status = Status.SEARCH) := by
      intro hans hW
      have hna : ¬ downstream_abort hi r2.c seg :=
        http_scan_not_abort hi r2.c seg r2.flush_offset (by rw [hsd]; exact hans)
      obtain ⟨res, hres1, _, hW2, hst⟩ := scan_call_wrap len padded frame log0 fuel hi c seg
        rest.flatten o hfuel (by omega) (fun h => absurd h hne) hOe hW hnf hvp hvu hfl
        (by
          intro r hr
          rw [hr2] at hr
          simp only [Option.some.injEq] at hr
          subst hr
          exact hna)
        hdrop hbase hob
      rw [hres] at hres1
      simp only [Option.some.injEq] at hres1
      subst hres1
      exact ⟨hW2, hst⟩
    by_cases hab : (http_scan hi r2.c seg r2.flush_offset).status = Status.ABORT
    · refine ⟨[http_scan hi r2.c seg r2.flush_offset],
        scan_calls_abort fuel hi c seg rest _ hres hab, hpre, fun hW hans => ?_⟩
      have hans1 : answers_search hi c.session_data.hi_scan_calls.length
          (http_scan hi r2.c seg r2.flush_offset).c.session_data.hi_scan_calls := hans
      obtain ⟨hW2, hst⟩ := hcall hans1 hW
      have hfull : (http_scan hi r2.c seg r2.flush_offset).c.data_state =
          DataState.FULL_FRAME := by
        by_contra h
        rw [hst h] at hab
        cases hab
      have hend : ¬ o + seg.length < frame.length := fun h =>
        OfferInv_not_full_before_end hO2 (by omega) hfull
      have hrest : rest = [] := by
        by_contra hr
        have hfne2 : rest.flatten ≠ [] := flatten_ne_nil_of_getLast _ hr hlast2
        apply hfne2
        rw [← hdrop1]
        exact List.drop_eq_nil_of_le (by omega)
      subst hrest
      have hend2 : o + seg.length = frame.length := by omega
      rw [hend2] at hO2
      exact ⟨rfl, hO2, hW2⟩
    · obtain ⟨rs, hrs, hpre2, himp⟩ := ih (http_scan hi r2.c seg r2.flush_offset).c
        (o + seg.length) hO2 (by omega) hdrop1 ho1 hlast2
      refine ⟨http_scan hi r2.c seg r2.flush_offset :: rs,
        scan_calls_continue fuel hi c seg rest _ rs hres hab hrs, ?_, fun hW hans => ?_⟩
      · rw [final_scan_cutter_cons]
        exact List.IsPrefix.trans hpre hpre2
      · rw [final_scan_cutter_cons] at hans ⊢
        obtain ⟨hW2, _⟩ := hcall (answers_search_mono hans (Nat.le_refl _) hpre2) hW
        obtain ⟨k1, k2, k3⟩ := himp hW2 (answers_search_mono hans hpre.length_le
          (List.prefix_refl _))
        exact ⟨by simp [k1], k2, k3⟩

theorem OfferInv_new_entry (s : Http2FlowData) (len : Nat) (padded : Bool) (b : List Nat)
    (hlen : len < 4294967296) :
    OfferInv len padded b 9 (http2_scan_entry (Cutter.new s len padded)) := by
  refine ⟨ScanInv_new_entry s len padded hlen, le_refl _, fun _ => rfl, fun h => ?_,
    fun _ => Or.inr rfl, fun h hp => ?_⟩
  · cases padded <;> simp [Cutter.new] at h
  · subst hp
    simp [Cutter.new] at h

theorem wrapped_calls_bytes (D : Nat) (pieces : List (List Nat)) :
    ((wrapped_calls D pieces true).map (fun call => call.bytes)).flatten =
      c_str (create_chunk_hdr D) ++ pieces.flatten ++ c_str END_OF_CHUNK := by
  simp [wrapped_calls, List.map_map, Function.comp_def]

/-- C2: for every frame with at least one payload byte (constructor length `len` with
`len + 9 < 2 ^ 32`; unpadded with `len >= 1`, or padded with padding-length byte `p` and
`len > p + 1`) and every split of its `9 + len` bytes into `scan` calls whose first segment
holds at least the 9 header bytes and whose last segment is not empty, the sequence of calls
returns, and if the downstream scan answered `SEARCH` to every non-terminal forward made in
these calls, then every segment is scanned, the last call leaves the scanner in `FULL_FRAME`,
and the downstream scan calls made over the whole frame are: the chunk header
`create_chunk_hdr(data_len)` once and first, then non-empty payload pieces whose
concatenation is the payload of the frame, then the terminal marker; their concatenation is
`create_chunk_hdr(data_len) ++ payload ++ "\r\n0\r\n"`. -/
theorem scan_chunk_wrapping (len : Nat) (padded : Bool) (s : Http2FlowData) (frame : List Nat)
    (fuel : Nat) (hi : HttpStreamSplitter) (seg1 : List Nat) (rest : List (List Nat))
    (hfuel : 4 ≤ fuel) (hlen9 : len + 9 < 4294967296) (hfl : frame.length = 9 + len)
    (hvp : padded = true → frame.getD 9 0 % 256 + 1 < len) (hvu : padded = false → 1 ≤ len)
    (hsplit : (seg1 :: rest).flatten = frame) (hfirst : 9 ≤ seg1.length)
    (hlast : (seg1 :: rest).getLast? ≠ some []) :
    ∃ rs, scan_calls fuel hi (Cutter.new s len padded) (seg1 :: rest) = some rs ∧
      (answers_search hi s.hi_scan_calls.length
          (final_scan_cutter (Cutter.new s len padded) rs).session_data.hi_scan_calls →
        ∃ pieces, rs.length = (seg1 :: rest).length ∧
          (final_scan_cutter (Cutter.new s len padded) rs).data_state =
            DataState.FULL_FRAME ∧
          (final_scan_cutter (Cutter.new s len padded) rs).session_data.hi_scan_calls =
            s.hi_scan_calls ++ wrapped_calls (frame_data_len len padded frame) pieces true ∧
          pieces.flatten = frame_payload len padded frame ∧
          (∀ p ∈ pieces, p ≠ []) ∧
          ((wrapped_calls (frame_data_len len padded frame) pieces true).map
              (fun call => call.bytes)).flatten =
            c_str (create_chunk_hdr (frame_data_len len padded frame)) ++
              frame_payload len padded frame ++ c_str END_OF_CHUNK) := by
  have hlen1 : 1 ≤ len := by
    cases hp : padded with
    | false => exact hvu hp
    | true => have := hvp hp; omega
  rw [List.flatten_cons] at hsplit
  have hbl : frame.length = seg1.length + rest.flatten.length := by rw [← hsplit]; simp
  have hL : scan_length (Cutter.new s len padded) seg1.length = seg1.length - 9 := by
    simp only [scan_length, Cutter.new, if_true, FRAME_HEADER_LENGTH]
    exact sub32_eq _ _ hfirst (by omega)
  have hW0 : WrapInv len padded frame s.hi_scan_calls (Cutter.new s len padded) :=
    ⟨fun _ => ⟨rfl, rfl⟩, fun h => by simp [Cutter.new] at h⟩
  have hnf0 : (Cutter.new s len padded).data_state ≠ DataState.FULL_FRAME := by
    cases padded <;> simp [Cutter.new]
  have he0 : (http2_scan_entry (Cutter.new s len padded)).frame_bytes_seen = 9 := rfl
  have hOe : OfferInv len padded frame
      (http2_scan_entry (Cutter.new s len padded)).frame_bytes_seen
      (http2_scan_entry (Cutter.new s len padded)) := by
    rw [he0]; exact OfferInv_new_entry s len padded frame (by omega)
  have hdata : frame.drop 0 = seg1 ++ rest.flatten := by
    rw [List.drop_zero]; exact hsplit.symm
  have hbase : 0 + scan_flush_offset (Cutter.new s len padded) =
      (http2_scan_entry (Cutter.new s len padded)).frame_bytes_seen := by
    rw [he0]; rfl
  have hob : (http2_scan_entry (Cutter.new s len padded)).frame_bytes_seen +
      scan_length (Cutter.new s len padded) seg1.length < 4294967296 := by
    rw [he0, hL]; omega
  obtain ⟨r2, hr2, hsd, hres, hO2⟩ := scan_call_any len padded frame fuel hi
    (Cutter.new s len padded) seg1 rest.flatten 0 hfuel (by omega) (fun _ => hfirst) hOe hvp
    hdata hbase hob
  rw [he0, hL] at hO2
  have ho : 9 + (seg1.length - 9) = seg1.length := by omega
  rw [ho] at hO2
  have h9 := hO2.inv.bounds.2.2.2
  have hsd0 : r2.c.session_data.hi_scan_calls = s.hi_scan_calls := hsd
  have hpre : s.hi_scan_calls <+:
      (http_scan hi r2.c seg1 r2.flush_offset).c.session_data.hi_scan_calls := by
    rw [← hsd0]; exact http_scan_log_prefix hi r2.c seg1 r2.flush_offset
  have hlast2 : rest.getLast? ≠ some [] := by
    cases hrest : rest with
    | nil => simp
    | cons seg2 rest2 =>
      rw [hrest, List.getLast?_cons_cons] at hlast
      exact hlast
  have hcall : answers_search hi s.hi_scan_calls.length
        (http_scan hi r2.c seg1 r2.flush_offset).c.session_data.hi_scan_calls →
      WrapInv len padded frame s.hi_scan_calls (http_scan hi r2.c seg1 r2.flush_offset).c ∧
      ((http_scan hi r2.c seg1 r2.flush_offset).c.data_state ≠ DataState.FULL_FRAME →
        (http_scan hi r2.c seg1 r2.flush_offset).status = Status.SEARCH) := by
    intro hans
    have hna : ¬ downstream_abort hi r2.c seg1 :=
      http_scan_not_abort hi r2.c seg1 r2.flush_offset (by rw [hsd0]; exact hans)
    obtain ⟨res, hres1, _, hW2, hst⟩ := scan_call_wrap len padded frame s.hi_scan_calls fuel
      hi (Cutter.new s len padded) seg1 rest.flatten 0 hfuel (by omega) (fun _ => hfirst) hOe
      hW0 hnf0 hvp hvu hfl
      (by
        intro r hr
        rw [hr2] at hr
        simp only [Option.some.injEq] at hr
        subst hr
        exact hna)
      hdata hbase hob
    rw [hres] at hres1
    simp only [Option.some.injEq] at hres1
    subst hres1
    exact ⟨hW2, hst⟩
  have hfinish : ∀ rs, rs.length = (seg1 :: rest).length →
      OfferInv len padded frame frame.length (final_scan_cutter (Cutter.new s len padded) rs) →
      WrapInv len padded frame s.hi_scan_calls
        (final_scan_cutter (Cutter.new s len padded) rs) →
      ∃ pieces, rs.length = (seg1 :: rest).length ∧
        (final_scan_cutter (Cutter.new s len padded) rs).data_state = DataState.FULL_FRAME ∧
        (final_scan_cutter (Cutter.new s len padded) rs).session_data.hi_scan_calls =
          s.hi_scan_calls ++ wrapped_calls (frame_data_len len padded frame) pieces true ∧
        pieces.flatten = frame_payload len padded frame ∧
        (∀ p ∈ pieces, p ≠ []) ∧
        ((wrapped_calls (frame_data_len len padded frame) pieces true).map
            (fun call => call.bytes)).flatten =
          c_str (create_chunk_hdr (frame_data_len len padded frame)) ++
            frame_payload len padded frame ++ c_str END_OF_CHUNK := by
    intro rs hlen hOf hWf
    rw [hfl] at hOf
    have hfull := OfferInv_full_at_end hOf hlen1
    obtain ⟨hD, hD9⟩ := hOf.data_len_eq (by rw [hfull]; simp)
    have hdbr := (hOf.inv.st_full hfull).1
    have hDpos : 1 ≤ frame_data_len len padded frame := by
      cases hp : padded with
      | false =>
        have := hvu hp
        simp only [frame_data_len, Bool.false_eq_true, if_false]
        exact this
      | true =>
        have := hvp hp
        simp only [frame_data_len, if_true]
        omega
    obtain ⟨_, pieces, w2, w3, w4⟩ := hWf.header_sent (by omega)
    have hpl := frame_payload_length len padded frame hfl (by omega)
    have hflat : pieces.flatten = frame_payload len padded frame := by
      rw [w3, hdbr, hD]
      exact List.take_of_length_le (by omega)
    refine ⟨pieces, hlen, hfull, ?_, hflat, w4, ?_⟩
    · rw [w2, hD]
      simp [hfull]
    · rw [wrapped_calls_bytes, hflat]
  by_cases hab : (http_scan hi r2.c seg1 r2.flush_offset).status = Status.ABORT
  · refine ⟨[http_scan hi r2.c seg1 r2.flush_offset],
      scan_calls_abort fuel hi _ seg1 rest _ hres hab, fun hans => ?_⟩
    have hans1 : answers_search hi s.hi_scan_calls.length
        (http_scan hi r2.c seg1 r2.flush_offset).c.session_data.hi_scan_calls := hans
    obtain ⟨hW2, hst⟩ := hcall hans1
    have hfull : (http_scan hi r2.c seg1 r2.flush_offset).c.data_state =
        DataState.FULL_FRAME := by
      by_contra h
      rw [hst h] at hab
      cases hab
    have hend : ¬ seg1.length < frame.length := fun h =>
      OfferInv_not_full_before_end hO2 (by omega) hfull
    have hrest : rest = [] := by
      by_contra hr
      have hfne2 : rest.flatten ≠ [] := flatten_ne_nil_of_getLast _ hr hlast2
      have : 0 < rest.flatten.length := List.length_pos.mpr hfne2
      omega
    subst hrest
    have hend2 : seg1.length = frame.length := by simp at hbl; omega
    rw [hend2] at hO2
    exact hfinish [http_scan hi r2.c seg1 r2.flush_offset] rfl hO2 hW2
  · obtain ⟨rs, hrs, hpre2, himp⟩ := scan_calls_wrap len padded frame s.hi_scan_calls fuel hi
      hfuel hlen9 hvp hvu hfl rest (http_scan hi r2.c seg1 r2.flush_offset).c seg1.length hO2
      (by omega) (by rw [← hsplit, List.drop_left]) (by omega) hlast2
    refine ⟨http_scan hi r2.c seg1 r2.flush_offset :: rs,
      scan_calls_continue fuel hi _ seg1 rest _ rs hres hab hrs, fun hans => ?_⟩
    rw [final_scan_cutter_cons] at hans
    obtain ⟨hW2, _⟩ := hcall (answers_search_mono hans (Nat.le_refl _) hpre2)
    obtain ⟨k1, k2, k3⟩ := himp hW2 (answers_search_mono hans hpre.length_le
      (List.prefix_refl _))
    exact hfinish (http_scan hi r2.c seg1 r2.flush_offset :: rs) (by simp [k1])
      (by rw [final_scan_cutter_cons]; exact k2) (by rw [final_scan_cutter_cons]; exact k3)

/-- Worked instance of C2: a padded frame of constructor length 6 with padding-length byte 2
and payload `[65, 66, 67]`, scanned in segments of 11 and 4 bytes, with a downstream that
decides by the bytes it receives alone (`FLUSH` on `"\r\n0\r\n"`, `SEARCH` otherwise). -/
theorem scan_chunk_wrapping_witness :
    ∃ rs pieces, scan_calls 4 hi_by_bytes (Cutter.new {} 6 true)
        [header9 ++ [2, 65], [66, 67, 0, 0]] = some rs ∧
      answers_search hi_by_bytes 0
        (final_scan_cutter (Cutter.new {} 6 true) rs).session_data.hi_scan_calls ∧
      (final_scan_cutter (Cutter.new {} 6 true) rs).session_data.hi_scan_calls =
        wrapped_calls 3 pieces true ∧
      pieces.flatten = [65, 66, 67] := by
  obtain ⟨rs, hrs, himp⟩ := scan_chunk_wrapping 6 true {} (header9 ++ [2, 65, 66, 67, 0, 0]) 4
    hi_by_bytes (header9 ++ [2, 65]) [[66, 67, 0, 0]] (by decide) (by decide) (by decide)
    (fun _ => by decide) (fun h => by cases h) (by decide) (by decide) (by decide)
  have hev : (scan_calls 4 hi_by_bytes (Cutter.new {} 6 true)
      [header9 ++ [2, 65], [66, 67, 0, 0]]).map
        (fun rs => (final_scan_cutter (Cutter.new {} 6 true) rs).session_data.hi_scan_calls) =
      some [{ kind := FwdKind.CHUNK_HDR, bytes := [51, 13, 10] },
        { kind := FwdKind.PAYLOAD, bytes := [65] },
        { kind := FwdKind.PAYLOAD, bytes := [66, 67] },
        { kind := FwdKind.TERMINAL, bytes := [13, 10, 48, 13, 10] }] := by decide
  rw [hrs] at hev
  simp only [Option.map_some', Option.some.injEq] at hev
  have hans : answers_search hi_by_bytes 0
      (final_scan_cutter (Cutter.new {} 6 true) rs).session_data.hi_scan_calls := by
    intro pre call hk _ hpre
    rw [hev] at hpre
    have hmem : call ∈ [({ kind := FwdKind.CHUNK_HDR, bytes := [51, 13, 10] } : ScanCall),
        { kind := FwdKind.PAYLOAD, bytes := [65] },
        { kind := FwdKind.PAYLOAD, bytes := [66, 67] },
        { kind := FwdKind.TERMINAL, bytes := [13, 10, 48, 13, 10] }] :=
      hpre.subset (by simp)
    have hb : call.bytes ≠ c_str END_OF_CHUNK := by
      simp only [List.mem_cons, List.mem_singleton, List.not_mem_nil, or_false] at hmem
      rcases hmem with h | h | h | h
      · rw [h]; decide
      · rw [h]; decide
      · rw [h]; decide
      · rw [h] at hk; exact absurd rfl hk
    simp [hi_by_bytes, hb]
  obtain ⟨pieces, _, _, h4, h5, _, _⟩ := himp hans
  refine ⟨rs, pieces, hrs, hans, ?_, ?_⟩
  · rw [h4]
    have : frame_data_len 6 true (header9 ++ [2, 65, 66, 67, 0, 0]) = 3 := by decide
    rw [this]
    rfl
  · rw [h5]
    decide

/-! ## The reassembler on a padded frame without padding -/

/-- In `SEND_CRLF` the loop body of `reassemble` changes nothing. -/
theorem reassemble_body_SEND_CRLF (hi : HttpStreamSplitter) (data : List Nat) (len : Nat)
    (l : ReassembleLoop) (h : l.c.reassemble_state = ReassembleState.SEND_CRLF) :
    reassemble_body hi data len l = l := by
  simp only [reassemble_body, h]

/-- A loop of `reassemble` that is in `SEND_CRLF` with input left never ends. -/
theorem reassemble_loop_stuck (hi : HttpStreamSplitter) (data : List Nat) (len : Nat)
    (l : ReassembleLoop) (h : l.c.reassemble_state = ReassembleState.SEND_CRLF)
    (hpos : l.cur_pos < len) : ∀ fuel, reassemble_loop hi data len fuel l = none := by
  intro fuel
  induction fuel with
  | zero => rfl
  | succ n ih =>
    rw [reassemble_loop, if_pos hpos, reassemble_body_SEND_CRLF hi data len l h]
    exact ih

/-- C1 fails on a padded frame whose padding-length byte is 0 (constructor length 3, payload
`[65, 66]`, accepted by the scanner with `data_len = 2`): in one contiguous `reassemble`
call on the 12 bytes of the frame, after the header the loop goes to `SEND_CHUNK_HDR` instead
of `SKIP_PADDING_LEN`, hands `"2\r\n"` and then `[0, 65]` (the padding-length byte and the
first payload byte) to the downstream reassemble, reaches `SEND_CRLF` with `cur_pos = 11 < 12`,
and then never leaves the loop, whatever the iteration budget. -/
theorem reassemble_pad0_diverges :
    (cutter_after_scan hi_chunked 3 true frame_pad0).data_len = 2 ∧
    (cutter_after_scan hi_chunked 3 true frame_pad0).padding_len = 0 ∧
    (cutter_after_scan hi_chunked 3 true frame_pad0).data_state = DataState.FULL_FRAME ∧
    (cutter_after_scan hi_chunked 3 true frame_pad0).reassemble_state =
      ReassembleState.SKIP_FRAME_HDR ∧
    ((reassemble_body hi_chunked frame_pad0 12
        (reassemble_body hi_chunked frame_pad0 12
          { c := { cutter_after_scan hi_chunked 3 true frame_pad0 with
                   padding_read := 0, data_bytes_read := 0, hdr_bytes_read := 0,
                   cur_data := 0, cur_padding := 0, cur_data_offset := 0 }
            cur_pos := 0
            frame_buf := { data := none, length := 0 } })).c.session_data.hi_reassemble_calls.map
      (fun call => call.bytes)) = [[50, 13, 10], [0, 65]] ∧
    ∀ fuel, reassemble fuel hi_chunked (cutter_after_scan hi_chunked 3 true frame_pad0) 12 0
      frame_pad0 12 = none := by
  refine ⟨by decide, by decide, by decide, by decide, by decide, ?_⟩
  intro fuel
  have hstuck := reassemble_loop_stuck hi_chunked frame_pad0 12
    (reassemble_body hi_chunked frame_pad0 12
      (reassemble_body hi_chunked frame_pad0 12
        { c := { cutter_after_scan hi_chunked 3 true frame_pad0 with
                 padding_read := 0, data_bytes_read := 0, hdr_bytes_read := 0,
                 cur_data := 0, cur_padding := 0, cur_data_offset := 0 }
          cur_pos := 0
          frame_buf := { data := none, length := 0 } }))
    (by decide) (by decide)
  have hloop : reassemble_loop hi_chunked frame_pad0 12 fuel
      { c := { cutter_after_scan hi_chunked 3 true frame_pad0 with
               padding_read := 0, data_bytes_read := 0, hdr_bytes_read := 0,
               cur_data := 0, cur_padding := 0, cur_data_offset := 0 }
        cur_pos := 0
        frame_buf := { data := none, length := 0 } } = none := by
    cases fuel with
    | zero => rfl
    | succ n =>
      rw [reassemble_loop, if_pos (by decide)]
      cases n with
      | zero => rfl
      | succ m =>
        rw [reassemble_loop, if_pos (by decide)]
        exact hstuck m
  simp only [reassemble, if_true]
  rw [hloop]

/-! ## The remaining-octets counter -/

/-- C11 fails on a partial call: for an unpadded frame of constructor length 20 (29 bytes
with the header), a first `scan` call on the first 14 bytes returns `SEARCH` and leaves
`scan_remaining_frame_octets = 6` although 15 bytes of the frame are still to come, and a first
call on the first 24 bytes leaves the counter at `4294967292` (`20 - 24` wrapped) although 5
bytes are still to come: `frame_length` does not include the header while `frame_bytes_seen`
does. On the whole frame the counter is reset to 0 with `scan_octets_seen`. -/
theorem scan_remaining_frame_octets_off_by_header :
    (scan 4 hi_chunked (Cutter.new {} 20 false) (frame_plain20.take 14) 14).map
        (fun r => (r.status, r.c.data_state, r.c.frame_length, r.c.frame_bytes_seen,
          r.c.session_data.scan_remaining_frame_octets, frame_octets_left 20 r.c)) =
      some (Status.SEARCH, DataState.DATA, 20, 14, 6, 15) ∧
    (scan 4 hi_chunked (Cutter.new {} 20 false) (frame_plain20.take 24) 24).map
        (fun r => (r.status, r.c.data_state, r.c.frame_length, r.c.frame_bytes_seen,
          r.c.session_data.scan_remaining_frame_octets, frame_octets_left 20 r.c)) =
      some (Status.SEARCH, DataState.DATA, 20, 24, 4294967292, 5) ∧
    (scan 4 hi_chunked (Cutter.new {} 20 false) frame_plain20 29).map
        (fun r => (r.status, r.c.data_state, r.c.session_data.scan_remaining_frame_octets,
          r.c.session_data.scan_octets_seen, frame_octets_left 20 r.c)) =
      some (Status.FLUSH, DataState.FULL_FRAME, 0, 0, 0) := by
  refine ⟨by decide, by decide, by decide⟩

/-! ## Loops of `reassemble` that never end -/

theorem reassemble_loop_step (hi : HttpStreamSplitter) (data : List Nat) (len fuel : Nat)
    (l : ReassembleLoop) (hpos : l.cur_pos < len) :
    reassemble_loop hi data len (fuel + 1) l =
      reassemble_loop hi data len fuel (reassemble_body hi data len l) := by
  rw [reassemble_loop, if_pos hpos]

theorem reassemble_loop_exit (hi : HttpStreamSplitter) (data : List Nat) (len fuel : Nat)
    (l : ReassembleLoop) (hpos : ¬ l.cur_pos < len) :
    reassemble_loop hi data len (fuel + 1) l = some l := by
  rw [reassemble_loop, if_neg hpos]

/-- A loop of `reassemble` that after `k` iterations is in `SEND_CRLF` with input left never
ends. -/
theorem reassemble_loop_stuck_after (hi : HttpStreamSplitter) (data : List Nat) (len : Nat) :
    ∀ (k : Nat) (l : ReassembleLoop),
      (∀ j, j ≤ k → ((reassemble_body hi data len)^[j] l).cur_pos < len) →
      ((reassemble_body hi data len)^[k] l).c.reassemble_state = ReassembleState.SEND_CRLF →
      ∀ fuel, reassemble_loop hi data len fuel l = none := by
  intro k
  induction k with
  | zero =>
    intro l hpos hst
    exact reassemble_loop_stuck hi data len l hst (hpos 0 (Nat.le_refl 0))
  | succ k ih =>
    intro l hpos hst fuel
    cases fuel with
    | zero => rfl
    | succ n =>
      rw [reassemble_loop_step hi data len n l (hpos 0 (Nat.zero_le _))]
      refine ih (reassemble_body hi data len l) (fun j hj => ?_) ?_ n
      · have := hpos (j + 1) (by omega)
        rwa [Function.iterate_succ_apply] at this
      · rwa [Function.iterate_succ_apply] at hst

/-- The function `reassemble` runs its loop from `reassemble_start`. -/
theorem reassemble_none (fuel : Nat) (hi : HttpStreamSplitter) (c : Cutter)
    (total offset : Nat) (data : List Nat) (len : Nat)
    (h : reassemble_loop hi data len fuel (reassemble_start c offset) = none) :
    reassemble fuel hi c total offset data len = none := by
  unfold reassemble
  unfold reassemble_start at h
  simp only [h]

/-! ## The reassembler on padded frames whose padding-length byte is 0 -/

/-- C12 fails on a padded frame whose padding-length byte is 0 (constructor length 4, payload
`[70, 71, 72]`, brought to `FULL_FRAME` by the scanner with `data_len = 3`), reassembled in two
calls with `total = 13`: the call at offset 0 on the 9 header bytes returns in
`SEND_CHUNK_HDR`; the call at offset 9 on the remaining 4 bytes reaches, after one iteration,
`SEND_CRLF` with `cur_pos = 3 < 4`, where an iteration changes neither `cur_pos` nor
`reassemble_state`, and it returns for no iteration budget. -/
theorem reassemble_pad0_second_call_never_ends :
    (scan 4 hi_chunked (Cutter.new {} 4 true) frame_pad0_three 13).map
        (fun r => (r.status, r.c.data_state, r.c.data_len, r.c.padding_len)) =
      some (Status.FLUSH, DataState.FULL_FRAME, 3, 0) ∧
    (reassemble 2 hi_chunked (cutter_after_scan hi_chunked 4 true frame_pad0_three) 13 0
        header9 9).map (fun r => r.2.reassemble_state) =
      some ReassembleState.SEND_CHUNK_HDR ∧
    (reassemble_body hi_chunked [0, 70, 71, 72] 4
        (reassemble_start
          (cutter_after_reassemble 2 hi_chunked
            (cutter_after_scan hi_chunked 4 true frame_pad0_three) 13 0 header9 9) 9)).cur_pos
      = 3 ∧
    (reassemble_body hi_chunked [0, 70, 71, 72] 4
        (reassemble_start
          (cutter_after_reassemble 2 hi_chunked
            (cutter_after_scan hi_chunked 4 true frame_pad0_three) 13 0 header9 9)
          9)).c.reassemble_state
      = ReassembleState.SEND_CRLF ∧
    reassemble_body hi_chunked [0, 70, 71, 72] 4
        (reassemble_body hi_chunked [0, 70, 71, 72] 4
          (reassemble_start
            (cutter_after_reassemble 2 hi_chunked
              (cutter_after_scan hi_chunked 4 true frame_pad0_three) 13 0 header9 9) 9)) =
      reassemble_body hi_chunked [0, 70, 71, 72] 4
        (reassemble_start
          (cutter_after_reassemble 2 hi_chunked
            (cutter_after_scan hi_chunked 4 true frame_pad0_three) 13 0 header9 9) 9) ∧
    ∀ fuel, reassemble fuel hi_chunked
        (cutter_after_reassemble 2 hi_chunked
          (cutter_after_scan hi_chunked 4 true frame_pad0_three) 13 0 header9 9)
        13 9 [0, 70, 71, 72] 4 = none := by
  refine ⟨by decide, by decide, by decide, by decide,
    reassemble_body_SEND_CRLF _ _ _ _ (by decide), fun fuel => ?_⟩
  apply reassemble_none
  refine reassemble_loop_stuck_after hi_chunked [0, 70, 71, 72] 4 1 _ (fun j hj => ?_)
    (by decide) fuel
  interval_cases j <;> decide

/-- C13 fails on a padded frame whose padding-length byte is 0 (constructor length 4, built
with the padded flag set, accepted by the scanner): in a `reassemble` call at offset 0 on the
header and the padding-length byte, the iteration that completes the header in
`SKIP_FRAME_HDR` goes to `SEND_CHUNK_HDR`, not to `SKIP_PADDING_LEN`, and the call hands the
padding-length byte `[0]` to the downstream reassemble as payload after the chunk header
`"3\r\n"`. -/
theorem reassemble_pad0_forwards_padding_length_byte :
    (Cutter.new {} 4 true).data_state = DataState.PADDING_LENGTH ∧
    (scan 4 hi_chunked (Cutter.new {} 4 true) frame_pad0_three 13).map
        (fun r => (r.status, r.c.padding_len, r.c.reassemble_state)) =
      some (Status.FLUSH, 0, ReassembleState.SKIP_FRAME_HDR) ∧
    (reassemble_body hi_chunked (header9 ++ [0]) 10
        (reassemble_start (cutter_after_scan hi_chunked 4 true frame_pad0_three) 0)).cur_pos
      = 9 ∧
    (reassemble_body hi_chunked (header9 ++ [0]) 10
        (reassemble_start (cutter_after_scan hi_chunked 4 true frame_pad0_three)
          0)).c.reassemble_state
      = ReassembleState.SEND_CHUNK_HDR ∧
    (reassemble 3 hi_chunked (cutter_after_scan hi_chunked 4 true frame_pad0_three) 13 0
        (header9 ++ [0]) 10).map
        (fun r => r.2.session_data.hi_reassemble_calls.map (fun call => (call.kind, call.bytes)))
      = some [(FwdKind.CHUNK_HDR, [51, 13, 10]), (FwdKind.PAYLOAD, [0])] := by
  refine ⟨by decide, by decide, by decide, by decide, by decide⟩

/-- C14 fails on a padded frame whose padding-length byte is 0 (`frame_pad0`, constructor
length 3, brought to `FULL_FRAME` by the scanner), reassembled in two calls with `total = 12`:
the call at offset 0 on the first 11 bytes ends in `SEND_CRLF` and emits the terminal marker
although `len + offset = 11` is not `total`, and the final call, at offset 11 on the last
byte, starts in `SEND_CRLF` with input left and returns for no iteration budget, so the frame
never sees a call with `len + offset == total` end. -/
theorem reassemble_pad0_terminal_before_final_call :
    (scan 4 hi_chunked (Cutter.new {} 3 true) frame_pad0 12).map
        (fun r => (r.status, r.c.data_state)) = some (Status.FLUSH, DataState.FULL_FRAME) ∧
    add32 11 0 ≠ 12 ∧
    (reassemble 3 hi_chunked (cutter_after_scan hi_chunked 3 true frame_pad0) 12 0
        (frame_pad0.take 11) 11).map
        (fun r => (r.2.reassemble_state,
          r.2.session_data.hi_reassemble_calls.map (fun call => (call.kind, call.bytes)))) =
      some (ReassembleState.SEND_CRLF,
        [(FwdKind.CHUNK_HDR, [50, 13, 10]), (FwdKind.PAYLOAD, [0, 65]),
          (FwdKind.TERMINAL, [13, 10, 48, 13, 10])]) ∧
    add32 1 11 = 12 ∧
    ∀ fuel, reassemble fuel hi_chunked
        (cutter_after_reassemble 3 hi_chunked (cutter_after_scan hi_chunked 3 true frame_pad0)
          12 0 (frame_pad0.take 11) 11)
        12 11 [66] 1 = none := by
  refine ⟨by decide, by decide, by decide, by decide, fun fuel => ?_⟩
  apply reassemble_none
  exact reassemble_loop_stuck hi_chunked [66] 1 _ (by decide) (by decide) fuel

/-- C16 fails on a padded frame whose padding-length byte is 0 (constructor length 5, payload
`[80, 81, 82, 83]`): the public `scan` brings it to `FULL_FRAME` from a fresh context with
`data_len = 4`, returns `FLUSH` and leaves `bytes_sent_http = 12`, which is
`length(create_chunk_hdr(4)) + 4 + 5`; one contiguous `reassemble` call on the 14 bytes hands
only `"4\r\n"` and `[0, 80, 81, 82]`, 7 bytes, to the downstream reassemble, each with
`total = 12`, and then stays in `SEND_CRLF` with `cur_pos = 13 < 14`: it returns for no
iteration budget and the terminal marker is never emitted. -/
theorem reassemble_pad0_emits_less_than_total :
    (scan 4 hi_chunked (Cutter.new {} 5 true) frame_pad0_four 14).map
        (fun r => (r.status, r.c.data_state, r.c.data_len, r.c.bytes_sent_http)) =
      some (Status.FLUSH, DataState.FULL_FRAME, 4, (create_chunk_hdr 4).length + 4 + 5) ∧
    ((reassemble_body hi_chunked frame_pad0_four 14)^[2]
        (reassemble_start (cutter_after_scan hi_chunked 5 true frame_pad0_four)
          0)).c.session_data.hi_reassemble_calls =
      [{ kind := FwdKind.CHUNK_HDR, total := 12, offset := 0, bytes := [52, 13, 10],
         flags := 0 },
       { kind := FwdKind.PAYLOAD, total := 12, offset := 0, bytes := [0, 80, 81, 82],
         flags := 0 }] ∧
    ((reassemble_body hi_chunked frame_pad0_four 14)^[2]
        (reassemble_start (cutter_after_scan hi_chunked 5 true frame_pad0_four) 0)).cur_pos =
      13 ∧
    ((reassemble_body hi_chunked frame_pad0_four 14)^[2]
        (reassemble_start (cutter_after_scan hi_chunked 5 true frame_pad0_four)
          0)).c.reassemble_state = ReassembleState.SEND_CRLF ∧
    ∀ fuel, reassemble fuel hi_chunked (cutter_after_scan hi_chunked 5 true frame_pad0_four)
        14 0 frame_pad0_four 14 = none := by
  refine ⟨by decide, by decide, by decide, by decide, fun fuel => ?_⟩
  apply reassemble_none
  refine reassemble_loop_stuck_after hi_chunked frame_pad0_four 14 2 _ (fun j hj => ?_)
    (by decide) fuel
  interval_cases j <;> decide

/-! ## Offsets of the downstream reassemble calls -/

theorem EmitsAtZero_refl (c : Cutter) : EmitsAtZero c c :=
  ⟨rfl, [], by simp, by simp⟩

theorem EmitsAtZero_trans {c0 c1 c2 : Cutter} (h1 : EmitsAtZero c0 c1)
    (h2 : EmitsAtZero c1 c2) : EmitsAtZero c0 c2 := by
  obtain ⟨e1, calls1, hl1, hc1⟩ := h1
  obtain ⟨e2, calls2, hl2, hc2⟩ := h2
  refine ⟨e2.trans e1, calls1 ++ calls2, by rw [hl2, hl1, List.append_assoc], ?_⟩
  intro call hmem
  rcases List.mem_append.mp hmem with h | h
  · exact hc1 call h
  · rw [← e1]; exact hc2 call h

/-- A cutter that differs from `c` in neither `bytes_sent_http` nor the log of downstream
reassemble calls. -/
theorem EmitsAtZero_of_eq {c0 c c1 : Cutter} (h : EmitsAtZero c0 c)
    (e1 : c1.bytes_sent_http = c.bytes_sent_http)
    (e2 : c1.session_data.hi_reassemble_calls = c.session_data.hi_reassemble_calls) :
    EmitsAtZero c0 c1 := by
  obtain ⟨e, calls, hl, hc⟩ := h
  exact ⟨e1.trans e, calls, e2.trans hl, hc⟩

/-- One downstream reassemble call issued with `total = bytes_sent_http` and `offset = 0`. -/
theorem EmitsAtZero_hi_reassemble (hi : HttpStreamSplitter) (c : Cutter) (kind : FwdKind)
    (bytes : List Nat) (flags : Nat) :
    EmitsAtZero c (hi_reassemble hi c kind c.bytes_sent_http 0 bytes flags).2 := by
  refine ⟨rfl, [{ kind := kind, total := c.bytes_sent_http, offset := 0, bytes := bytes,
                  flags := flags }], rfl, ?_⟩
  intro call hmem
  rw [List.mem_singleton] at hmem
  subst hmem
  exact ⟨rfl, rfl⟩

/-- The block `case SEND_DATA:` leaves `bytes_sent_http` alone and adds one payload call,
issued with `total = bytes_sent_http` and `offset = 0`, to the log. -/
theorem reassemble_send_data_log (hi : HttpStreamSplitter) (data : List Nat) (len : Nat)
    (l : ReassembleLoop) :
    (reassemble_send_data hi data len l).c.bytes_sent_http = l.c.bytes_sent_http ∧
    ∃ bytes, (reassemble_send_data hi data len l).c.session_data.hi_reassemble_calls =
      l.c.session_data.hi_reassemble_calls ++
        [{ kind := FwdKind.PAYLOAD, total := l.c.bytes_sent_http, offset := 0, bytes := bytes,
           flags := 0 }] := by
  unfold reassemble_send_data
  simp only
  split_ifs
  all_goals exact ⟨rfl, _, rfl⟩

theorem EmitsAtZero_send_data (hi : HttpStreamSplitter) (data : List Nat) (len : Nat)
    (l : ReassembleLoop) : EmitsAtZero l.c (reassemble_send_data hi data len l).c := by
  obtain ⟨e, bytes, hl⟩ := reassemble_send_data_log hi data len l
  refine ⟨e, _, hl, ?_⟩
  intro call hmem
  rw [List.mem_singleton] at hmem
  subst hmem
  exact ⟨rfl, rfl⟩
theorem reassemble_body_emits (hi : HttpStreamSplitter) (data : List Nat) (len : Nat)
    (l : ReassembleLoop) : EmitsAtZero l.c (reassemble_body hi data len l).c := by
  cases hst : l.c.reassemble_state with
  | SKIP_FRAME_HDR =>
    refine EmitsAtZero_of_eq (EmitsAtZero_refl l.c) ?_ ?_
    · simp only [reassemble_body, hst]
      split_ifs <;> rfl
    · simp only [reassemble_body, hst]
      split_ifs <;> rfl
  | SKIP_PADDING_LEN =>
    refine EmitsAtZero_of_eq (EmitsAtZero_refl l.c) ?_ ?_
    · simp only [reassemble_body, hst]
    · simp only [reassemble_body, hst]
  | SEND_CHUNK_HDR =>
    simp only [reassemble_body, hst]
    refine EmitsAtZero_trans ?_ (EmitsAtZero_send_data hi data len _)
    exact EmitsAtZero_of_eq
      (EmitsAtZero_hi_reassemble hi l.c FwdKind.CHUNK_HDR (c_str (create_chunk_hdr l.c.data_len))
        0) rfl rfl
  | SEND_DATA =>
    simp only [reassemble_body, hst]
    exact EmitsAtZero_send_data hi data len l
  | SKIP_PADDING =>
    refine EmitsAtZero_of_eq (EmitsAtZero_refl l.c) ?_ ?_
    · simp only [reassemble_body, hst]
      split_ifs <;> rfl
    · simp only [reassemble_body, hst]
      split_ifs <;> rfl
  | SEND_CRLF =>
    rw [reassemble_body_SEND_CRLF hi data len l hst]
    exact EmitsAtZero_refl l.c

theorem reassemble_iterate_emits (hi : HttpStreamSplitter) (data : List Nat) (len : Nat) :
    ∀ (n : Nat) (l : ReassembleLoop),
      EmitsAtZero l.c ((reassemble_body hi data len)^[n] l).c := by
  intro n
  induction n with
  | zero => intro l; exact EmitsAtZero_refl l.c
  | succ n ih =>
    intro l
    rw [Function.iterate_succ_apply]
    exact EmitsAtZero_trans (reassemble_body_emits hi data len l) (ih _)

theorem reassemble_loop_emits (hi : HttpStreamSplitter) (data : List Nat) (len : Nat) :
    ∀ (fuel : Nat) (l l1 : ReassembleLoop),
      reassemble_loop hi data len fuel l = some l1 → EmitsAtZero l.c l1.c := by
  intro fuel
  induction fuel with
  | zero => intro l l1 h; simp [reassemble_loop] at h
  | succ n ih =>
    intro l l1 h
    by_cases hpos : l.cur_pos < len
    · rw [reassemble_loop_step hi data len n l hpos] at h
      exact EmitsAtZero_trans (reassemble_body_emits hi data len l) (ih _ _ h)
    · rw [reassemble_loop_exit hi data len n l hpos] at h
      simp only [Option.some.injEq] at h
      subst h
      exact EmitsAtZero_refl l.c

theorem reassemble_start_emits (c : Cutter) (offset : Nat) :
    EmitsAtZero c (reassemble_start c offset).c := by
  refine EmitsAtZero_of_eq (EmitsAtZero_refl c) ?_ ?_
  · unfold reassemble_start; split_ifs <;> rfl
  · unfold reassemble_start; split_ifs <;> rfl

/-- The code of `reassemble` after its loop, applied to what the loop leaves behind. -/
theorem reassemble_some (fuel : Nat) (hi : HttpStreamSplitter) (c : Cutter)
    (total offset : Nat) (data : List Nat) (len : Nat) (r : StreamBuffer × Cutter)
    (h : reassemble fuel hi c total offset data len = some r) :
    ∃ l, reassemble_loop hi data len fuel (reassemble_start c offset) = some l ∧
      EmitsAtZero l.c r.2 := by
  unfold reassemble at h
  unfold reassemble_start
  simp only at h
  cases hl : reassemble_loop hi data len fuel
      { c := { (if offset = 0 then
                  { c with padding_read := 0, data_bytes_read := 0, hdr_bytes_read := 0 }
                else c) with cur_data := 0, cur_padding := 0, cur_data_offset := 0 }
        cur_pos := 0
        frame_buf := { data := none, length := 0 } } with
  | none => rw [hl] at h; simp at h
  | some l =>
    rw [hl] at h
    refine ⟨l, rfl, ?_⟩
    simp only at h
    split_ifs at h
    all_goals
      simp only [Option.some.injEq] at h
      subst h
    · exact EmitsAtZero_of_eq
        (EmitsAtZero_hi_reassemble hi
          (c_assert (l.c.reassemble_state = ReassembleState.SEND_CRLF) l.c) FwdKind.TERMINAL
          (c_str END_OF_CHUNK) PKT_PDU_TAIL) rfl rfl
    · exact EmitsAtZero_of_eq (EmitsAtZero_refl l.c) rfl rfl
    · exact EmitsAtZero_of_eq
        (EmitsAtZero_hi_reassemble hi l.c FwdKind.TERMINAL (c_str END_OF_CHUNK) PKT_PDU_TAIL)
        rfl rfl
    · exact EmitsAtZero_refl l.c

/-- C15 (as amended): a call of `reassemble` that returns leaves `bytes_sent_http` as it found
it, and every call it added to the log of downstream reassemble calls (chunk header, payload
pieces, terminal marker) was issued with `total = bytes_sent_http` and `offset = 0`; the same
holds of the context after any number of iterations of the loop, whether or not the call
returns. -/
theorem reassemble_offset_bookkeeping (fuel : Nat) (hi : HttpStreamSplitter) (c : Cutter)
    (total offset : Nat) (data : List Nat) (len : Nat) (r : StreamBuffer × Cutter)
    (h : reassemble fuel hi c total offset data len = some r) :
    r.2.bytes_sent_http = c.bytes_sent_http ∧
    (∃ calls : List ReassembleCall,
      r.2.session_data.hi_reassemble_calls = c.session_data.hi_reassemble_calls ++ calls ∧
      ∀ call ∈ calls, call.total = c.bytes_sent_http ∧ call.offset = 0) ∧
    ∀ n, EmitsAtZero c ((reassemble_body hi data len)^[n] (reassemble_start c offset)).c := by
  obtain ⟨l, hl, hfin⟩ := reassemble_some fuel hi c total offset data len r h
  have hall : EmitsAtZero c r.2 :=
    EmitsAtZero_trans
      (EmitsAtZero_trans (reassemble_start_emits c offset)
        (reassemble_loop_emits hi data len fuel _ l hl)) hfin
  exact ⟨hall.1, hall.2, fun n =>
    EmitsAtZero_trans (reassemble_start_emits c offset)
      (reassemble_iterate_emits hi data len n _)⟩

/-- Worked instance of the amended C15: the unpadded frame `frame_plain2`, scanned in one call
(which leaves `bytes_sent_http = 10`) and reassembled in one call. -/
theorem reassemble_offset_bookkeeping_witness :
    ∃ r, reassemble 3 hi_chunked (cutter_after_scan hi_chunked 2 false frame_plain2) 11 0
        frame_plain2 11 = some r ∧
      r.2.bytes_sent_http = 10 ∧
      ∃ calls : List ReassembleCall,
        r.2.session_data.hi_reassemble_calls = [] ++ calls ∧
        ∀ call ∈ calls, call.total = 10 ∧ call.offset = 0 := by
  have hev : (reassemble 3 hi_chunked (cutter_after_scan hi_chunked 2 false frame_plain2) 11 0
      frame_plain2 11).isSome = true := by decide
  cases hr : reassemble 3 hi_chunked (cutter_after_scan hi_chunked 2 false frame_plain2) 11 0
      frame_plain2 11 with
  | none => rw [hr] at hev; simp at hev
  | some r =>
    have h := reassemble_offset_bookkeeping 3 hi_chunked
      (cutter_after_scan hi_chunked 2 false frame_plain2) 11 0 frame_plain2 11 r hr
    exact ⟨r, rfl, h.1, h.2.1⟩

/-- C15 fails as stated: for the unpadded frame `frame_plain2` (payload `[65, 66]`), scanned
in one call and reassembled in one call, `bytes_sent_http` is 10 before and after the call
that emits the two payload bytes, not increased by 2, and the payload and the terminal marker
are issued at offset 0 although 3 and 5 bytes have been emitted downstream before them. -/
theorem reassemble_emits_at_offset_zero :
    (cutter_after_scan hi_chunked 2 false frame_plain2).bytes_sent_http = 10 ∧
    (reassemble 3 hi_chunked (cutter_after_scan hi_chunked 2 false frame_plain2) 11 0
        frame_plain2 11).map
        (fun r => (r.2.bytes_sent_http, r.2.data_bytes_read,
          r.2.session_data.hi_reassemble_calls)) =
      some (10, 2,
        [{ kind := FwdKind.CHUNK_HDR, total := 10, offset := 0, bytes := [50, 13, 10],
           flags := 0 },
         { kind := FwdKind.PAYLOAD, total := 10, offset := 0, bytes := [65, 66], flags := 0 },
         { kind := FwdKind.TERMINAL, total := 10, offset := 0, bytes := [13, 10, 48, 13, 10],
           flags := PKT_PDU_TAIL }]) ∧
    (reassemble 3 hi_chunked (cutter_after_scan hi_chunked 2 false frame_plain2) 11 0
        frame_plain2 11).map
        (fun r => decide (r.2.bytes_sent_http =
          (cutter_after_scan hi_chunked 2 false frame_plain2).bytes_sent_http + 2)) =
      some false := by
  refine ⟨by decide, by decide, by decide⟩

/-! ## Bounds of the scanner counters -/

theorem CounterInv_of_ScanInv {len : Nat} {padded : Bool} {c : Cutter}
    (h : ScanInv len padded c c.frame_bytes_seen) : CounterInv padded c := by
  obtain ⟨hdl, hpl, _, _⟩ := h.bounds
  have hlen := h.len_lt
  have h1 := h.dbr_le
  have h2 := h.pr_le
  refine ⟨h1, h2, sub32_eq _ _ h1 (by omega), sub32_eq _ _ h2 (by omega), ?_, h.st_full, ?_⟩
  · by_cases hs : c.data_state = DataState.PADDING_LENGTH
    · obtain ⟨_, _, _, h3, h4, h5⟩ := h.st_pl hs
      simp only [padding_length_consumed, hs]
      simp
      omega
    · obtain ⟨h3, _, _⟩ := h.st_npl hs
      have : padding_length_consumed padded c = pad_field padded := by
        simp [padding_length_consumed, pad_field, hs]
      omega
  · intro hs
    obtain ⟨h3, h4⟩ := h.st_padding hs
    exact ⟨h3, by omega⟩

/-- One call of `http2_scan` from a consistent context returns, and the context it leaves
satisfies the counter bounds, also when the call fails at the padding-length byte. -/
theorem http2_scan_call_counters (len : Nat) (padded : Bool) (fuel : Nat) (c : Cutter)
    (data : List Nat) (length : Nat) (hfuel : 4 ≤ fuel) (hlen9 : len + 9 < 4294967296)
    (hlen : length < 4294967296) (hfirst : c.frame_bytes_seen = 0 → 9 ≤ length)
    (hinv : ScanInv len padded (http2_scan_entry c) (http2_scan_entry c).frame_bytes_seen) :
    ∃ r, http2_scan fuel c data length = some r ∧ CounterInv padded r.c ∧
      (r.ok = true → ScanInv len padded r.c r.c.frame_bytes_seen ∧ r.c.frame_bytes_seen ≠ 0) := by
  obtain ⟨n, rfl⟩ : ∃ n, fuel = n + 4 := ⟨fuel - 4, by omega⟩
  by_cases hgood : c.data_state = DataState.PADDING_LENGTH → 0 < scan_length c length →
      padding_length_byte c data + 1 < len
  · obtain ⟨c1, pos, hr, hI, _, hfbs⟩ := http2_scan_ok_spec len padded (n + 4) c data length
      hfuel hlen hfirst hinv hgood
    have e := hfbs (Or.inl hlen9)
    have hS : ScanInv len padded (http2_scan_exit c1 pos)
        (http2_scan_exit c1 pos).frame_bytes_seen := by
      rw [e]
      exact ScanInv_of_same hI.inv rfl rfl rfl rfl rfl rfl
    refine ⟨_, hr, CounterInv_of_ScanInv hS, fun _ => ⟨hS, ?_⟩⟩
    have := hS.bounds.2.2.2
    simp only at this ⊢
    omega
  · simp only [Classical.not_imp, not_lt] at hgood
    obtain ⟨hs, hL, hbad⟩ := hgood
    obtain ⟨_, hdl, _, hdbr, hpr, hf9⟩ := hinv.st_pl (by simpa using hs)
    simp only [http2_scan_entry_data_len] at hdl
    have hb : padding_length_byte c data < 256 := by
      unfold padding_length_byte; omega
    have key : ∀ s : Http2FlowData,
        CounterInv padded
          { http2_scan_entry c with
            padding_len := padding_length_byte c data, session_data := s } := by
      intro s
      refine ⟨?_, ?_, ?_, ?_, ?_, ?_, ?_⟩
      · simp only [hdbr]; omega
      · simp only [hpr]; omega
      · simp only [hdbr, http2_scan_entry_data_len]
        exact sub32_eq _ _ (Nat.zero_le _) (by omega)
      · simp only [hpr]
        exact sub32_eq _ _ (Nat.zero_le _) (by omega)
      · simp only [hdbr, hpr, hf9, padding_length_consumed, http2_scan_entry_data_state, hs]
        simp
      · intro h
        simp only [http2_scan_entry_data_state, hs] at h
        cases h
      · intro h
        simp only [http2_scan_entry_data_state, hs] at h
        cases h
    by_cases h1 : c.data_len ≤ padding_length_byte c data
    · refine ⟨_, http2_scan_eq_PL_malformed (n + 3) c data length hL hs h1, key _, ?_⟩
      intro h; cases h
    · refine ⟨_, http2_scan_eq_PL_all_padding (n + 3) c data length hL hs (by omega), ?_, ?_⟩
      · exact key (http2_scan_entry c).session_data
      · intro h; cases h

/-- A sequence of calls that continues a frame returns, and every context it leaves satisfies
the counter bounds. -/
theorem http2_scan_calls_counters (len : Nat) (padded : Bool) (fuel : Nat) (hfuel : 4 ≤ fuel)
    (hlen9 : len + 9 < 4294967296) :
    ∀ (segs : List (List Nat)) (c : Cutter),
      ScanInv len padded c c.frame_bytes_seen → c.frame_bytes_seen ≠ 0 →
      (∀ seg ∈ segs, seg.length < 4294967296) →
      ∃ rs, http2_scan_calls fuel c segs = some rs ∧ ∀ r ∈ rs, CounterInv padded r.c := by
  intro segs
  induction segs with
  | nil =>
    intro c _ _ _
    exact ⟨[], rfl, by simp⟩
  | cons seg rest ih =>
    intro c hI hne hseg
    obtain ⟨r, hr, hC, hnext⟩ := http2_scan_call_counters len padded fuel c seg seg.length
      hfuel hlen9 (hseg seg (List.mem_cons_self _ _)) (fun h => absurd h hne)
      (ScanInv_entry hI hne)
    by_cases hok : r.ok = true
    · obtain ⟨hI1, hne1⟩ := hnext hok
      obtain ⟨rs, hrs, hall⟩ := ih r.c hI1 hne1 (fun s hs => hseg s (List.mem_cons_of_mem _ hs))
      refine ⟨r :: rs, http2_scan_calls_ok fuel c seg rest r rs hr hok hrs, ?_⟩
      intro x hx
      rcases List.mem_cons.mp hx with rfl | hx
      · exact hC
      · exact hall x hx
    · refine ⟨[r], http2_scan_calls_fail fuel c seg rest r hr (by simpa using hok), ?_⟩
      intro x hx
      rw [List.mem_singleton] at hx
      subst hx
      exact hC

/-- C17: for every frame (constructor length `len` with `len + 9 < 2 ^ 32`, any padded flag)
and every sequence of `http2_scan` calls from a fresh context whose first segment holds at
least the 9 header bytes (the sequence ends with a call that fails, if any), the calls all
return, and in the context each call leaves `data_bytes_read <= data_len` and
`padding_read <= padding_len`, the 32-bit subtractions `data_len - data_bytes_read` and
`padding_len - padding_read` equal the exact differences, `frame_bytes_seen` is
`9 + (1 if the padding-length byte has been consumed) + data_bytes_read + padding_read`,
`FULL_FRAME` implies `data_bytes_read = data_len` and `padding_read = padding_len`, and
`PADDING` implies `data_bytes_read = data_len` and `padding_len > 0`. -/
theorem scanner_counter_bounds (len : Nat) (padded : Bool) (s : Http2FlowData) (fuel : Nat)
    (seg1 : List Nat) (rest : List (List Nat)) (hfuel : 4 ≤ fuel)
    (hlen9 : len + 9 < 4294967296) (hfirst : 9 ≤ seg1.length)
    (hseg : ∀ seg ∈ seg1 :: rest, seg.length < 4294967296) :
    ∃ rs, http2_scan_calls fuel (Cutter.new s len padded) (seg1 :: rest) = some rs ∧
      ∀ r ∈ rs,
        r.c.data_bytes_read ≤ r.c.data_len ∧ r.c.padding_read ≤ r.c.padding_len ∧
        sub32 r.c.data_len r.c.data_bytes_read = r.c.data_len - r.c.data_bytes_read ∧
        sub32 r.c.padding_len r.c.padding_read = r.c.padding_len - r.c.padding_read ∧
        r.c.frame_bytes_seen =
          9 + padding_length_consumed padded r.c + r.c.data_bytes_read + r.c.padding_read ∧
        (r.c.data_state = DataState.FULL_FRAME →
          r.c.data_bytes_read = r.c.data_len ∧ r.c.padding_read = r.c.padding_len) ∧
        (r.c.data_state = DataState.PADDING →
          r.c.data_bytes_read = r.c.data_len ∧ 0 < r.c.padding_len) := by
  have hall : ∃ rs, http2_scan_calls fuel (Cutter.new s len padded) (seg1 :: rest) = some rs ∧
      ∀ r ∈ rs, CounterInv padded r.c := by
    obtain ⟨r, hr, hC, hnext⟩ := http2_scan_call_counters len padded fuel
      (Cutter.new s len padded) seg1 seg1.length hfuel hlen9
      (hseg seg1 (List.mem_cons_self _ _)) (fun _ => hfirst)
      (ScanInv_new_entry s len padded (by omega))
    by_cases hok : r.ok = true
    · obtain ⟨hI1, hne1⟩ := hnext hok
      obtain ⟨rs, hrs, hall⟩ := http2_scan_calls_counters len padded fuel hfuel hlen9 rest r.c
        hI1 hne1 (fun x hx => hseg x (List.mem_cons_of_mem _ hx))
      refine ⟨r :: rs, http2_scan_calls_ok fuel _ seg1 rest r rs hr hok hrs, ?_⟩
      intro x hx
      rcases List.mem_cons.mp hx with rfl | hx
      · exact hC
      · exact hall x hx
    · refine ⟨[r], http2_scan_calls_fail fuel _ seg1 rest r hr (by simpa using hok), ?_⟩
      intro x hx
      rw [List.mem_singleton] at hx
      subst hx
      exact hC
  obtain ⟨rs, hrs, hC⟩ := hall
  exact ⟨rs, hrs, fun r hr =>
    ⟨(hC r hr).dbr_le, (hC r hr).pr_le, (hC r hr).data_sub, (hC r hr).padding_sub,
      (hC r hr).seen, (hC r hr).st_full, (hC r hr).st_padding⟩⟩

/-- Worked instance of C17: a padded frame of constructor length 21 with padding-length
byte 5, scanned in three calls of 10 bytes each; the last call leaves `FULL_FRAME` with
`frame_bytes_seen = 30`. -/
theorem scanner_counter_bounds_witness :
    (4 ≤ 4 ∧ 21 + 9 < 4294967296 ∧ 9 ≤ (header9 ++ [5]).length ∧
      ∀ seg ∈ (header9 ++ [5]) :: [List.replicate 10 7, List.replicate 10 7],
        seg.length < 4294967296) ∧
    ∃ rs, http2_scan_calls 4 (Cutter.new {} 21 true)
        ((header9 ++ [5]) :: [List.replicate 10 7, List.replicate 10 7]) = some rs ∧
      rs.map (fun r => (r.c.data_state, r.c.frame_bytes_seen)) =
        [(DataState.DATA, 10), (DataState.DATA, 20), (DataState.FULL_FRAME, 30)] ∧
      ∀ r ∈ rs, r.c.data_bytes_read ≤ r.c.data_len ∧ r.c.padding_read ≤ r.c.padding_len ∧
        r.c.frame_bytes_seen =
          9 + padding_length_consumed true r.c + r.c.data_bytes_read + r.c.padding_read := by
  have hseg : ∀ seg ∈ (header9 ++ [5]) :: [List.replicate 10 7, List.replicate 10 7],
      seg.length < 4294967296 := by decide
  obtain ⟨rs, hrs, hall⟩ := scanner_counter_bounds 21 true {} 4 (header9 ++ [5])
    [List.replicate 10 7, List.replicate 10 7] (by decide) (by decide) (by decide) hseg
  have hev : (http2_scan_calls 4 (Cutter.new {} 21 true)
      ((header9 ++ [5]) :: [List.replicate 10 7, List.replicate 10 7])).map
        (fun rs => rs.map (fun r => (r.c.data_state, r.c.frame_bytes_seen))) =
      some [(DataState.DATA, 10), (DataState.DATA, 20), (DataState.FULL_FRAME, 30)] := by
    decide
  rw [hrs] at hev
  simp only [Option.map_some', Option.some.injEq] at hev
  exact ⟨⟨by decide, by decide, by decide, hseg⟩, rs, hrs, hev,
    fun r hr => ⟨(hall r hr).1, (hall r hr).2.1, (hall r hr).2.2.2.2.1⟩⟩

end Http2DataCutter
